import Mathlib

/-!
# decksh: a shallow embedding of the deck markup compiler

The definitions below follow `cmd/decksh/decksh.go` function by function and keep
its names; `getheader` is the function of that name in `cmd/dchart/dchart.go`.
Conventions of the embedding:

* The global `emap` is an association list `Store`; `Store.get?` is the Go map read
  `v, ok := emap[k]` and `Store.set` the map write `emap[k] = v`.
* A Go `error` is an `Option String`: `none` is `nil`, `some m` an error whose text is `m`.
* A Go string is a sequence of bytes.  It is represented by a Lean `String` read one
  character per byte, which is exact for ASCII text; `len` is `String.length` and
  `s[i:j]` is `slice s i j`.
* Everything the program takes from the Go standard library and the operating system
  (float64 arithmetic, `strconv`, the `%q` `%g` `%v` `%.2f` verbs of `fmt`,
  `text/scanner`, `strings.Fields`, `math`, `math/rand`, `os/exec`) is a field of the
  structure `Lib`.  Theorems are stated for every `Lib`; `exactLib` is one concrete
  library over the rationals on which the model can be run, with exact arithmetic, and
  `float64Lib` another, with the rounding of binary64.
* The writer `w`, the file system, the position in the random sequence and the text
  written to standard error are the fields of the state `St`.
* A call either returns, panics (a Go run-time panic such as an index out of range)
  or runs out of fuel; this is the type `Outcome`.  Fuel bounds the depth of nested
  `include`/`grid` dispatch and the number of passes of a numeric loop.
* A reader is what a `bufio.Scanner` yields from it: its lines, then the error the scanner
  stops with (`Src`).  Writes to `w` do not fail, a file is read as it was when it was
  opened, and the diagnostics `text/scanner` prints on malformed tokens are left out.
* Handlers that rewrite their token slice in place (`canvas`, `regshapes`) are given by what
  they write; every caller passes a slice it does not read again.
-/

set_option autoImplicit false

namespace Decksh

/-! ## Data model -/

/-- Go error value: none is nil. -/
abbrev Error := Option String

/-- The id=expression map `emap`. -/
abbrev Store := List (String × String)

/-- Map read: the value bound to a key, if any. -/
def Store.get? : Store → String → Option String
  | [], _ => none
  | (k, v) :: rest, s => if k = s then some v else Store.get? rest s

/-- Map write: rebinds an existing key in place, or adds the key. -/
def Store.set : Store → String → String → Store
  | [], k, v => [(k, v)]
  | (k0, v0) :: rest, k, v => if k0 = k then (k0, v) :: rest else (k0, v0) :: Store.set rest k v

/-- The keys of the map. -/
def Store.keys (m : Store) : List String := m.map Prod.fst

/-- What a bufio.Scanner yields from a reader: the lines, then the error it stopped with (nil at end of file). -/
structure Src where
  lines : List String
  err : Error
  deriving DecidableEq, Repr

/-- The file system: file name to content. -/
abbrev Files := List (String × Src)

/-- Content of a named file, if the file exists. -/
def Files.get? : Files → String → Option Src
  | [], _ => none
  | (k, v) :: rest, s => if k = s then some v else Files.get? rest s

/-- Creates or truncates a named file with the given content. -/
def Files.set : Files → String → Src → Files
  | [], k, v => [(k, v)]
  | (k0, v0) :: rest, k, v => if k0 = k then (k0, v) :: rest else (k0, v0) :: Files.set rest k v

/-- The standard library and operating system, as used by decksh. -/
structure Lib (F : Type) where
  /-- strconv.ParseFloat(s, 64): the value, or the text of the error. -/
  parseFloat : String → Except String F
  /-- strconv.FormatFloat(v, 'g', -1, 64). -/
  ftoa : F → String
  /-- The fmt verbs %g and %v on a float64. -/
  fmtG : F → String
  /-- The fmt verb %.2f. -/
  fmtF2 : F → String
  /-- The fmt verb %q on a string. -/
  quote : String → String
  add : F → F → F
  sub : F → F → F
  mul : F → F → F
  div : F → F → F
  /-- The comparison v == 0. -/
  eqZero : F → Bool
  /-- The comparison a <= b. -/
  le : F → F → Bool
  /-- The comparison a > b. -/
  gt : F → F → Bool
  /-- The float64 value of a small integer constant. -/
  ofNat : Nat → F
  /-- The constant 0.5. -/
  half : F
  /-- The constant 0.75. -/
  threeQuarters : F
  /-- The constant math.Pi / 180. -/
  piOver180 : F
  cos : F → F
  sin : F → F
  sqrt : F → F
  atan2 : F → F → F
  /-- The k-th value drawn from rand.Float64. -/
  randFloat : Nat → F
  /-- The token texts text/scanner yields for a line. -/
  scan : String → List String
  /-- The scanner reports end of input at once on the empty line. -/
  scan_nil : scan "" = []
  /-- strings.Fields. -/
  fields : String → List String
  /-- strings.TrimSpace. -/
  trimSpace : String → String
  /-- Text of the error of os.Open on a missing file. -/
  openErr : String → String
  /-- Error of os.Create, nil when the file can be created. -/
  createErr : String → Error
  /-- The test filepath.Base(name) == name. -/
  isBase : String → Bool
  /-- exec.LookPath. -/
  lookPath : String → Except String String
  /-- Standard output of the command run by exec.Cmd.Output, or the text of its error. -/
  runOutput : String → List String → Except String String

deriving instance DecidableEq for Except

/-- How a call ends: it returns, panics, or the model runs out of fuel. -/
inductive Outcome (α : Type) where
  | ret (a : α)
  | panic
  | nofuel
  deriving DecidableEq, Repr

/-- The outcome with a function applied to the returned value. -/
def Outcome.map {α β : Type} (f : α → β) : Outcome α → Outcome β
  | .ret a => .ret (f a)
  | .panic => .panic
  | .nofuel => .nofuel

/-- The mutable world of a compilation. -/
structure St where
  /-- The global id=expression map. -/
  emap : Store
  /-- Everything written to the writer w. -/
  out : String
  /-- The file system. -/
  fs : Files
  /-- Number of values drawn from the random source so far. -/
  rng : Nat
  /-- Everything written to standard error by process. -/
  stderr : String
  deriving DecidableEq, Repr

/-- Result of a directive: the error it returns and the state it leaves. -/
abbrev Result := Outcome (Error × St)

/-- Appends text to the writer. -/
def St.write (st : St) (s : String) : St := { st with out := st.out ++ s }

/-- The map write emap[k] = v. -/
def St.setVar (st : St) (k v : String) : St := { st with emap := st.emap.set k v }

/-- A state with an empty map, nothing written, and the given files. -/
def St.init (fs : Files) : St := { emap := [], out := "", fs := fs, rng := 0, stderr := "" }

/-! ## String helpers -/

/-- The double quote character, 0x22. -/
def doublequote : Char := Char.ofNat 34

/-- A one-character string holding the double quote. -/
def dq : String := String.mk [doublequote]

/-- Go slice expression s[i:j]. -/
def slice (s : String) (i j : Nat) : String := String.mk ((s.data.take j).drop i)

/-- The byte s[i], when i is in range. -/
def byteAt (s : String) (i : Nat) : Option Char := s.data[i]?

/-- The fmt verb %d on a non-negative int. -/
def itoa (n : Nat) : String := Nat.repr n

/-- The fmt verb %v on a []string. -/
def fmtStrs (s : List String) : String := "[" ++ " ".intercalate s ++ "]"

/-- The common prefix of the line-numbered messages. -/
def lineno (n : Nat) : String := "line " ++ itoa n

/-- Replacement of one character by xmlmap. -/
def xmlescChar (c : Char) : List Char :=
  if c = '&' then "&amp;".data
  else if c = '<' then "&lt;".data
  else if c = '>' then "&gt;".data
  else [c]

/-- xmlesc escapes XML. -/
def xmlesc (s : String) : String := String.mk (s.data.flatMap xmlescChar)

/-! ## Expression evaluator -/

/-- eval evaluates an id string. -/
def eval (m : Store) (s : String) : String :=
  match m.get? s with
  | some v => v
  | none => s

/-- simpleassign creates a simple assignment id=number. -/
def simpleassign (st : St) (s : List String) (n : Nat) : Result :=
  match s with
  | s0 :: _ :: s2 :: _ => .ret (none, st.setVar s0 s2)
  | _ => .ret (some (lineno n ++ ": assignment needs id=<expression>"), st)

/-- binop processes a binary expression: id=id op number. -/
def binop {F : Type} (L : Lib F) (st : St) (s : List String) (n : Nat) : Result :=
  let es : Error := some (lineno n ++ ": id=id operation number or id]")
  match s with
  | target :: s1 :: ls :: op :: rs :: _ =>
    if s1 ≠ "=" then .ret (es, st) else
    match L.parseFloat (eval st.emap ls) with
    | .error _ => .ret (some (lineno n ++ ": " ++ ls ++ " is not a number"), st)
    | .ok lv =>
      match L.parseFloat (eval st.emap rs) with
      | .error _ => .ret (some (lineno n ++ ": " ++ rs ++ " is not a number"), st)
      | .ok rv =>
        if op = "+" then .ret (none, st.setVar target (L.ftoa (L.add lv rv)))
        else if op = "-" then .ret (none, st.setVar target (L.ftoa (L.sub lv rv)))
        else if op = "*" then .ret (none, st.setVar target (L.ftoa (L.mul lv rv)))
        else if op = "/" then
          if L.eqZero rv then
            .ret (some (lineno n ++ ": you cannot divide by zero (" ++ L.fmtG lv ++ " / " ++ L.fmtG rv ++ ")"), st)
          else .ret (none, st.setVar target (L.ftoa (L.div lv rv)))
        else .ret (es, st)
  | _ => .ret (es, st)

/-- assignop creates an assignment by computing an operation on an identifier. -/
def assignop {F : Type} (L : Lib F) (st : St) (s : List String) (n : Nat) : Result :=
  let operr : Error := some (lineno n ++ ":  id += number or id -= number")
  match s with
  | s0 :: s1 :: _ :: s3 :: _ =>
    match L.parseFloat (eval st.emap s0) with
    | .error _ => .ret (some (lineno n ++ ": " ++ s0 ++ " is not a number"), st)
    | .ok e =>
      match L.parseFloat s3 with
      | .error _ => .ret (some (lineno n ++ ": " ++ s3 ++ " is not a number"), st)
      | .ok v =>
        if s1 = "+" then .ret (none, st.setVar s0 (L.ftoa (L.add e v)))
        else if s1 = "-" then .ret (none, st.setVar s0 (L.ftoa (L.sub e v)))
        else if s1 = "*" then .ret (none, st.setVar s0 (L.ftoa (L.mul e v)))
        else if s1 = "/" then
          if L.eqZero v then
            .ret (some (lineno n ++ ": you cannot divide by zero (" ++ L.fmtG e ++ " / " ++ L.fmtG v ++ ")"), st)
          else .ret (none, st.setVar s0 (L.ftoa (L.div e v)))
        else .ret (operr, st)
  | _ => .ret (operr, st)

/-- polar converts polar to Cartesian coordinates. -/
def polar {F : Type} (L : Lib F) (cx cy r t : F) : F × F :=
  (L.add (L.mul r (L.cos t)) cx, L.add (L.mul r (L.sin t)) cy)

/-- polarfunc returns polar coordinates. -/
def polarfunc {F : Type} (L : Lib F) (st : St) (s : List String) (n : Nat) : Result :=
  let e : Error := some (lineno n ++ " use: x = polar[x|y] cx cy r theta")
  match s with
  | [] => .panic
  | [_] => .panic
  | [s0, s1, s2, s3, s4, s5, s6] =>
    if s1 ≠ "=" then .ret (e, st)
    else if ¬ (s2 = "polarx" ∨ s2 = "polary") then .ret (e, st)
    else
      match L.parseFloat (eval st.emap s3) with
      | .error m => .ret (some m, st)
      | .ok cx =>
        match L.parseFloat (eval st.emap s4) with
        | .error m => .ret (some m, st)
        | .ok cy =>
          match L.parseFloat (eval st.emap s5) with
          | .error m => .ret (some m, st)
          | .ok r =>
            match L.parseFloat (eval st.emap s6) with
            | .error m => .ret (some m, st)
            | .ok theta =>
              let xy := polar L cx cy r (L.mul theta L.piOver180)
              if s2 = "polarx" then .ret (none, st.setVar s0 (L.ftoa xy.1))
              else if s2 = "polary" then .ret (none, st.setVar s0 (L.ftoa xy.2))
              else .ret (e, st)
  | _ :: _ :: _ => .ret (e, st)

/-- vmap maps one interval to another. -/
def vmap {F : Type} (L : Lib F) (value low1 high1 low2 high2 : F) : F :=
  L.add low2 (L.div (L.mul (L.sub high2 low2) (L.sub value low1)) (L.sub high1 low1))

/-- random returns a bounded random number. -/
def random {F : Type} (L : Lib F) (st : St) (s : List String) (n : Nat) : Result :=
  let e : Error := some (lineno n ++ " use: x = random min max")
  match s with
  | [] => .panic
  | [_] => .panic
  | [_, s1] => if s1 ≠ "=" then .ret (e, st) else .panic
  | s0 :: s1 :: s2 :: rest =>
    if s1 ≠ "=" ∨ s2 ≠ "random" then .ret (e, st)
    else
      match rest with
      | [] => .panic
      | s3 :: rest2 =>
        match L.parseFloat (eval st.emap s3) with
        | .error m => .ret (some m, st)
        | .ok min =>
          match rest2 with
          | [] => .panic
          | s4 :: _ =>
            match L.parseFloat (eval st.emap s4) with
            | .error m => .ret (some m, st)
            | .ok max =>
              let v := vmap L (L.randFloat st.rng) (L.ofNat 0) (L.ofNat 1) min max
              .ret (none, { st.setVar s0 (L.ftoa v) with rng := st.rng + 1 })

/-- vmapfunc translates a value given two ranges. -/
def vmapfunc {F : Type} (L : Lib F) (st : St) (s : List String) (n : Nat) : Result :=
  let e : Error := some (lineno n ++ ": use: v = vmap data min1 max1 min2 max2")
  match s with
  | s0 :: _ :: s2 :: s3 :: s4 :: s5 :: s6 :: s7 :: _ =>
    if s2 ≠ "vmap" then .ret (e, st)
    else
      match L.parseFloat (eval st.emap s3) with
      | .error m => .ret (some m, st)
      | .ok data =>
        match L.parseFloat (eval st.emap s4) with
        | .error m => .ret (some m, st)
        | .ok min1 =>
          match L.parseFloat (eval st.emap s5) with
          | .error m => .ret (some m, st)
          | .ok max1 =>
            match L.parseFloat (eval st.emap s6) with
            | .error m => .ret (some m, st)
            | .ok min2 =>
              match L.parseFloat (eval st.emap s7) with
              | .error m => .ret (some m, st)
              | .ok max2 => .ret (none, st.setVar s0 (L.ftoa (vmap L data min1 max1 min2 max2)))
  | _ => .ret (e, st)

/-- assign creates an assignment by filling in the global id map. -/
def assign {F : Type} (L : Lib F) (st : St) (s : List String) (n : Nat) : Result :=
  if s.length = 3 then simpleassign st s n
  else if s.length = 5 then
    if s[2]? = some "random" then random L st s n else binop L st s n
  else if s.length = 7 then polarfunc L st s n
  else if s.length = 8 then vmapfunc L st s n
  else .ret (some (lineno n ++ ": " ++ fmtStrs s ++ " is a illegal assignment"), st)

/-- parse takes a line of input and returns the parsed tokens, those after the first evaluated. -/
def parse {F : Type} (L : Lib F) (m : Store) (src : String) : List String :=
  match L.scan src with
  | [] => []
  | t0 :: ts => t0 :: ts.map (eval m)

/-! ## Markup emitter -/

/-- endtag ends a deck, slide, or list. -/
def endtag (st : St) (s : List String) (n : Nat) : Result :=
  match s with
  | [] => .panic
  | tag :: _ =>
    if tag.length < 2 ∨ slice tag 0 1 ≠ "e" then
      .ret (some (lineno n ++ ": edeck, eslide, or elist"), st)
    else .ret (none, st.write ("</" ++ slice tag 1 tag.length ++ ">\n"))

/-- fontColorOp generates markup for font, color, and opacity. -/
def fontColorOp {F : Type} (L : Lib F) (s : List String) : String :=
  match s with
  | [a] => "font=" ++ a
  | [a, b] => "font=" ++ a ++ " color=" ++ b
  | [a, b, c] => "font=" ++ a ++ " color=" ++ b ++ " opacity=" ++ L.quote c
  | [a, b, c, d] => "font=" ++ a ++ " color=" ++ b ++ " opacity=" ++ L.quote c ++ " link=" ++ d
  | _ => ""

/-- fontColorOpLp generates markup for font, color, opacity and linespacing. -/
def fontColorOpLp {F : Type} (L : Lib F) (s : List String) : String :=
  match s with
  | [a] => "font=" ++ a
  | [a, b] => "font=" ++ a ++ " color=" ++ b
  | [a, b, c] => "font=" ++ a ++ " color=" ++ b ++ " opacity=" ++ L.quote c
  | [a, b, c, d] => "font=" ++ a ++ " color=" ++ b ++ " opacity=" ++ L.quote c ++ " lp=" ++ L.quote d
  | [a, b, c, d, e] =>
    "font=" ++ a ++ " color=" ++ b ++ " opacity=" ++ L.quote c ++ " lp=" ++ L.quote d ++ " link=" ++ e
  | [a, b, c, d, e, f] =>
    "font=" ++ a ++ " color=" ++ b ++ " opacity=" ++ L.quote c ++ " lp=" ++ L.quote d ++ " link=" ++ e
      ++ " rotation=" ++ L.quote f
  | _ => ""

/-- qesc removes quotes from a string, and XML escapes it. -/
def qesc (s : String) : String :=
  if s.length < 3 then "" else xmlesc (slice s 1 (s.length - 1))

/-- filequote gets a name from a quoted string. -/
def filequote (s : String) (n : Nat) : Except String String :=
  if s.length < 3 then .error (lineno n ++ ": " ++ s ++ " is not a valid filename")
  else if byteAt s 0 ≠ some doublequote ∧ byteAt s (s.length - 1) ≠ some doublequote then
    .error (lineno n ++ ": " ++ s ++ " is not a valid filename")
  else .ok (slice s 1 (s.length - 1))

/-- deck produces the "deck" element. -/
def deck (st : St) (_s : List String) (_n : Nat) : Result :=
  .ret (none, st.write "<deck>\n")

/-- canvas produces the "canvas" element. -/
def canvas {F : Type} (L : Lib F) (st : St) (s : List String) (n : Nat) : Result :=
  match s with
  | [] => .panic
  | [_, s1, s2] =>
    .ret (none, st.write ("<canvas width=" ++ L.quote (eval st.emap s1) ++ " height="
      ++ L.quote (eval st.emap s2) ++ "/>\n"))
  | s0 :: _ => .ret (some (lineno n ++ ": " ++ s0 ++ " width height"), st)

/-- slide produces the "slide" element. -/
def slide (st : St) (s : List String) (n : Nat) : Result :=
  match s with
  | [_] => .ret (none, st.write "<slide>\n")
  | [_, s1] => .ret (none, st.write ("<slide bg=" ++ s1 ++ ">\n"))
  | [_, s1, s2] => .ret (none, st.write ("<slide bg=" ++ s1 ++ " fg=" ++ s2 ++ ">\n"))
  | _ => .ret (some (lineno n ++ ": slide [bgcolor] [fgcolor]"), st)

/-- text generates markup for text. -/
def text {F : Type} (L : Lib F) (st : St) (s : List String) (n : Nat) : Result :=
  match s with
  | [] => .panic
  | s0 :: s1 :: s2 :: s3 :: s4 :: rest =>
    let fco := fontColorOp L rest
    let pos := "xp=" ++ L.quote s2 ++ " yp=" ++ L.quote s3 ++ " sp=" ++ L.quote s4 ++ " "
    if s0 = "text" then
      .ret (none, st.write ("<text " ++ pos ++ fco ++ ">" ++ qesc s1 ++ "</text>\n"))
    else if s0 = "ctext" then
      .ret (none, st.write ("<text align=\"c\" " ++ pos ++ fco ++ ">" ++ qesc s1 ++ "</text>\n"))
    else if s0 = "etext" then
      .ret (none, st.write ("<text align=\"e\" " ++ pos ++ fco ++ ">" ++ qesc s1 ++ "</text>\n"))
    else if s0 = "textfile" then
      .ret (none, st.write ("<text file=" ++ s1 ++ " " ++ pos ++ fontColorOpLp L rest ++ "/>\n"))
    else .ret (none, st)
  | s0 :: _ =>
    .ret (some (lineno n ++ ": " ++ s0 ++ " \"text\" x y size [font] [color] [opacity] [link]"), st)

/-- rtext generates markup for rotated text. -/
def rtext {F : Type} (L : Lib F) (st : St) (s : List String) (n : Nat) : Result :=
  match s with
  | [] => .panic
  | _ :: s1 :: s2 :: s3 :: s4 :: s5 :: rest =>
    let bad : Result := .ret (some (lineno n ++ " " ++ s4 ++ " is not a valid rotation angle"), st)
    match L.parseFloat s4 with
    | .error _ => bad
    | .ok angle =>
      if L.gt angle (L.ofNat 360) then bad
      else
        .ret (none, st.write ("<text xp=" ++ L.quote s2 ++ " yp=" ++ L.quote s3 ++ " rotation="
          ++ L.quote s4 ++ " sp=" ++ L.quote s5 ++ " " ++ fontColorOp L rest ++ ">" ++ qesc s1
          ++ "</text>\n"))
  | s0 :: _ =>
    .ret (some (lineno n ++ ": " ++ s0
      ++ " \"text\" x y angle size [font] [color] [opacity] [link]"), st)

/-- textblock generates markup for a block of text. -/
def textblock {F : Type} (L : Lib F) (st : St) (s : List String) (n : Nat) : Result :=
  match s with
  | [] => .panic
  | _ :: s1 :: s2 :: s3 :: s4 :: s5 :: rest =>
    .ret (none, st.write ("<text type=\"block\" xp=" ++ L.quote s2 ++ " yp=" ++ L.quote s3 ++ " wp="
      ++ L.quote s4 ++ " sp=" ++ L.quote s5 ++ " " ++ fontColorOp L rest ++ ">" ++ qesc s1
      ++ "</text>\n"))
  | s0 :: _ =>
    .ret (some (lineno n ++ ": " ++ s0
      ++ " \"text\" x y width size [font] [color] [opacity] [link]"), st)

/-- textcode generates markup for a block of code. -/
def textcode {F : Type} (L : Lib F) (st : St) (s : List String) (n : Nat) : Result :=
  match s with
  | [] => .panic
  | [_, s1, s2, s3, s4, s5] =>
    .ret (none, st.write ("<text type=\"code\" file=" ++ s1 ++ " xp=" ++ L.quote s2 ++ " yp="
      ++ L.quote s3 ++ " wp=" ++ L.quote s4 ++ " sp=" ++ L.quote s5 ++ "/>\n"))
  | [_, s1, s2, s3, s4, s5, s6] =>
    .ret (none, st.write ("<text type=\"code\" file=" ++ s1 ++ " xp=" ++ L.quote s2 ++ " yp="
      ++ L.quote s3 ++ " wp=" ++ L.quote s4 ++ " sp=" ++ L.quote s5 ++ " color=" ++ s6 ++ "/>\n"))
  | s0 :: _ => .ret (some (lineno n ++ ": " ++ s0 ++ " \"file\" x y width size [color]"), st)

/-- image generates markup for images. -/
def image {F : Type} (L : Lib F) (st : St) (s : List String) (n : Nat) : Result :=
  match s with
  | [] => .panic
  | s0 :: rest =>
    let e : Error := some (lineno n ++ ": " ++ s0 ++ " \"image-file\" x y w h [scale] [link]")
    match rest with
    | s1 :: s2 :: s3 :: s4 :: s5 :: opt =>
      let core := "<image name=" ++ s1 ++ " xp=" ++ L.quote s2 ++ " yp=" ++ L.quote s3 ++ " width="
        ++ L.quote s4 ++ " height=" ++ L.quote s5
      match opt with
      | [] => .ret (none, st.write (core ++ "/>\n"))
      | [s6] => .ret (none, st.write (core ++ " scale=" ++ L.quote s6 ++ "/>\n"))
      | [s6, s7] => .ret (none, st.write (core ++ " scale=" ++ L.quote s6 ++ " link=" ++ s7 ++ "/>\n"))
      | _ => .ret (e, st)
    | _ => .ret (e, st)

/-- cimage makes a captioned image. -/
def cimage {F : Type} (L : Lib F) (st : St) (s : List String) (n : Nat) : Result :=
  match s with
  | [] => .panic
  | s0 :: rest =>
    let e : Error :=
      some (lineno n ++ ": " ++ s0 ++ " \"image-file\" \"caption\" x y w h [scale] [link]")
    match rest with
    | s1 :: s2 :: s3 :: s4 :: s5 :: s6 :: opt =>
      let core := "<image name=" ++ s1 ++ " caption=" ++ xmlesc s2 ++ " xp=" ++ L.quote s3 ++ " yp="
        ++ L.quote s4 ++ " width=" ++ L.quote s5 ++ " height=" ++ L.quote s6
      match opt with
      | [] => .ret (none, st.write (core ++ "/>\n"))
      | [s7] => .ret (none, st.write (core ++ " scale=" ++ L.quote s7 ++ "/>\n"))
      | [s7, s8] => .ret (none, st.write (core ++ " scale=" ++ L.quote s7 ++ " link=" ++ s8 ++ "/>\n"))
      | _ => .ret (e, st)
    | _ => .ret (e, st)

/-- list generates markup for lists. -/
def list {F : Type} (L : Lib F) (st : St) (s : List String) (n : Nat) : Result :=
  match s with
  | [] => .panic
  | s0 :: s1 :: s2 :: s3 :: rest =>
    let fco := if s.length > 4 then fontColorOpLp L rest else ""
    let pos := "xp=" ++ L.quote s1 ++ " yp=" ++ L.quote s2 ++ " sp=" ++ L.quote s3 ++ " " ++ fco ++ ">\n"
    if s0 = "list" then .ret (none, st.write ("<list " ++ pos))
    else if s0 = "blist" then .ret (none, st.write ("<list type=\"bullet\" " ++ pos))
    else if s0 = "nlist" then .ret (none, st.write ("<list type=\"number\" " ++ pos))
    else if s0 = "clist" then .ret (none, st.write ("<list align=\"center\" " ++ pos))
    else .ret (none, st)
  | s0 :: _ =>
    .ret (some (lineno n ++ ": " ++ s0 ++ " x y size [font] [color] [opacity] [lp] [link]"), st)

/-- listitem generates list items. -/
def listitem {F : Type} (L : Lib F) (st : St) (s : List String) (_n : Nat) : Result :=
  match s with
  | [] => .ret (none, st)
  | [_] => .ret (none, st.write "<li/>\n")
  | [_, s1] => .ret (none, st.write ("<li>" ++ qesc s1 ++ "</li>\n"))
  | _ :: s1 :: rest => .ret (none, st.write ("<li " ++ fontColorOp L rest ++ ">" ++ qesc s1 ++ "</li>\n"))

/-- shapes generates markup for rectangle and ellipse. -/
def shapes {F : Type} (L : Lib F) (st : St) (s : List String) (n : Nat) : Result :=
  match s with
  | [] => .panic
  | s0 :: rest =>
    let e : Error := some (lineno n ++ ": " ++ s0 ++ " x y w h [color] [opacity]")
    match rest with
    | s1 :: s2 :: s3 :: s4 :: opt =>
      let dim := "xp=" ++ L.quote s1 ++ " yp=" ++ L.quote s2 ++ " wp=" ++ L.quote s3 ++ " hp="
        ++ L.quote s4
      match opt with
      | [] => .ret (none, st.write ("<" ++ s0 ++ " " ++ dim ++ "/>\n"))
      | [s5] => .ret (none, st.write ("<" ++ s0 ++ " " ++ dim ++ " color=" ++ s5 ++ "/>\n"))
      | [s5, s6] =>
        .ret (none, st.write ("<" ++ s0 ++ " " ++ dim ++ " color=" ++ s5 ++ " opacity=" ++ L.quote s6
          ++ "/>\n"))
      | _ => .ret (e, st)
    | _ => .ret (e, st)

/-- The rewriting of the keyword done in place by regshapes: square to rect, circle to ellipse. -/
def regshapesName (s0 : String) : String :=
  if s0 = "square" then "rect" else if s0 = "circle" then "ellipse" else s0

/-- regshapes generates markup for square and circle. -/
def regshapes {F : Type} (L : Lib F) (st : St) (s : List String) (n : Nat) : Result :=
  match s with
  | [] => .panic
  | s0 :: rest =>
    let e : Error := some (lineno n ++ ": " ++ s0 ++ " x y w [color] [opacity]")
    match rest with
    | s1 :: s2 :: s3 :: opt =>
      let name := regshapesName s0
      let dim := "xp=" ++ L.quote s1 ++ " yp=" ++ L.quote s2 ++ " wp=" ++ L.quote s3 ++ " hr=\"100\""
      match opt with
      | [] => .ret (none, st.write ("<" ++ name ++ " " ++ dim ++ "/>\n"))
      | [s4] => .ret (none, st.write ("<" ++ name ++ " " ++ dim ++ " color=" ++ s4 ++ "/>\n"))
      | [s4, s5] =>
        .ret (none, st.write ("<" ++ name ++ " " ++ dim ++ " color=" ++ s4 ++ " opacity=" ++ L.quote s5
          ++ "/>\n"))
      | _ => .ret (e, st)
    | _ => .ret (e, st)

/-- polygon generates markup for polygons. -/
def polygon {F : Type} (L : Lib F) (st : St) (s : List String) (n : Nat) : Result :=
  match s with
  | [] => .panic
  | s0 :: rest =>
    let e : Error := some (lineno n ++ ": " ++ s0 ++ " \"xcoord\" \"ycoord\" [color] [opacity]")
    match rest with
    | s1 :: s2 :: opt =>
      let core := "<" ++ s0 ++ " xc=" ++ s1 ++ " yc=" ++ s2
      match opt with
      | [] => .ret (none, st.write (core ++ "/>\n"))
      | [s3] => .ret (none, st.write (core ++ " color=" ++ s3 ++ "/>\n"))
      | [s3, s4] => .ret (none, st.write (core ++ " color=" ++ s3 ++ " opacity=" ++ L.quote s4 ++ "/>\n"))
      | _ => .ret (e, st)
    | _ => .ret (e, st)

/-- The optional stroke attributes shared by line, hline, vline, arc and curve. -/
def strokeTail {F : Type} (L : Lib F) (opt : List String) : Option String :=
  match opt with
  | [] => some "/>\n"
  | [a] => some (" sp=" ++ L.quote a ++ "/>\n")
  | [a, b] => some (" sp=" ++ L.quote a ++ " color=" ++ b ++ "/>\n")
  | [a, b, c] => some (" sp=" ++ L.quote a ++ " color=" ++ b ++ " opacity=" ++ L.quote c ++ "/>\n")
  | _ => none

/-- line generates markup for lines. -/
def line {F : Type} (L : Lib F) (st : St) (s : List String) (n : Nat) : Result :=
  match s with
  | [] => .panic
  | s0 :: rest =>
    let e : Error := some (lineno n ++ ": " ++ s0 ++ " x1 y1 x2 y2 [size] [color] [opacity]")
    match rest with
    | s1 :: s2 :: s3 :: s4 :: opt =>
      let lc := "xp1=" ++ L.quote s1 ++ " yp1=" ++ L.quote s2 ++ " xp2=" ++ L.quote s3 ++ " yp2="
        ++ L.quote s4
      match strokeTail L opt with
      | some tail => .ret (none, st.write ("<" ++ s0 ++ " " ++ lc ++ tail))
      | none => .ret (e, st)
    | _ => .ret (e, st)

/-- hline makes a horizontal line. -/
def hline {F : Type} (L : Lib F) (st : St) (s : List String) (n : Nat) : Result :=
  match s with
  | [] => .panic
  | s0 :: rest =>
    let e : Error := some (lineno n ++ ": " ++ s0 ++ " x y length [size] [color] [opacity]")
    match rest with
    | s1 :: s2 :: s3 :: opt =>
      match L.parseFloat s1 with
      | .error m => .ret (some m, st)
      | .ok x1 =>
        match L.parseFloat s3 with
        | .error m => .ret (some m, st)
        | .ok l =>
          let lc := "xp1=" ++ L.quote s1 ++ " yp1=" ++ L.quote s2 ++ " xp2=\"" ++ L.fmtG (L.add x1 l)
            ++ "\" yp2=" ++ L.quote s2
          match strokeTail L opt with
          | some tail => .ret (none, st.write ("<line " ++ lc ++ tail))
          | none => .ret (e, st)
    | _ => .ret (e, st)

/-- vline makes a vertical line. -/
def vline {F : Type} (L : Lib F) (st : St) (s : List String) (n : Nat) : Result :=
  match s with
  | [] => .panic
  | s0 :: rest =>
    let e : Error := some (lineno n ++ ": " ++ s0 ++ " x y length [size] [color] [opacity]")
    match rest with
    | s1 :: s2 :: s3 :: opt =>
      match L.parseFloat s2 with
      | .error m => .ret (some m, st)
      | .ok y1 =>
        match L.parseFloat s3 with
        | .error m => .ret (some m, st)
        | .ok l =>
          let lc := "xp1=" ++ L.quote s1 ++ " yp1=" ++ L.quote s2 ++ " xp2=" ++ L.quote s1
            ++ " yp2=\"" ++ L.fmtG (L.add y1 l) ++ "\""
          match strokeTail L opt with
          | some tail => .ret (none, st.write ("<line " ++ lc ++ tail))
          | none => .ret (e, st)
    | _ => .ret (e, st)

/-- arc makes the markup for arc. -/
def arc {F : Type} (L : Lib F) (st : St) (s : List String) (n : Nat) : Result :=
  match s with
  | [] => .panic
  | s0 :: rest =>
    let e : Error := some (lineno n ++ ": " ++ s0 ++ " cx cy w h a1 a2 [size] [color] [opacity]")
    match rest with
    | s1 :: s2 :: s3 :: s4 :: s5 :: s6 :: opt =>
      let ac := "xp=" ++ L.quote s1 ++ " yp=" ++ L.quote s2 ++ " wp=" ++ L.quote s3 ++ " hp="
        ++ L.quote s4 ++ " a1=" ++ L.quote s5 ++ " a2=" ++ L.quote s6
      match strokeTail L opt with
      | some tail => .ret (none, st.write ("<" ++ s0 ++ " " ++ ac ++ tail))
      | none => .ret (e, st)
    | _ => .ret (e, st)

/-- curve makes a quadratic Bezier curve. -/
def curve {F : Type} (L : Lib F) (st : St) (s : List String) (n : Nat) : Result :=
  match s with
  | [] => .panic
  | s0 :: rest =>
    let e : Error := some (lineno n ++ ": " ++ s0 ++ " x1 y1 x2 y2 x3 y3 [size] [color] [opacity]")
    match rest with
    | s1 :: s2 :: s3 :: s4 :: s5 :: s6 :: opt =>
      let ac := "xp1=" ++ L.quote s1 ++ " yp1=" ++ L.quote s2 ++ " xp2=" ++ L.quote s3 ++ " yp2="
        ++ L.quote s4 ++ " xp3=" ++ L.quote s5 ++ " yp3=" ++ L.quote s6
      match strokeTail L opt with
      | some tail => .ret (none, st.write ("<" ++ s0 ++ " " ++ ac ++ tail))
      | none => .ret (e, st)
    | _ => .ret (e, st)

/-- legend makes the markup for the legend keyword. -/
def legend {F : Type} (L : Lib F) (st : St) (s : List String) (n : Nat) : Result :=
  match s with
  | _ :: s1 :: s2 :: s3 :: s4 :: s5 :: s6 :: rest =>
    match L.parseFloat s2 with
    | .error m => .ret (some m, st)
    | .ok tx =>
      match L.parseFloat s3 with
      | .error m => .ret (some m, st)
      | .ok cy =>
        .ret (none, (st.write ("<text xp=" ++ L.quote (L.ftoa (L.add tx (L.ofNat 2))) ++ " yp="
          ++ L.quote s3 ++ " sp=" ++ L.quote s4 ++ " " ++ fontColorOp L (s5 :: s6 :: rest) ++ ">"
          ++ qesc s1 ++ "</text>\n")).write ("<ellipse xp=" ++ L.quote s2 ++ " yp="
          ++ L.quote (L.ftoa (L.add cy L.half)) ++ " wp=" ++ L.quote s4 ++ " hr=\"100\" color=" ++ s6
          ++ "/>\n"))
  | _ => .ret (some (lineno n ++ ": legend \"text\" x y size font color"), st)

/-! ## Braces and arrows -/

/-- The format curvefmt applied to six coordinates and an attribute string. -/
def curvefmt {F : Type} (L : Lib F) (a b c d e f : F) (attr : String) : String :=
  "<curve xp1=\"" ++ L.fmtF2 a ++ "\" yp1=\"" ++ L.fmtF2 b ++ "\" xp2=\"" ++ L.fmtF2 c ++ "\" yp2=\""
    ++ L.fmtF2 d ++ "\" xp3=\"" ++ L.fmtF2 e ++ "\" yp3=\"" ++ L.fmtF2 f ++ "\" " ++ attr ++ "/>\n"

/-- The format linefmt applied to four coordinates and an attribute string. -/
def linefmt {F : Type} (L : Lib F) (a b c d : F) (attr : String) : String :=
  "<line xp1=\"" ++ L.fmtF2 a ++ "\" yp1=\"" ++ L.fmtF2 b ++ "\" xp2=\"" ++ L.fmtF2 c ++ "\" yp2=\""
    ++ L.fmtF2 d ++ "\" " ++ attr ++ "/>\n"

/-- lbrace makes a left-facing brace: the six segments it writes, in order. -/
def lbrace {F : Type} (L : Lib F) (x y size aw ah : F) (attr : String) : List String :=
  let aw2 := L.div aw (L.ofNat 2)
  let h2 := L.div size (L.ofNat 2)
  let linelen := L.sub h2 (L.div ah (L.ofNat 2))
  let xshift := L.add x aw2
  [ curvefmt L x y xshift y xshift (L.add y ah) attr,
    curvefmt L x y xshift y xshift (L.sub y ah) attr,
    curvefmt L xshift (L.add y linelen) xshift (L.add y h2) (L.add x aw) (L.add y h2) attr,
    curvefmt L xshift (L.sub y linelen) xshift (L.sub y h2) (L.add x aw) (L.sub y h2) attr,
    linefmt L xshift (L.add y ah) xshift (L.add y linelen) attr,
    linefmt L xshift (L.sub y ah) xshift (L.sub y linelen) attr ]

/-- rbrace makes a right-facing brace: the six segments it writes, in order. -/
def rbrace {F : Type} (L : Lib F) (x y size aw ah : F) (attr : String) : List String :=
  let aw2 := L.div aw (L.ofNat 2)
  let h2 := L.div size (L.ofNat 2)
  let linelen := L.sub h2 (L.div ah (L.ofNat 2))
  let xshift := L.sub x aw2
  [ curvefmt L x y xshift y xshift (L.add y ah) attr,
    curvefmt L x y xshift y xshift (L.sub y ah) attr,
    curvefmt L xshift (L.add y linelen) xshift (L.add y h2) (L.sub x aw) (L.add y h2) attr,
    curvefmt L xshift (L.sub y linelen) xshift (L.sub y h2) (L.sub x aw) (L.sub y h2) attr,
    linefmt L xshift (L.add y ah) xshift (L.add y linelen) attr,
    linefmt L xshift (L.sub y ah) xshift (L.sub y linelen) attr ]

/-- ubrace makes an upwards-facing brace: the six segments it writes, in order. -/
def ubrace {F : Type} (L : Lib F) (x y size aw ah : F) (attr : String) : List String :=
  let linelen := L.sub (L.div size (L.ofNat 2)) aw
  let yshift := L.sub y ah
  [ curvefmt L x y x yshift (L.add x aw) yshift attr,
    curvefmt L x y x yshift (L.sub x aw) yshift attr,
    linefmt L (L.add x aw) yshift (L.add x linelen) yshift attr,
    linefmt L (L.sub x aw) yshift (L.sub x linelen) yshift attr,
    curvefmt L (L.add x linelen) yshift (L.add (L.add x linelen) aw) yshift
      (L.add (L.add x linelen) aw) (L.sub y (L.mul (L.ofNat 2) ah)) attr,
    curvefmt L (L.sub x linelen) yshift (L.sub (L.sub x linelen) aw) yshift
      (L.sub (L.sub x linelen) aw) (L.sub y (L.mul (L.ofNat 2) ah)) attr ]

/-- dbrace makes a downward-facing brace: the six segments it writes, in order. -/
def dbrace {F : Type} (L : Lib F) (x y size aw ah : F) (attr : String) : List String :=
  let linelen := L.sub (L.div size (L.ofNat 2)) aw
  let yshift := L.add y ah
  [ curvefmt L x y x yshift (L.add x aw) yshift attr,
    curvefmt L x y x yshift (L.sub x aw) yshift attr,
    linefmt L (L.add x aw) yshift (L.add x linelen) yshift attr,
    linefmt L (L.sub x aw) yshift (L.sub x linelen) yshift attr,
    curvefmt L (L.add x linelen) yshift (L.add (L.add x linelen) aw) yshift
      (L.add (L.add x linelen) aw) (L.add y (L.mul (L.ofNat 2) ah)) attr,
    curvefmt L (L.sub x linelen) yshift (L.sub (L.sub x linelen) aw) yshift
      (L.sub (L.sub x linelen) aw) (L.add y (L.mul (L.ofNat 2) ah)) attr ]

/-- The message of brace for an operand that is not a number. -/
def notNumber (n : Nat) (tok : String) : Error := some (lineno n ++ ": " ++ tok ++ " is not a number")

/-- The optional arguments of brace (line width, color, opacity) turned into the attribute string;
an error when the line width or the opacity is not a number. -/
def braceAttr {F : Type} (L : Lib F) (opt : List String) (n : Nat) : Except Error String :=
  match opt with
  | [] => .ok ""
  | s6 :: rest =>
    match L.parseFloat s6 with
    | .error _ => .error (notNumber n s6)
    | .ok _ =>
      let a1 := "sp=\"" ++ s6 ++ "\""
      match rest with
      | [] => .ok a1
      | s7 :: rest2 =>
        let a2 := a1 ++ " color=" ++ s7
        match rest2 with
        | [] => .ok a2
        | s8 :: _ =>
          match L.parseFloat s8 with
          | .error _ => .error (notNumber n s8)
          | .ok _ => .ok (a2 ++ " opacity=\"" ++ s8 ++ "\"")

/-- brace makes various kinds of braces: left, right, up, down. -/
def brace {F : Type} (L : Lib F) (st : St) (s : List String) (n : Nat) : Result :=
  match s with
  | s0 :: s1 :: s2 :: s3 :: s4 :: s5 :: opt =>
    match L.parseFloat s1 with
    | .error _ => .ret (notNumber n s1, st)
    | .ok x =>
      match L.parseFloat s2 with
      | .error _ => .ret (notNumber n s2, st)
      | .ok y =>
        match L.parseFloat s3 with
        | .error _ => .ret (notNumber n s3, st)
        | .ok size =>
          match L.parseFloat s4 with
          | .error _ => .ret (notNumber n s5, st)
          | .ok aw =>
            match L.parseFloat s5 with
            | .error _ =>
              match opt with
              | [] => .panic
              | s6 :: _ => .ret (notNumber n s6, st)
            | .ok ah =>
              match braceAttr L opt n with
              | .error e => .ret (e, st)
              | .ok attr =>
                if s0 = "lbrace" then .ret (none, st.write (String.join (lbrace L x y size aw ah attr)))
                else if s0 = "rbrace" then
                  .ret (none, st.write (String.join (rbrace L x y size aw ah attr)))
                else if s0 = "ubrace" then
                  .ret (none, st.write (String.join (ubrace L x y size aw ah attr)))
                else if s0 = "dbrace" then
                  .ret (none, st.write (String.join (dbrace L x y size aw ah attr)))
                else
                  .ret (some (lineno n
                    ++ ": use lbrace (left), rbrace (right), ubrace (up), dbrace (down)"), st)
  | _ =>
    .ret (some (lineno n
      ++ ": [l,r,u,d]brace x y size aw ah [linewidth] [color] [opacity]"), st)

/-- angle computes the angle formed by a line. -/
def angle {F : Type} (L : Lib F) (x1 y1 x2 y2 : F) : F := L.atan2 (L.sub y2 y1) (L.sub x2 x1)

/-- rt returns the distance and angle of a line. -/
def rt {F : Type} (L : Lib F) (x1 y1 x2 y2 : F) : F × F :=
  let dx := L.sub x2 x1
  let dy := L.sub y2 y1
  (L.sqrt (L.add (L.mul dx dx) (L.mul dy dy)), L.atan2 dy dx)

/-- The four points of an arrowhead: abscissas then ordinates. -/
structure Head (F : Type) where
  ax1 : F
  ax2 : F
  ax3 : F
  ax4 : F
  ay1 : F
  ay2 : F
  ay3 : F
  ay4 : F

/-- genarrow returns the components of an arrow. -/
def genarrow {F : Type} (L : Lib F) (x1 y1 x2 y2 aw ah : F) : Head F :=
  let r := (rt L x1 y1 x2 y2).1
  let t := (rt L x1 y1 x2 y2).2
  let n := L.sub r (L.mul aw L.threeQuarters)
  let nt := angle L x1 y1 (L.add x1 n) (L.add y1 (L.div ah (L.ofNat 2)))
  let p1 := polar L x1 y1 r t
  let p2 := polar L x1 y1 (L.sub r aw) (L.add t nt)
  let p3 := polar L x1 y1 n t
  let p4 := polar L x1 y1 (L.sub r aw) (L.sub t nt)
  { ax1 := p1.1, ay1 := p1.2, ax2 := p2.1, ay2 := p2.2, ax3 := p3.1, ay3 := p3.2,
    ax4 := p4.1, ay4 := p4.2 }

/-- The polygon element written for an arrowhead. -/
def headPolygon {F : Type} (L : Lib F) (h : Head F) (color opacity : String) : String :=
  "<polygon xc=\"" ++ L.fmtG h.ax1 ++ " " ++ L.fmtG h.ax2 ++ " " ++ L.fmtG h.ax3 ++ " "
    ++ L.fmtG h.ax4 ++ "\" yc=\"" ++ L.fmtG h.ay1 ++ " " ++ L.fmtG h.ay2 ++ " " ++ L.fmtG h.ay3
    ++ " " ++ L.fmtG h.ay4 ++ "\" color=" ++ color ++ " opacity=" ++ L.quote opacity ++ "/>\n"

/-- The optional operand at index i parsed as a number when the record is long enough,
else the default. -/
def optFloat {F : Type} (L : Lib F) (s : List String) (i : Nat) (dflt : F) : Except String F :=
  if s.length ≥ i + 1 then L.parseFloat (s.getD i "") else .ok dflt

/-- arrow draws a general arrow given two points. -/
def arrow {F : Type} (L : Lib F) (st : St) (s : List String) (n : Nat) : Result :=
  match s with
  | _ :: s1 :: s2 :: s3 :: s4 :: _ =>
    match L.parseFloat s1 with
    | .error m => .ret (some m, st)
    | .ok x1 =>
      match L.parseFloat s2 with
      | .error m => .ret (some m, st)
      | .ok y1 =>
        match L.parseFloat s3 with
        | .error m => .ret (some m, st)
        | .ok x2 =>
          match L.parseFloat s4 with
          | .error m => .ret (some m, st)
          | .ok y2 =>
            let lw := if s.length ≥ 6 then s.getD 5 "" else "0.2"
            match optFloat L s 6 (L.ofNat 3) with
            | .error m => .ret (some m, st)
            | .ok aw =>
              match optFloat L s 7 (L.ofNat 3) with
              | .error m => .ret (some m, st)
              | .ok ah =>
                let color := if s.length ≥ 9 then s.getD 8 "" else "\"gray\""
                let opacity := if s.length = 10 then s.getD 9 "" else "100"
                let h := genarrow L x1 y1 x2 y2 aw ah
                .ret (none, (st.write ("<line xp1=" ++ L.quote s1 ++ " yp1=" ++ L.quote s2
                  ++ " xp2=\"" ++ L.fmtG h.ax3 ++ "\" yp2=\"" ++ L.fmtG h.ay3 ++ "\" sp="
                  ++ L.quote lw ++ " color=" ++ color ++ " opacity=" ++ L.quote opacity
                  ++ "/>\n")).write (headPolygon L h color opacity))
  | _ =>
    .ret (some ("line: " ++ itoa n
      ++ " arrow x1 y1 x2 y2 [linewidth] [arrowidth] [arrowheight] [color] [opacity]"), st)

/-- arrowhead returns the coordinates for left, right, up, down arrowheads. -/
def arrowhead {F : Type} (L : Lib F) (x y ah aw notch : F) (arrowtype : Option Char) : Head F :=
  let two := L.ofNat 2
  if arrowtype = some 'r' then
    { ax1 := x, ax2 := L.sub x aw, ax3 := L.sub x (L.mul aw notch), ax4 := L.sub x aw,
      ay1 := y, ay2 := L.add y (L.div ah two), ay3 := y, ay4 := L.sub y (L.div ah two) }
  else if arrowtype = some 'l' then
    { ax1 := x, ax2 := L.add x aw, ax3 := L.add x (L.mul aw notch), ax4 := L.add x aw,
      ay1 := y, ay2 := L.add y (L.div ah two), ay3 := y, ay4 := L.sub y (L.div ah two) }
  else if arrowtype = some 'u' then
    { ax1 := x, ax2 := L.add x (L.div aw two), ax3 := x, ax4 := L.sub x (L.div aw two),
      ay1 := y, ay2 := L.sub y ah, ay3 := L.sub y (L.mul ah notch), ay4 := L.sub y ah }
  else if arrowtype = some 'd' then
    { ax1 := x, ax2 := L.add x (L.div aw two), ax3 := x, ax4 := L.sub x (L.div aw two),
      ay1 := y, ay2 := L.add y ah, ay3 := L.add y (L.mul ah notch), ay4 := L.add y ah }
  else
    { ax1 := L.ofNat 0, ax2 := L.ofNat 0, ax3 := L.ofNat 0, ax4 := L.ofNat 0,
      ay1 := L.ofNat 0, ay2 := L.ofNat 0, ay3 := L.ofNat 0, ay4 := L.ofNat 0 }

/-- carrow makes an arrow with a curved line. -/
def carrow {F : Type} (L : Lib F) (st : St) (s : List String) (n : Nat) : Result :=
  let e : Error := some ("line: " ++ itoa n
    ++ " [l|r|u|d]carrow x1 y1 x2 y2 x3 y3 [linewidth] [arrowidth] [arrowheight] [color] [opacity]")
  match s with
  | [] => .panic
  | s0 :: rest =>
    if s0.length < 7 then .ret (e, st)
    else
      match rest with
      | s1 :: s2 :: s3 :: s4 :: s5 :: s6 :: _ =>
        let lw := if s.length ≥ 8 then s.getD 7 "" else "0.2"
        let color := if s.length ≥ 11 then s.getD 10 "" else "\"gray\""
        let opacity := if s.length = 12 then s.getD 11 "" else "100"
        match L.parseFloat s5 with
        | .error m => .ret (some m, st)
        | .ok x =>
          match L.parseFloat s6 with
          | .error _ => .ret (none, st)
          | .ok y =>
            match optFloat L s 8 (L.ofNat 3) with
            | .error m => .ret (some m, st)
            | .ok aw =>
              match optFloat L s 9 (L.ofNat 3) with
              | .error m => .ret (some m, st)
              | .ok ah =>
                let h := arrowhead L x y ah aw L.threeQuarters (byteAt s0 0)
                let curvestring :=
                  ["curve", s1, s2, s3, s4, L.ftoa h.ax3, L.ftoa h.ay3, lw, color, opacity]
                match curve L st curvestring n with
                | .ret (_, st2) => .ret (none, st2.write (headPolygon L h color opacity))
                | .panic => .panic
                | .nofuel => .nofuel
      | _ => .ret (e, st)

/-- Removal of the quotes around a substituted chart argument. -/
def chartUnquote (a : String) : String :=
  if a.length > 2 ∧ byteAt a 0 = some doublequote ∧ byteAt a (a.length - 1) = some doublequote then
    slice a 1 (a.length - 1)
  else a

/-- chart runs the chart command. -/
def chart {F : Type} (L : Lib F) (st : St) (t : String) (n : Nat) : Result :=
  match L.fields t with
  | [] => .panic
  | a0 :: as =>
    let cmdline := (as.map (fun a => chartUnquote (eval st.emap a))).foldl
      (fun acc a => acc ++ " " ++ a) a0
    match L.fields cmdline with
    | [] => .panic
    | name :: args =>
      let path : Except String String := if L.isBase name then L.lookPath name else .ok name
      match path with
      | .error m => .ret (some ("line: " ++ itoa n ++ ", " ++ name ++ " - " ++ m), st)
      | .ok p =>
        match L.runOutput p (name :: args) with
        | .error m => .ret (some ("line: " ++ itoa n ++ " [" ++ cmdline ++ "] - " ++ m), st)
        | .ok out => .ret (none, st.write (out ++ "\n"))

/-! ## Loop engine -/

/-- isaop tests for assignment operators. -/
def isaop (s : List String) : Bool :=
  match s with
  | _ :: op :: s2 :: _ :: _ =>
    decide ((op = "+" ∨ op = "-" ∨ op = "*" ∨ op = "/") ∧ s2 = "=")
  | _ => false

/-- Types of for loops. -/
inductive LoopKind where
  | noloop
  | numloop
  | fileloop
  | vectloop
  deriving DecidableEq, Repr

/-- fortype returns the type of for loop. -/
def fortype (s : List String) : LoopKind :=
  match s with
  | _ :: _ :: s2 :: s3 :: _ =>
    if s2 ≠ "=" then .noloop
    else if s3 = "[" ∧ s.getLast? = some "]" then .vectloop
    else if s.length = 4 ∧ s3.length > 3 ∧ byteAt s3 0 = some doublequote
        ∧ byteAt s3 (s3.length - 1) = some doublequote then .fileloop
    else if s.length = 5 ∨ s.length = 6 then .numloop
    else .noloop
  | _ => .noloop

/-- forvector returns the elements between "[" and "]". -/
def forvector (s : List String) : Except String (List String) :=
  if s.length < 5 then .error ("incomplete for: " ++ fmtStrs s)
  else .ok ((s.drop 4).take (s.length - 5))

/-- forfile reads and returns the contents of the file in for x = "file". -/
def forfile {F : Type} (L : Lib F) (fs : Files) (s : List String) : Outcome (List String × Error) :=
  match s[3]? with
  | none => .panic
  | some q =>
    if q.length < 2 then .panic
    else
      match fs.get? (slice q 1 (q.length - 1)) with
      | none => .ret ([], some (L.openErr (slice q 1 (q.length - 1))))
      | some src => .ret (src.lines, src.err)

/-- fornum returns the arguments of for x=begin end [incr]. -/
def fornum {F : Type} (L : Lib F) (s : List String) (n : Nat) : Except String (F × F × F) :=
  match s with
  | _ :: _ :: _ :: s3 :: s4 :: rest =>
    match L.parseFloat s3 with
    | .error m => .error m
    | .ok b =>
      match L.parseFloat s4 with
      | .error m => .error m
      | .ok e =>
        match rest with
        | [] => .ok (b, e, L.ofNat 1)
        | s5 :: _ =>
          match L.parseFloat s5 with
          | .error m => .error m
          | .ok i => .ok (b, e, i)
  | _ => .error (lineno n ++ ": for begin end [incr] ... efor")

/-- forbody collects items within a for loop body: the collected records and the lines left
in the scanner. -/
def forbody {F : Type} (L : Lib F) (m : Store) : List String → List (List String) × List String
  | [] => ([], [])
  | t :: rest =>
    match parse L m t with
    | [] => forbody L m rest
    | p0 :: ps =>
      if p0 = "efor" then ([], rest)
      else ((p0 :: ps) :: (forbody L m rest).1, (forbody L m rest).2)

/-- The dispatcher as seen by its callers. -/
abbrev KP := St → List String → String → Nat → Result

/-- The compiler of one input, as seen by include. -/
abbrev PROC := St → Src → Result

/-- The two formats evaloop is called with: "%s" and "\"%s\"". -/
inductive Format where
  | plain
  | quoted
  deriving DecidableEq, Repr

/-- Sprintf of a format on one string. -/
def Format.sprintf : Format → String → String
  | .plain, v => v
  | .quoted, v => "\"" ++ v ++ "\""

/-- The copy of a body record with the loop variable replaced. -/
def substFor (forvar : String) (format : Format) (v : String) (s : List String) : List String :=
  s.map (fun tok => if tok = forvar then format.sprintf v else tok)

/-- evaloop evaluates items in a loop body; the error of the dispatcher is dropped. -/
def evaloop (kp : KP) (st : St) (forvar : String) (format : Format) (v : String) (s : List String)
    (n : Nat) : Outcome St :=
  match kp st (substFor forvar format v s) "" n with
  | .ret (_, st2) => .ret st2
  | .panic => .panic
  | .nofuel => .nofuel

/-- One pass over the buffered body: evaloop on every record in order. -/
def evalbody (kp : KP) (forvar : String) (format : Format) (v : String) (n : Nat) :
    List (List String) → St → Outcome St
  | [], st => .ret st
  | fb :: rest, st =>
    match evaloop kp st forvar format v fb n with
    | .ret st2 => evalbody kp forvar format v n rest st2
    | .panic => .panic
    | .nofuel => .nofuel

/-- The loop of parsefor over a list of values (inline list or file lines). -/
def listloop (kp : KP) (forvar : String) (body : List (List String)) (n : Nat) :
    List String → St → Outcome St
  | [], st => .ret st
  | v :: vs, st =>
    match evalbody kp forvar .quoted v n body st with
    | .ret st2 => listloop kp forvar body n vs st2
    | .panic => .panic
    | .nofuel => .nofuel

/-- The numeric loop of parsefor: for v := begin; v <= end; v += incr. -/
def numloopRun {F : Type} (L : Lib F) (kp : KP) (forvar : String) (body : List (List String))
    (n : Nat) (en incr : F) : Nat → F → St → Outcome St
  | 0, _, _ => .nofuel
  | fuel + 1, v, st =>
    if L.le v en then
      match evalbody kp forvar .plain (L.ftoa v) n body st with
      | .ret st2 => numloopRun L kp forvar body n en incr fuel (L.add v incr) st2
      | .panic => .panic
      | .nofuel => .nofuel
    else .ret st

/-- parsefor collects and evaluates a loop body; also returns the lines left in the scanner. -/
def parsefor {F : Type} (L : Lib F) (kp : KP) (fuel : Nat) (st : St) (s : List String) (n : Nat)
    (lines : List String) : Outcome (Error × St × List String) :=
  match s[1]? with
  | none => .panic
  | some forvar =>
    let body := (forbody L st.emap lines).1
    let rest := (forbody L st.emap lines).2
    match fortype s with
    | .numloop =>
      match fornum L s n with
      | .error m => .ret (some m, st, rest)
      | .ok (b, e, i) =>
        match numloopRun L kp forvar body n e i fuel b st with
        | .ret st2 => .ret (none, st2, rest)
        | .panic => .panic
        | .nofuel => .nofuel
    | .vectloop =>
      match forvector s with
      | .error m => .ret (some m, st, rest)
      | .ok vl =>
        match listloop kp forvar body n vl st with
        | .ret st2 => .ret (none, st2, rest)
        | .panic => .panic
        | .nofuel => .nofuel
    | .fileloop =>
      match forfile L st.fs s with
      | .panic => .panic
      | .nofuel => .nofuel
      | .ret (_, some m) => .ret (some m, st, rest)
      | .ret (fl, none) =>
        match listloop kp forvar body n fl st with
        | .ret st2 => .ret (none, st2, rest)
        | .panic => .panic
        | .nofuel => .nofuel
    | .noloop => .ret (some (lineno n ++ ": incorrect for loop: " ++ fmtStrs s), st, rest)

/-! ## Structural directives -/

/-- The lines loadata writes to the data file, and the lines left in the scanner. -/
def dataLines {F : Type} (L : Lib F) : List String → List String × List String
  | [] => ([], [])
  | t :: rest =>
    if L.trimSpace t = "edata" then ([], rest)
    else
      match L.fields t with
      | [f0, f1] => ((f0 ++ "\t" ++ f1) :: (dataLines L rest).1, (dataLines L rest).2)
      | _ => dataLines L rest

/-- loadata creates a file using the data keyword; also returns the lines left in the scanner. -/
def loadata {F : Type} (L : Lib F) (st : St) (s : List String) (n : Nat) (lines : List String) :
    Error × St × List String :=
  match s with
  | [_, s1] =>
    match filequote s1 n with
    | .error m => (some m, st, lines)
    | .ok filearg =>
      match L.createErr filearg with
      | some m => (some (lineno n ++ ": " ++ fmtStrs s ++ " (" ++ m ++ ")"), st, lines)
      | none =>
        (none, { st with fs := st.fs.set filearg { lines := (dataLines L lines).1, err := none } },
          (dataLines L lines).2)
  | _ => (some (lineno n ++ ": data \"file\"...edata"), st, lines)

/-- The function include (a reserved word here): inserts the contents of a file. -/
def includeFile {F : Type} (L : Lib F) (proc : PROC) (st : St) (s : List String) (n : Nat) : Result :=
  match s with
  | [_, s1] =>
    match filequote s1 n with
    | .error m => .ret (some m, st)
    | .ok filearg =>
      match st.fs.get? filearg with
      | none => .ret (some (L.openErr filearg), st)
      | some r => proc st r
  | _ => .ret (some (lineno n ++ ": include \"file\""), st)

/-- subxy replaces the "x" and "y" arguments with the named values. -/
def subxy {F : Type} (L : Lib F) (m : Store) (s : String) (x y : F) : List String :=
  let args := parse L m s
  if args.length < 3 then []
  else args.map (fun a =>
    let a1 := if a = "x" then L.fmtG x else a
    if a1 = "y" then L.fmtG y else a1)

/-- The loop of grid over the lines of the data file. -/
def gridloop {F : Type} (L : Lib F) (kp : KP) (n : Nat) (x yint xint limit : F) :
    List String → F → F → St → Outcome St
  | [], _, _, st => .ret st
  | t :: rest, xp, yp, st =>
    let xp1 := if L.gt xp limit then x else xp
    let yp1 := if L.gt xp limit then L.sub yp yint else yp
    if t.length = 0 then gridloop L kp n x yint xint limit rest xp1 yp1 st
    else
      match kp st (subxy L st.emap t xp1 yp1) t n with
      | .ret (_, st2) => gridloop L kp n x yint xint limit rest (L.add xp1 xint) yp1 st2
      | .panic => .panic
      | .nofuel => .nofuel

/-- grid places objects read from a file in a grid. -/
def grid {F : Type} (L : Lib F) (kp : KP) (st : St) (s : List String) (n : Nat) : Result :=
  match s with
  | [] => .panic
  | _ :: s1 :: s2 :: s3 :: s4 :: s5 :: s6 :: _ =>
    match L.parseFloat (eval st.emap s2) with
    | .error m => .ret (some m, st)
    | .ok x =>
      match L.parseFloat (eval st.emap s3) with
      | .error m => .ret (some m, st)
      | .ok y =>
        match L.parseFloat (eval st.emap s4) with
        | .error m => .ret (some m, st)
        | .ok xint =>
          match L.parseFloat (eval st.emap s5) with
          | .error m => .ret (some m, st)
          | .ok yint =>
            match L.parseFloat (eval st.emap s6) with
            | .error m => .ret (some m, st)
            | .ok limit =>
              match filequote s1 n with
              | .error m => .ret (some m, st)
              | .ok filearg =>
                match st.fs.get? filearg with
                | none => .ret (some (L.openErr filearg), st)
                | some r =>
                  match gridloop L kp n x yint xint limit r.lines x y st with
                  | .ret st2 => .ret (r.err, st2)
                  | .panic => .panic
                  | .nofuel => .nofuel
  | s0 :: _ => .ret (some (lineno n ++ ": " ++ s0 ++ " \"file\" x y xint yint xlimit"), st)

/-! ## Keyword dispatcher -/

/-- The keywords of the switch in keyparse. -/
def keywords : List String :=
  ["deck", "canvas", "include", "slide", "grid", "text", "ctext", "etext", "textfile", "rtext",
   "textblock", "textcode", "image", "cimage", "list", "blist", "nlist", "clist", "elist",
   "eslide", "edeck", "li", "ellipse", "rect", "circle", "square", "polygon", "poly", "line",
   "arc", "curve", "legend", "arrow", "lbrace", "rbrace", "ubrace", "dbrace", "lcarrow",
   "rcarrow", "ucarrow", "dcarrow", "vline", "hline", "dchart", "chart"]

/-- The default case of keyparse: not a keyword, process assignments. -/
def keyparseDefault {F : Type} (L : Lib F) (st : St) (tokens : List String) (n : Nat) : Result :=
  if tokens.length > 1 ∧ tokens[1]? = some "=" then assign L st tokens n
  else if isaop tokens then assignop L st tokens n
  else .ret (none, st)

/-- keyparse parses keywords and executes; kp and proc are the dispatcher and the compiler
called by grid and include. -/
def keyparseStep {F : Type} (L : Lib F) (kp : KP) (proc : PROC) (st : St) (tokens : List String)
    (t : String) (n : Nat) : Result :=
  match tokens with
  | [] => .panic
  | k :: _ =>
    if k = "deck" then deck st tokens n
    else if k = "canvas" then canvas L st tokens n
    else if k = "include" then includeFile L proc st tokens n
    else if k = "slide" then slide st tokens n
    else if k = "grid" then grid L kp st tokens n
    else if k = "text" ∨ k = "ctext" ∨ k = "etext" ∨ k = "textfile" then text L st tokens n
    else if k = "rtext" then rtext L st tokens n
    else if k = "textblock" then textblock L st tokens n
    else if k = "textcode" then textcode L st tokens n
    else if k = "image" then image L st tokens n
    else if k = "cimage" then cimage L st tokens n
    else if k = "list" ∨ k = "blist" ∨ k = "nlist" ∨ k = "clist" then list L st tokens n
    else if k = "elist" ∨ k = "eslide" ∨ k = "edeck" then endtag st tokens n
    else if k = "li" then listitem L st tokens n
    else if k = "ellipse" ∨ k = "rect" then shapes L st tokens n
    else if k = "circle" ∨ k = "square" then regshapes L st tokens n
    else if k = "polygon" ∨ k = "poly" then polygon L st tokens n
    else if k = "line" then line L st tokens n
    else if k = "arc" then arc L st tokens n
    else if k = "curve" then curve L st tokens n
    else if k = "legend" then legend L st tokens n
    else if k = "arrow" then arrow L st tokens n
    else if k = "lbrace" ∨ k = "rbrace" ∨ k = "ubrace" ∨ k = "dbrace" then brace L st tokens n
    else if k = "lcarrow" ∨ k = "rcarrow" ∨ k = "ucarrow" ∨ k = "dcarrow" then carrow L st tokens n
    else if k = "vline" then vline L st tokens n
    else if k = "hline" then hline L st tokens n
    else if k = "dchart" ∨ k = "chart" then chart L st t n
    else keyparseDefault L st tokens n

/-! ## The compiler -/

/-- One pass of the main loop of process, on line t with number n: the errors the pass appends
to the collected list, the state it leaves and the lines left in the scanner. -/
def lineStep {F : Type} (L : Lib F) (kp : KP) (fuel : Nat) (st : St) (t : String)
    (rest : List String) (n : Nat) : Outcome (List Error × St × List String) :=
  match parse L st.emap t with
  | [] => .ret ([], st, rest)
  | tok0 :: toks =>
    if byteAt t 0 = none then .panic
    else if byteAt t 0 = some '#' then .ret ([], st, rest)
    else
      let tokens := tok0 :: toks
      let afterFor : Outcome (List Error × St × List String) :=
        if tok0 = "for" then
          match parsefor L kp fuel st tokens n rest with
          | .ret (e, st1, rest1) => .ret ([e], st1, rest1)
          | .panic => .panic
          | .nofuel => .nofuel
        else .ret ([], st, rest)
      match afterFor with
      | .panic => .panic
      | .nofuel => .nofuel
      | .ret (errs1, st1, rest1) =>
        let afterData : List Error × St × List String :=
          if tok0 = "data" then
            (errs1 ++ [(loadata L st1 tokens n rest1).1], (loadata L st1 tokens n rest1).2.1,
              (loadata L st1 tokens n rest1).2.2)
          else (errs1, st1, rest1)
        match kp afterData.2.1 tokens t n with
        | .panic => .panic
        | .nofuel => .nofuel
        | .ret (e, st3) => .ret (afterData.1 ++ [e], st3, afterData.2.2)

/-- The main loop of process from line number n on: the collected errors and the final state.
The first argument bounds the number of passes; the number of lines left always suffices. -/
def mainloop {F : Type} (L : Lib F) (kp : KP) (fuel : Nat) :
    Nat → St → List String → Nat → List Error → Outcome (List Error × St)
  | _, st, [], _, errors => .ret (errors, st)
  | 0, _, _ :: _, _, _ => .nofuel
  | gas + 1, st, t :: rest, n, errors =>
    match lineStep L kp fuel st t rest n with
    | .panic => .panic
    | .nofuel => .nofuel
    | .ret (errs, st1, rest1) => mainloop L kp fuel gas st1 rest1 (n + 1) (errors ++ errs)

/-- The report of the collected errors on standard error. -/
def report (errors : List Error) : String :=
  String.join (errors.map (fun e => match e with
    | some m => m ++ "\n"
    | none => ""))

/-- The number of errors that are not nil. -/
def countErrs (errors : List Error) : Nat := (errors.filter Option.isSome).length

/-- process reads input, parses, dispatches functions for code generation. -/
def processWith {F : Type} (L : Lib F) (kp : KP) (fuel : Nat) (st : St) (r : Src) : Result :=
  match mainloop L kp fuel r.lines.length st r.lines 1 [] with
  | .panic => .panic
  | .nofuel => .nofuel
  | .ret (errors, st1) =>
    let nerrs := countErrs errors
    let st2 : St := { st1 with stderr := st1.stderr ++ report errors }
    match r.err with
    | some m => .ret (some m, st2)
    | none =>
      if nerrs > 0 then
        match errors[nerrs - 1]? with
        | some e => .ret (e, st2)
        | none => .panic
      else .ret (none, st2)

/-- The dispatcher and the compiler with a given amount of fuel. -/
def sem {F : Type} (L : Lib F) : Nat → KP × PROC
  | 0 => (fun _ _ _ _ => .nofuel, fun _ _ => .nofuel)
  | fuel + 1 =>
    (keyparseStep L (sem L fuel).1 (sem L fuel).2,
     processWith L (keyparseStep L (sem L fuel).1 (sem L fuel).2) (fuel + 1))

/-- keyparse parses keywords and executes. -/
def keyparse {F : Type} (L : Lib F) (fuel : Nat) : KP := (sem L fuel).1

/-- process reads input, parses, dispatches functions for code generation. -/
def process {F : Type} (L : Lib F) (fuel : Nat) : PROC := (sem L fuel).2

/-! ## Properties -/

/-- A result is atomic at a state when, if it is a failure, it leaves that very state:
nothing was written and nothing assigned. -/
def Atomic (r : Result) (st : St) : Prop := ∀ e st2, r = .ret (some e, st2) → st2 = st

/-! ## A concrete library

`exactLib` runs the model on concrete scripts.  Numbers are rationals with exact
arithmetic; it agrees with the Go library on lines made of identifiers, decimal
literals, double-quoted strings without escapes and single punctuation characters, and
on numbers whose decimal expansion is short.  The square root and the trigonometric
functions have no rational counterpart and are constant here, and no external program
is installed. -/

/-- The value of a string of decimal digits, if it is one. -/
def digitsVal : List Char → Option Nat
  | [] => some 0
  | c :: cs =>
    if c.isDigit then
      match digitsVal cs with
      | some v => some ((c.toNat - 48) * 10 ^ cs.length + v)
      | none => none
    else none

/-- An unsigned decimal literal: digits with an optional fraction. -/
def unsignedVal (cs : List Char) : Option ℚ :=
  let ip := cs.takeWhile (fun c => c ≠ '.')
  let fp := (cs.dropWhile (fun c => c ≠ '.')).drop 1
  if ip = [] ∧ fp = [] then none
  else if cs.contains '.' = false ∧ fp ≠ [] then none
  else
    match digitsVal ip, digitsVal fp with
    | some a, some b => some ((a : ℚ) + (b : ℚ) / (10 : ℚ) ^ fp.length)
    | _, _ => none

/-- ParseFloat on signed decimal literals. -/
def parseDecimal (s : String) : Except String ℚ :=
  let bad : Except String ℚ :=
    .error ("strconv.ParseFloat: parsing \"" ++ s ++ "\": invalid syntax")
  match s.data with
  | [] => bad
  | '-' :: cs =>
    match unsignedVal cs with
    | some v => .ok (-v)
    | none => bad
  | '+' :: cs =>
    match unsignedVal cs with
    | some v => .ok v
    | none => bad
  | cs =>
    match unsignedVal cs with
    | some v => .ok v
    | none => bad

/-- The number of decimal digits of a positive natural number, by repeated division. -/
def numDigits : Nat → Nat → Nat
  | 0, _ => 0
  | fuel + 1, n => if n < 10 then 1 else 1 + numDigits fuel (n / 10)

/-- Removal of trailing zero digits. -/
def stripZeros (ds : List Char) : List Char :=
  (ds.reverse.dropWhile (fun c => c = '0')).reverse

/-- The position of the decimal point of a positive rational a: the integer dp with
10^(dp-1) <= a < 10^dp.  Below 1 it is read off the largest natural number below 1 / a. -/
def decPoint (a : ℚ) : Int :=
  if a.floor.toNat > 0 then (numDigits (a.floor.toNat + 1) a.floor.toNat : Int)
  else
    1 - (numDigits 400
      (if ((1 / a).floor : ℚ) = 1 / a then (1 / a).floor.toNat - 1 else (1 / a).floor.toNat) : Int)

/-- Shortest 'g' formatting of a non-negative rational with a short decimal expansion:
seventeen significant digits are taken and trailing zeros dropped. -/
def formatAbs (a : ℚ) : String :=
  if a = 0 then "0"
  else
    let dp : Int := decPoint a
    let scaled : ℚ := if dp ≤ 17 then a * (10 : ℚ) ^ (17 - dp).toNat else a / (10 : ℚ) ^ (dp - 17).toNat
    let ds := stripZeros (Nat.repr scaled.floor.toNat).data
    let nd : Int := ds.length
    let ex := dp - 1
    if ex < -4 ∨ ex ≥ 6 then
      let mant := match ds with
        | [] => "0"
        | [d] => String.mk [d]
        | d :: rest => String.mk (d :: '.' :: rest)
      let es := Nat.repr ex.natAbs
      mant ++ "e" ++ (if ex < 0 then "-" else "+") ++ (if es.length < 2 then "0" ++ es else es)
    else if dp ≤ 0 then "0." ++ String.mk (List.replicate (-dp).toNat '0') ++ String.mk ds
    else if nd ≤ dp then String.mk ds ++ String.mk (List.replicate (dp - nd).toNat '0')
    else String.mk (ds.take dp.toNat) ++ "." ++ String.mk (ds.drop dp.toNat)

/-- FormatFloat(v, 'g', -1, 64) on rationals with a short decimal expansion. -/
def formatG (v : ℚ) : String := if v < 0 then "-" ++ formatAbs (-v) else formatAbs v

/-- The verb %.2f on rationals: rounding to two decimals, ties to even. -/
def formatF2 (v : ℚ) : String :=
  let a := |v| * 100
  let fl := a.floor.toNat
  let r := a - fl
  let m := if r > 1 / 2 ∨ (r = 1 / 2 ∧ fl % 2 = 1) then fl + 1 else fl
  let fr := Nat.repr (m % 100)
  (if v < 0 then "-" else "") ++ Nat.repr (m / 100) ++ "."
    ++ (if fr.length < 2 then "0" ++ fr else fr)

/-- The verb %q on text without control characters. -/
def quoteStr (s : String) : String :=
  dq ++ String.mk (s.data.flatMap (fun c =>
    if c = doublequote then ['\\', doublequote] else if c = '\\' then ['\\', '\\'] else [c])) ++ dq

/-- White space of the scanner and of strings.Fields. -/
def isSpaceChar (c : Char) : Bool := c = ' ' ∨ c = '\t' ∨ c = '\n' ∨ c = '\r'

/-- What the tokenizer is in the middle of. -/
inductive ScanMode where
  | idle
  | ident
  | number
  | fraction
  | str
  deriving DecidableEq, Repr

/-- State of the tokenizer: mode, characters of the current token and tokens found, both
in reverse order. -/
structure ScanState where
  mode : ScanMode
  cur : List Char
  toks : List String

/-- Closes the current token. -/
def ScanState.flush (s : ScanState) : List String :=
  if s.cur = [] then s.toks else String.mk s.cur.reverse :: s.toks

/-- Starts a token at a character. -/
def startTok (toks : List String) (c : Char) : ScanState :=
  if isSpaceChar c then { mode := .idle, cur := [], toks := toks }
  else if c = doublequote then { mode := .str, cur := [c], toks := toks }
  else if c.isAlpha ∨ c = '_' then { mode := .ident, cur := [c], toks := toks }
  else if c.isDigit then { mode := .number, cur := [c], toks := toks }
  else { mode := .idle, cur := [], toks := String.mk [c] :: toks }

/-- One step of the tokenizer. -/
def scanStep (s : ScanState) (c : Char) : ScanState :=
  match s.mode with
  | .str =>
    if c = doublequote then { mode := .idle, cur := [], toks := String.mk (c :: s.cur).reverse :: s.toks }
    else { s with cur := c :: s.cur }
  | .ident =>
    if c.isAlpha ∨ c = '_' ∨ c.isDigit then { s with cur := c :: s.cur } else startTok s.flush c
  | .number =>
    if c.isDigit then { s with cur := c :: s.cur }
    else if c = '.' then { s with mode := .fraction, cur := c :: s.cur }
    else startTok s.flush c
  | .fraction =>
    if c.isDigit then { s with cur := c :: s.cur } else startTok s.flush c
  | .idle => startTok s.toks c

/-- The tokens of a line. -/
def scanTokens (src : String) : List String :=
  (src.data.foldl scanStep { mode := .idle, cur := [], toks := [] }).flush.reverse

/-- strings.Fields on ASCII white space. -/
def fieldsOf (s : String) : List String :=
  ((s.data.splitOn ' ').filter (fun w => w ≠ [])).map String.mk

/-- strings.TrimSpace on ASCII white space. -/
def trimSpaceOf (s : String) : String :=
  String.mk ((s.data.dropWhile isSpaceChar).reverse.dropWhile isSpaceChar).reverse

/-- A concrete library: exact rational arithmetic and a tokenizer for plain lines. -/
def exactLib : Lib ℚ where
  parseFloat := parseDecimal
  ftoa := formatG
  fmtG := formatG
  fmtF2 := formatF2
  quote := quoteStr
  add := fun a b => a + b
  sub := fun a b => a - b
  mul := fun a b => a * b
  div := fun a b => a / b
  eqZero := fun a => decide (a = 0)
  le := fun a b => decide (a ≤ b)
  gt := fun a b => decide (a > b)
  ofNat := fun n => (n : ℚ)
  half := 1 / 2
  threeQuarters := 3 / 4
  piOver180 := 3141592653589793 / 180000000000000000
  cos := fun _ => 1
  sin := fun _ => 0
  sqrt := fun a => a
  atan2 := fun _ _ => 0
  randFloat := fun k => 1 / ((k : ℚ) + 2)
  scan := scanTokens
  scan_nil := by decide
  fields := fieldsOf
  trimSpace := trimSpaceOf
  openErr := fun name => "open " ++ name ++ ": no such file or directory"
  createErr := fun _ => none
  isBase := fun name => ! name.data.contains '/'
  lookPath := fun name => .error ("exec: \"" ++ name ++ "\": executable file not found in $PATH")
  runOutput := fun path _ => .error ("fork/exec " ++ path ++ ": no such file or directory")

/-! ## Binary floating point

`float64Lib` is the concrete library with the arithmetic of IEEE 754 binary64 on finite
numbers, the arithmetic of the float64 of Go: a decimal literal and the result of every
operation are rounded to the nearest number with a significand of 53 bits, ties to the even
significand, and a number is printed with the fewest digits that read back as that number.
The numbers are held as the rationals they are.  Infinities, NaN and the negative zero have
no counterpart here: a literal beyond the finite range is refused as ParseFloat refuses it,
the result of an operation beyond that range is kept as the rational it rounds to, and a
quotient by zero is zero.  Everything else is as in `exactLib`. -/

/-- The number of binary digits of a natural number, by repeated halving. -/
def binDigits : Nat → Nat → Nat
  | 0, _ => 0
  | fuel + 1, n => if n = 0 then 0 else 1 + binDigits fuel (n / 2)

/-- The power of a base with an integer exponent. -/
def powInt (b : ℚ) (e : Int) : ℚ := if 0 ≤ e then b ^ e.toNat else 1 / b ^ (-e).toNat

/-- Rounding of a non-negative rational to the nearest natural number, ties to even. -/
def roundEven (a : ℚ) : Nat :=
  if a - a.floor.toNat > 1 / 2 ∨ (a - a.floor.toNat = 1 / 2 ∧ a.floor.toNat % 2 = 1) then
    a.floor.toNat + 1
  else a.floor.toNat

/-- The exponent of the last binary place of the binary64 numbers around a positive rational
a: with p the integer such that 2^p <= a < 2^(p+1), found from the counts of binary digits of
numerator and denominator, it is p - 52, and -1074 in the subnormal range. -/
def ulpExp (a : ℚ) : Int :=
  let k : Int :=
    (binDigits (a.num.natAbs + 1) a.num.natAbs : Int) - (binDigits (a.den + 1) a.den : Int)
  let p : Int := if powInt 2 k ≤ a then k else k - 1
  max (p - 52) (-1074)

/-- The binary64 number nearest to a rational, ties to the even significand. -/
def round64 (q : ℚ) : ℚ :=
  if q = 0 then 0
  else
    let r : ℚ := (roundEven (|q| / powInt 2 (ulpExp |q|)) : ℚ) * powInt 2 (ulpExp |q|)
    if q < 0 then -r else r

/-- ParseFloat(s, 64) on signed decimal literals: the nearest binary64 number, and a range
error from 2^1024 on. -/
def parse64 (s : String) : Except String ℚ :=
  match parseDecimal s with
  | .error m => .error m
  | .ok v =>
    if |round64 v| < (2 : ℚ) ^ 1024 then .ok (round64 v)
    else .error ("strconv.ParseFloat: parsing " ++ quoteStr s ++ ": value out of range")

/-- The decimal of n significant digits, as a natural number of units of its last place, that
reads back as the positive binary64 number a whose decimal point is at dp, if there is one:
of the two decimals around a the one that reads back, and of two that read back the one
nearest to a. -/
def roundTrip (a : ℚ) (dp : Int) (n : Nat) : Option Nat :=
  let s := powInt 10 (dp - n)
  let lo := (a / s).floor.toNat
  let okLo : Bool := decide (round64 ((lo : ℚ) * s) = a)
  let okHi : Bool := decide (round64 (((lo + 1 : Nat) : ℚ) * s) = a)
  if okLo ∧ okHi then some (roundEven (a / s))
  else if okLo then some lo
  else if okHi then some (lo + 1)
  else none

/-- The shortest decimal that reads back as a, looked for from n digits on: its digits as a
natural number, and their count. -/
def shortestFrom (a : ℚ) (dp : Int) : Nat → Nat → Nat × Nat
  | 0, n => ((a / powInt 10 (dp - n)).floor.toNat, n)
  | fuel + 1, n =>
    match roundTrip a dp n with
    | some m => (m, n)
    | none => shortestFrom a dp fuel (n + 1)

/-- The layout of the format 'g' with the shortest precision for given digits and position of
the decimal point: the exponent form when the decimal exponent is below -4 or at least 6. -/
def layoutG (ds : List Char) (dp : Int) : String :=
  if dp - 1 < -4 ∨ dp - 1 ≥ 6 then
    (match ds with
      | [] => "0"
      | [d] => String.mk [d]
      | d :: rest => String.mk (d :: '.' :: rest)) ++ "e" ++ (if dp - 1 < 0 then "-" else "+")
      ++ (if (Nat.repr (dp - 1).natAbs).length < 2 then "0" ++ Nat.repr (dp - 1).natAbs
          else Nat.repr (dp - 1).natAbs)
  else if dp ≤ 0 then "0." ++ String.mk (List.replicate (-dp).toNat '0') ++ String.mk ds
  else if (ds.length : Int) ≤ dp then
    String.mk ds ++ String.mk (List.replicate (dp - (ds.length : Int)).toNat '0')
  else String.mk (ds.take dp.toNat) ++ "." ++ String.mk (ds.drop dp.toNat)

/-- FormatFloat(a, 'g', -1, 64) on a non-negative binary64 number: the digits of the shortest
decimal that reads back as a, at most seventeen, without trailing zeros. -/
def shortestAbs (a : ℚ) : String :=
  if a = 0 then "0"
  else
    let mn := shortestFrom a (decPoint a) 17 1
    let all := (Nat.repr mn.1).data
    layoutG (stripZeros all) (decPoint a + (all.length : Int) - (mn.2 : Int))

/-- FormatFloat(v, 'g', -1, 64) on the binary64 number nearest to v. -/
def shortest64 (v : ℚ) : String :=
  if round64 v < 0 then "-" ++ shortestAbs (-(round64 v)) else shortestAbs (round64 v)

/-- A concrete library with binary64 arithmetic. -/
def float64Lib : Lib ℚ :=
  { exactLib with
    parseFloat := parse64
    ftoa := shortest64
    fmtG := shortest64
    fmtF2 := fun v => formatF2 (round64 v)
    add := fun a b => round64 (a + b)
    sub := fun a b => round64 (a - b)
    mul := fun a b => round64 (a * b)
    div := fun a b => round64 (a / b)
    ofNat := fun n => round64 (n : ℚ)
    piOver180 := round64 (3141592653589793238462643383279503 / 180000000000000000000000000000000000)
    randFloat := fun k => round64 (1 / ((k : ℚ) + 2)) }

/-- The source of a script given by its lines, read without error. -/
def script (lines : List String) : Src := { lines := lines, err := none }

/-! ## Replay, stated on its own -/

/-- The records a loop hands to the dispatcher: for each iteration value in order, every
buffered record in order, with each token equal to the loop variable replaced by the
formatted value. -/
def replayRecords (forvar : String) (format : Format) (vals : List String)
    (body : List (List String)) : List (List String) :=
  vals.flatMap (fun v => body.map (substFor forvar format v))

/-- Dispatch of a list of records in order, each with an empty raw line and the line number
of the loop header; what the dispatcher returns as error is dropped. -/
def dispatchAll (kp : KP) (n : Nat) : List (List String) → St → Outcome St
  | [], st => .ret st
  | r :: rs, st =>
    match kp st r "" n with
    | .ret (_, st2) => dispatchAll kp n rs st2
    | .panic => .panic
    | .nofuel => .nofuel

/-- The values the variable of a numeric loop takes, when the loop ends within the given
number of tests of v <= end. -/
def numValues {F : Type} (L : Lib F) (en incr : F) : Nat → F → Option (List F)
  | 0, _ => none
  | fuel + 1, v =>
    if L.le v en then (numValues L en incr fuel (L.add v incr)).map (fun vs => v :: vs)
    else some []

/-- What parsefor returns when the replay ends in a given way. -/
def forResult (rest : List String) (r : Outcome St) : Outcome (Error × St × List String) :=
  r.map (fun st2 => (none, st2, rest))

/-! ## Token slices in memory

The handlers get their tokens as a Go slice and two of them write to it: canvas stores the
values of tokens 1 and 2, regshapes stores the name of the element over the keyword.  To
say which slice such a write lands in, slices are given addresses. -/

/-- The token slice as canvas leaves it: with three tokens, tokens 1 and 2 hold their values. -/
def canvasTokens (m : Store) (s : List String) : List String :=
  match s with
  | [s0, s1, s2] => [s0, eval m s1, eval m s2]
  | _ => s

/-- The token slice as regshapes leaves it: with at least four tokens, the keyword is
overwritten by the name of the element. -/
def regshapesTokens (s : List String) : List String :=
  match s with
  | s0 :: s1 :: s2 :: s3 :: rest => regshapesName s0 :: s1 :: s2 :: s3 :: rest
  | _ => s

/-- The token slice as keyparse leaves it: canvas and regshapes are the handlers that write
to the slice they are given. -/
def keyparseTokens (m : Store) (tokens : List String) : List String :=
  match tokens with
  | [] => []
  | k :: _ =>
    if k = "canvas" then canvasTokens m tokens
    else if k = "circle" ∨ k = "square" then regshapesTokens tokens
    else tokens

/-- The backing arrays of the token slices, by address. -/
abbrev Mem := List (List String)

/-- The array at an address. -/
def Mem.read (mem : Mem) (a : Nat) : List String := mem.getD a []

/-- The builtins make and copy: a new array holding a copy of the tokens, and its address. -/
def Mem.alloc (mem : Mem) (xs : List String) : Mem × Nat := (mem ++ [xs], mem.length)

/-- Writes through a slice: the array at the address is rewritten in place. -/
def Mem.rewrite (mem : Mem) (a : Nat) (f : List String → List String) : Mem :=
  mem.set a (f (mem.read a))

/-- evaloop on memory, for the buffered record at address sAddr: e is a new array holding the
copy of the record with the loop variable replaced, and keyparse is given e.  Returns the
memory when keyparse has returned and the address of e. -/
def evaloopMem (mem : Mem) (m : Store) (forvar : String) (format : Format) (v : String)
    (sAddr : Nat) : Mem × Nat :=
  let e := (mem.alloc (substFor forvar format v (mem.read sAddr))).2
  let mem1 := (mem.alloc (substFor forvar format v (mem.read sAddr))).1
  (mem1.rewrite e (keyparseTokens m), e)

/-! ## Integers in the library -/

/-- The plain decimal text of an integer. -/
def intText (a : Int) : String :=
  if a < 0 then "-" ++ Nat.repr a.natAbs else Nat.repr a.natAbs

/-- A library whose numbers hold the integers of magnitude below 2^53 exactly, through the
conversion ofInt: decimal texts parse to them, sums, differences and products of them are
exact (a product that is zero is the positive zero only when no factor is negative), and
the shortest formatting of an integer of magnitude below 10^6 is its plain decimal text. -/
structure IntegerLib {F : Type} (L : Lib F) (ofInt : Int → F) : Prop where
  parse : ∀ a : Int, |a| < 2 ^ 53 → L.parseFloat (intText a) = .ok (ofInt a)
  add : ∀ a b : Int, |a| < 2 ^ 53 → |b| < 2 ^ 53 → |a + b| < 2 ^ 53 →
    L.add (ofInt a) (ofInt b) = ofInt (a + b)
  sub : ∀ a b : Int, |a| < 2 ^ 53 → |b| < 2 ^ 53 → |a - b| < 2 ^ 53 →
    L.sub (ofInt a) (ofInt b) = ofInt (a - b)
  mul : ∀ a b : Int, |a| < 2 ^ 53 → |b| < 2 ^ 53 → |a * b| < 2 ^ 53 →
    (a * b ≠ 0 ∨ (0 ≤ a ∧ 0 ≤ b)) → L.mul (ofInt a) (ofInt b) = ofInt (a * b)
  ftoa : ∀ r : Int, |r| < 10 ^ 6 → L.ftoa (ofInt r) = intText r

/-! ## Plain text -/

/-- A printable ASCII character other than the double quote and the backslash: the verb %q
copies such a character as it stands. -/
def plainChar (c : Char) : Bool :=
  decide (32 ≤ c.toNat ∧ c.toNat < 127 ∧ c ≠ doublequote ∧ c ≠ '\\')

/-- Plain text: every character of it is plain. -/
def plain (s : String) : Bool := s.data.all plainChar

/-! ## The grid, stated on its own -/

/-- The record of a line of the data file placed at a position: the tokens of the line, those
after the first evaluated, with every token "x" replaced by the text of the abscissa and
every token "y" by the text of the ordinate. -/
def gridRecord {F : Type} (L : Lib F) (m : Store) (t : String) (xv yv : F) : List String :=
  (parse L m t).map (fun a => if a = "x" then L.fmtG xv else if a = "y" then L.fmtG yv else a)

/-- Dispatch of the lines of a grid with C columns, from the k-th place on: the line at place
k goes to column k mod C of row k / C, that is to the point
(x + (k mod C) * xint, y - (k / C) * yint); what the dispatcher returns as error is
dropped. -/
def gridPlacement (L : Lib ℚ) (kp : KP) (n : Nat) (x y xint yint : ℚ) (C : Nat) :
    List String → Nat → St → Outcome St
  | [], _, st => .ret st
  | t :: rest, k, st =>
    match kp st (gridRecord L st.emap t (x + ((k % C : Nat) : ℚ) * xint)
        (y - ((k / C : Nat) : ℚ) * yint)) t n with
    | .ret (_, st2) => gridPlacement L kp n x y xint yint C rest (k + 1) st2
    | .panic => .panic
    | .nofuel => .nofuel

/-! ## The header of a chart

The function getheader of `cmd/dchart/dchart.go`, the program a chart directive runs. -/

/-- The function strings.Split on a separator of one character. -/
def splitOnChar (s : String) (sep : Char) : List String := (s.data.splitOn sep).map String.mk

/-- The loop of getheader over the fields of the header, from index i on. -/
def getheaderLoop (c0 c1 : String) : List String → Nat → Nat × Nat → Nat × Nat
  | [], _, acc => acc
  | p :: rest, i, (li, vi) =>
    getheaderLoop c0 c1 rest (i + 1) (if p = c0 then i else li, if p = c1 then i else vi)

/-- getheader returns the indices of the comma-separated list of fields; by default or on
error it returns 0, 1. -/
def getheader (s : List String) (lv : String) : Nat × Nat :=
  match splitOnChar lv ',' with
  | [c0, c1] => getheaderLoop c0 c1 s 0 (0, 1)
  | _ => (0, 1)

/-- The index getheader leaves for a name: that of its last occurrence among the fields, counted
from index i on, or the given default when the name does not occur. -/
def lastIndexFrom (c : String) : List String → Nat → Nat → Nat
  | [], _, d => d
  | p :: rest, i, d => lastIndexFrom c rest (i + 1) (if p = c then i else d)

/-! ## The store as a frame -/

/-- A result keeps the store of a state when, if the call returns, the store is the one of
that state. -/
def KeepsStore (r : Result) (st : St) : Prop := ∀ e st2, r = .ret (e, st2) → st2.emap = st.emap

/-- No key of the store is lost from one state to the other. -/
def KeysKept (st st2 : St) : Prop := ∀ k ∈ st.emap.keys, k ∈ st2.emap.keys

/-- The keywords whose directives dispatch further lines or run a program. -/
def nestingKeywords : List String := ["include", "grid", "dchart", "chart"]

/-- The tokens that make a record an assignment, a compound assignment or a nesting
directive. -/
def reservedTokens : List String := ["=", "+", "-", "*", "/", "include", "grid", "dchart", "chart"]

/-- A record that is no assignment line, no compound-assignment line and no include, grid or
chart line. -/
def plainRecord (r : List String) : Bool :=
  decide (r[0]? ∉ nestingKeywords.map some ∧ r[1]? ≠ some "=") && !isaop r

/-! ## Lemmas on the store -/


/-- Reading a key just written gives the value written. -/
theorem Store.get?_set_self (m : Store) (k v : String) : (m.set k v).get? k = some v := by
  induction m with
  | nil => simp [Store.set, Store.get?]
  | cons p rest ih =>
    obtain ⟨k0, v0⟩ := p
    by_cases h : k0 = k
    · simp [Store.set, Store.get?, h]
    · simp [Store.set, Store.get?, h, ih]

/-- A write leaves the other keys as they were. -/
theorem Store.get?_set_of_ne (m : Store) (k v s : String) (h : s ≠ k) :
    (m.set k v).get? s = m.get? s := by
  induction m with
  | nil => simp [Store.set, Store.get?, Ne.symm h]
  | cons p rest ih =>
    obtain ⟨k0, v0⟩ := p
    by_cases h0 : k0 = k
    · subst h0
      simp [Store.set, Store.get?, Ne.symm h]
    · by_cases h1 : k0 = s
      · subst h1
        simp [Store.set, Store.get?, h0]
      · simp [Store.set, Store.get?, h0, h1, ih]

/-- The read misses exactly on the strings that are not keys. -/
theorem Store.get?_eq_none_iff (m : Store) (s : String) : m.get? s = none ↔ s ∉ m.keys := by
  induction m with
  | nil => simp [Store.get?, Store.keys]
  | cons p rest ih =>
    obtain ⟨k0, v0⟩ := p
    by_cases h : k0 = s
    · simp [Store.get?, Store.keys, h]
    · have h2 : ¬ s = k0 := fun e => h e.symm
      simp only [Store.keys] at ih
      simp [Store.get?, Store.keys, h, h2, ih]

/-- C1: eval returns the stored value when its argument is a key of the store and the
argument itself when it is not; it is a total function of the store, which it only reads,
and after a write the last value written is the one read. -/
theorem eval_spec (m : Store) (s : String) :
    (s ∈ m.keys → ∃ v, m.get? s = some v ∧ eval m s = v) ∧
    (s ∉ m.keys → eval m s = s) ∧
    (∀ v, eval (m.set s v) s = v) := by
  refine ⟨fun h => ?_, fun h => ?_, fun v => ?_⟩
  · cases hg : m.get? s with
    | none => exact absurd h ((Store.get?_eq_none_iff m s).1 hg)
    | some v => exact ⟨v, rfl, by simp [eval, hg]⟩
  · have hg := (Store.get?_eq_none_iff m s).2 h
    simp [eval, hg]
  · simp [eval, Store.get?_set_self]

/-- Witness of C1: in the store binding w to 100, w reads 100 and h reads h. -/
theorem eval_spec_witness :
    (∃ v, Store.get? [("w", "100")] "w" = some v ∧ eval [("w", "100")] "w" = v) ∧
    eval [("w", "100")] "h" = "h" :=
  ⟨(eval_spec [("w", "100")] "w").1 (by decide), (eval_spec [("w", "100")] "h").2.1 (by decide)⟩

/-! ## Lemmas on the dispatcher -/

/-- With fuel, keyparse is the switch of the source over dispatchers with one unit less. -/
theorem keyparse_succ {F : Type} (L : Lib F) (fuel : Nat) :
    keyparse L (fuel + 1) = keyparseStep L (keyparse L fuel) (process L fuel) := rfl

/-- With fuel, process runs the main loop over the dispatcher of the same fuel. -/
theorem process_succ {F : Type} (L : Lib F) (fuel : Nat) :
    process L (fuel + 1) = processWith L (keyparse L (fuel + 1)) (fuel + 1) := rfl

/-- A first token outside the keyword list reaches the default case of the switch. -/
theorem keyparseStep_default {F : Type} (L : Lib F) (kp : KP) (proc : PROC) (st : St)
    (k : String) (rest : List String) (t : String) (n : Nat) (h : k ∉ keywords) :
    keyparseStep L kp proc st (k :: rest) t n = keyparseDefault L st (k :: rest) n := by
  simp only [keywords, List.mem_cons, List.mem_singleton, not_or, List.not_mem_nil,
    not_false_eq_true, and_true] at h
  obtain ⟨h1, h2, h3, h4, h5, h6, h7, h8, h9, h10, h11, h12, h13, h14, h15, h16, h17, h18, h19,
    h20, h21, h22, h23, h24, h25, h26, h27, h28, h29, h30, h31, h32, h33, h34, h35, h36, h37,
    h38, h39, h40, h41, h42, h43, h44, h45⟩ := h
  simp only [keyparseStep, h1, h2, h3, h4, h5, h6, h7, h8, h9, h10, h11, h12, h13, h14, h15, h16,
    h17, h18, h19, h20, h21, h22, h23, h24, h25, h26, h27, h28, h29, h30, h31, h32, h33, h34,
    h35, h36, h37, h38, h39, h40, h41, h42, h43, h44, h45, if_false, or_self]

/-- C2: for a three-token record [id, "=", v] whose id is not a keyword, keyparse succeeds,
writes nothing, binds id to the text v as it stands, and leaves every other key as it was. -/
theorem keyparse_simple_assignment {F : Type} (L : Lib F) (fuel : Nat) (st : St) (id v t : String)
    (n : Nat) (hid : id ∉ keywords) :
    keyparse L (fuel + 1) st [id, "=", v] t n = .ret (none, st.setVar id v) ∧
    (st.setVar id v).out = st.out ∧
    eval (st.setVar id v).emap id = v ∧
    ∀ k, k ≠ id → eval (st.setVar id v).emap k = eval st.emap k := by
  refine ⟨?_, rfl, ?_, ?_⟩
  · rw [keyparse_succ, keyparseStep_default L _ _ st id _ t n hid]
    simp [keyparseDefault, assign, simpleassign]
  · simp [St.setVar, eval, Store.get?_set_self]
  · intro k hk
    simp [St.setVar, eval, Store.get?_set_of_ne _ _ _ _ hk]

/-- Witness of C2: the line w = 100. -/
theorem keyparse_simple_assignment_witness :
    keyparse exactLib 1 (St.init []) ["w", "=", "100"] "w = 100" 3
      = .ret (none, (St.init []).setVar "w" "100") ∧
    eval ((St.init []).setVar "w" "100").emap "w" = "100" :=
  ⟨(keyparse_simple_assignment exactLib 0 (St.init []) "w" "100" "w = 100" 3 (by decide)).1,
   (keyparse_simple_assignment exactLib 0 (St.init []) "w" "100" "w = 100" 3 (by decide)).2.2.1⟩

/-- C3: a binary-op assignment [id, "=", a, "/", b] whose right operand resolves to zero, and a
compound assignment [id, "/", "=", v] whose operand is zero, return a failure and leave the
state, the store in particular, exactly as it was. -/
theorem division_by_zero_fails {F : Type} (L : Lib F) (st : St) (id a b : String) (n : Nat) (z : F)
    (hz : L.eqZero z = true) :
    (L.parseFloat (eval st.emap b) = .ok z →
      ∃ e, binop L st [id, "=", a, "/", b] n = .ret (some e, st)) ∧
    (L.parseFloat b = .ok z →
      ∃ e, assignop L st [id, "/", "=", b] n = .ret (some e, st)) := by
  constructor
  · intro hb
    cases ha : L.parseFloat (eval st.emap a) with
    | error m => exact ⟨lineno n ++ ": " ++ a ++ " is not a number", by simp [binop, ha]⟩
    | ok lv =>
      exact ⟨lineno n ++ ": you cannot divide by zero (" ++ L.fmtG lv ++ " / " ++ L.fmtG z ++ ")",
        by simp [binop, ha, hb, hz]⟩
  · intro hb
    cases ha : L.parseFloat (eval st.emap id) with
    | error m => exact ⟨lineno n ++ ": " ++ id ++ " is not a number", by simp [assignop, ha]⟩
    | ok lv =>
      exact ⟨lineno n ++ ": you cannot divide by zero (" ++ L.fmtG lv ++ " / " ++ L.fmtG z ++ ")",
        by simp [assignop, ha, hb, hz]⟩

/-- Witness of C3: x = 1 / 0, and x /= 0 with x bound to 6. -/
theorem division_by_zero_fails_witness :
    (∃ e, binop exactLib (St.init []) ["x", "=", "1", "/", "0"] 1 = .ret (some e, St.init [])) ∧
    (∃ e, assignop exactLib ((St.init []).setVar "x" "6") ["x", "/", "=", "0"] 2
      = .ret (some e, (St.init []).setVar "x" "6")) :=
  ⟨(division_by_zero_fails exactLib (St.init []) "x" "1" "0" 1 0 (by decide)).1 (by with_unfolding_all decide),
   (division_by_zero_fails exactLib ((St.init []).setVar "x" "6") "x" "1" "0" 2 0 (by decide)).2
     (by with_unfolding_all decide)⟩

/-- The test isaop fails on every record that is not a compound-assignment shape. -/
theorem isaop_eq_false_of_not_shape (tokens : List String)
    (h : ¬ (4 ≤ tokens.length ∧
      (tokens[1]? = some "+" ∨ tokens[1]? = some "-" ∨ tokens[1]? = some "*" ∨ tokens[1]? = some "/")
      ∧ tokens[2]? = some "=")) : isaop tokens = false := by
  match tokens with
  | [] => rfl
  | [_] => rfl
  | [_, _] => rfl
  | [_, _, _] => rfl
  | a :: op :: s2 :: b :: rest =>
    simp only [isaop, decide_eq_false_iff_not]
    intro hh
    apply h
    simpa using hh

/-- C9: a non-empty record whose first token is not a keyword, whose second token is not "="
and which is not a compound-assignment shape is passed over: keyparse returns success, writes
nothing and leaves the whole state, the store in particular, unchanged. -/
theorem keyparse_ignores_unknown {F : Type} (L : Lib F) (fuel : Nat) (st : St) (k : String)
    (rest : List String) (t : String) (n : Nat)
    (hk : k ∉ keywords)
    (heq : (k :: rest)[1]? ≠ some "=")
    (hop : ¬ (4 ≤ (k :: rest).length ∧
      ((k :: rest)[1]? = some "+" ∨ (k :: rest)[1]? = some "-" ∨ (k :: rest)[1]? = some "*"
        ∨ (k :: rest)[1]? = some "/") ∧ (k :: rest)[2]? = some "=")) :
    keyparse L (fuel + 1) st (k :: rest) t n = .ret (none, st) := by
  rw [keyparse_succ, keyparseStep_default L _ _ st k rest t n hk]
  have h2 := isaop_eq_false_of_not_shape (k :: rest) hop
  simp only [keyparseDefault, h2]
  rw [if_neg (fun h => heq h.2)]
  rfl

/-- Witness of C9: a stray efor line. -/
theorem keyparse_ignores_unknown_witness :
    keyparse exactLib 1 (St.init []) ["efor"] "efor" 3 = .ret (none, St.init []) :=
  keyparse_ignores_unknown exactLib 0 (St.init []) "efor" [] "efor" 3 (by decide) (by decide)
    (by decide)

/-- C10: for a record with a non-keyword first token and second token "=", keyparse dispatches
on the token count: a count other than 3, 5, 7 and 8 fails with the "illegal assignment" error
and leaves the state unchanged; 3 is the simple assignment, 5 is random when token 2 is
"random" and the binary operation otherwise, 7 is polarx/polary and 8 is vmap. -/
theorem assign_dispatch_by_count {F : Type} (L : Lib F) (fuel : Nat) (st : St) (k : String)
    (rest : List String) (t : String) (n : Nat)
    (hk : k ∉ keywords) (heq : (k :: rest)[1]? = some "=") :
    ((k :: rest).length ≠ 3 → (k :: rest).length ≠ 5 → (k :: rest).length ≠ 7 →
      (k :: rest).length ≠ 8 →
      keyparse L (fuel + 1) st (k :: rest) t n
        = .ret (some (lineno n ++ ": " ++ fmtStrs (k :: rest) ++ " is a illegal assignment"), st)) ∧
    ((k :: rest).length = 3 →
      keyparse L (fuel + 1) st (k :: rest) t n = simpleassign st (k :: rest) n) ∧
    ((k :: rest).length = 5 → (k :: rest)[2]? = some "random" →
      keyparse L (fuel + 1) st (k :: rest) t n = random L st (k :: rest) n) ∧
    ((k :: rest).length = 5 → (k :: rest)[2]? ≠ some "random" →
      keyparse L (fuel + 1) st (k :: rest) t n = binop L st (k :: rest) n) ∧
    ((k :: rest).length = 7 →
      keyparse L (fuel + 1) st (k :: rest) t n = polarfunc L st (k :: rest) n) ∧
    ((k :: rest).length = 8 →
      keyparse L (fuel + 1) st (k :: rest) t n = vmapfunc L st (k :: rest) n) := by
  have hlen : (k :: rest).length > 1 := by
    cases rest with
    | nil => simp at heq
    | cons a as => simp
  have hd : keyparse L (fuel + 1) st (k :: rest) t n = assign L st (k :: rest) n := by
    rw [keyparse_succ, keyparseStep_default L _ _ st k rest t n hk]
    simp only [keyparseDefault]
    rw [if_pos ⟨hlen, heq⟩]
  rw [hd]
  refine ⟨fun h3 h5 h7 h8 => ?_, fun h3 => ?_, fun h5 hr => ?_, fun h5 hr => ?_, fun h7 => ?_,
    fun h8 => ?_⟩
  · simp only [assign, if_neg h3, if_neg h5, if_neg h7, if_neg h8]
  · simp only [assign, if_pos h3]
  · have h3 : (k :: rest).length ≠ 3 := by omega
    simp only [assign, if_neg h3, if_pos h5, if_pos hr]
  · have h3 : (k :: rest).length ≠ 3 := by omega
    simp only [assign, if_neg h3, if_pos h5, if_neg hr]
  · have h3 : (k :: rest).length ≠ 3 := by omega
    have h5 : (k :: rest).length ≠ 5 := by omega
    simp only [assign, if_neg h3, if_neg h5, if_pos h7]
  · have h3 : (k :: rest).length ≠ 3 := by omega
    have h5 : (k :: rest).length ≠ 5 := by omega
    have h7 : (k :: rest).length ≠ 7 := by omega
    simp only [assign, if_neg h3, if_neg h5, if_neg h7, if_pos h8]

/-- Witness of C10: the four-token record x = 1 2. -/
theorem assign_dispatch_by_count_witness :
    keyparse exactLib 1 (St.init []) ["x", "=", "1", "2"] "x = 1 2" 4
      = .ret (some (lineno 4 ++ ": " ++ fmtStrs ["x", "=", "1", "2"] ++ " is a illegal assignment"),
          St.init []) :=
  (assign_dispatch_by_count exactLib 0 (St.init []) "x" ["=", "1", "2"] "x = 1 2" 4 (by decide)
    (by decide)).1 (by decide) (by decide) (by decide) (by decide)

/-! ## Failure is atomic in the handlers -/

/-- A failing simpleassign leaves the state as it found it. -/
theorem simpleassign_atomic (st : St) (s : List String) (n : Nat) :
    Atomic (simpleassign st s n) st := by
  intro e st2 h
  simp only [simpleassign] at h
  repeat' split at h
  all_goals simp_all

/-- A failing binop leaves the state as it found it. -/
theorem binop_atomic {F : Type} (L : Lib F) (st : St) (s : List String) (n : Nat) :
    Atomic (binop L st s n) st := by
  intro e st2 h
  simp only [binop] at h
  repeat' split at h
  all_goals simp_all

/-- A failing assignop leaves the state as it found it. -/
theorem assignop_atomic {F : Type} (L : Lib F) (st : St) (s : List String) (n : Nat) :
    Atomic (assignop L st s n) st := by
  intro e st2 h
  simp only [assignop] at h
  repeat' split at h
  all_goals simp_all

/-- A failing polarfunc leaves the state as it found it. -/
theorem polarfunc_atomic {F : Type} (L : Lib F) (st : St) (s : List String) (n : Nat) :
    Atomic (polarfunc L st s n) st := by
  intro e st2 h
  simp only [polarfunc] at h
  repeat' split at h
  all_goals simp_all

/-- A failing random leaves the state as it found it. -/
theorem random_atomic {F : Type} (L : Lib F) (st : St) (s : List String) (n : Nat) :
    Atomic (random L st s n) st := by
  intro e st2 h
  simp only [random] at h
  repeat' split at h
  all_goals simp_all

/-- A failing vmapfunc leaves the state as it found it. -/
theorem vmapfunc_atomic {F : Type} (L : Lib F) (st : St) (s : List String) (n : Nat) :
    Atomic (vmapfunc L st s n) st := by
  intro e st2 h
  simp only [vmapfunc] at h
  repeat' split at h
  all_goals simp_all

/-- A failing assign leaves the state as it found it. -/
theorem assign_atomic {F : Type} (L : Lib F) (st : St) (s : List String) (n : Nat) :
    Atomic (assign L st s n) st := by
  intro e st2 h
  simp only [assign] at h
  split at h
  · exact simpleassign_atomic st s n e st2 h
  · split at h
    · split at h
      · exact random_atomic L st s n e st2 h
      · exact binop_atomic L st s n e st2 h
    · split at h
      · exact polarfunc_atomic L st s n e st2 h
      · split at h
        · exact vmapfunc_atomic L st s n e st2 h
        · simp_all

/-- A failing keyparseDefault leaves the state as it found it. -/
theorem keyparseDefault_atomic {F : Type} (L : Lib F) (st : St) (s : List String) (n : Nat) :
    Atomic (keyparseDefault L st s n) st := by
  intro e st2 h
  simp only [keyparseDefault] at h
  split at h
  · exact assign_atomic L st s n e st2 h
  · split at h
    · exact assignop_atomic L st s n e st2 h
    · simp_all

/-- A failing endtag leaves the state as it found it. -/
theorem endtag_atomic (st : St) (s : List String) (n : Nat) :
    Atomic (endtag st s n) st := by
  intro e st2 h
  simp only [endtag] at h
  repeat' split at h
  all_goals simp_all

/-- A failing deck leaves the state as it found it. -/
theorem deck_atomic (st : St) (s : List String) (n : Nat) :
    Atomic (deck st s n) st := by
  intro e st2 h
  simp [deck] at h

/-- A failing slide leaves the state as it found it. -/
theorem slide_atomic (st : St) (s : List String) (n : Nat) :
    Atomic (slide st s n) st := by
  intro e st2 h
  simp only [slide] at h
  repeat' split at h
  all_goals simp_all

/-- A failing canvas leaves the state as it found it. -/
theorem canvas_atomic {F : Type} (L : Lib F) (st : St) (s : List String) (n : Nat) :
    Atomic (canvas L st s n) st := by
  intro e st2 h
  simp only [canvas] at h
  repeat' split at h
  all_goals simp_all

/-- A failing text leaves the state as it found it. -/
theorem text_atomic {F : Type} (L : Lib F) (st : St) (s : List String) (n : Nat) :
    Atomic (text L st s n) st := by
  intro e st2 h
  simp only [text] at h
  repeat' split at h
  all_goals simp_all

/-- A failing rtext leaves the state as it found it. -/
theorem rtext_atomic {F : Type} (L : Lib F) (st : St) (s : List String) (n : Nat) :
    Atomic (rtext L st s n) st := by
  intro e st2 h
  simp only [rtext] at h
  repeat' split at h
  all_goals simp_all

/-- A failing textblock leaves the state as it found it. -/
theorem textblock_atomic {F : Type} (L : Lib F) (st : St) (s : List String) (n : Nat) :
    Atomic (textblock L st s n) st := by
  intro e st2 h
  simp only [textblock] at h
  repeat' split at h
  all_goals simp_all

/-- A failing textcode leaves the state as it found it. -/
theorem textcode_atomic {F : Type} (L : Lib F) (st : St) (s : List String) (n : Nat) :
    Atomic (textcode L st s n) st := by
  intro e st2 h
  simp only [textcode] at h
  repeat' split at h
  all_goals simp_all

/-- A failing image leaves the state as it found it. -/
theorem image_atomic {F : Type} (L : Lib F) (st : St) (s : List String) (n : Nat) :
    Atomic (image L st s n) st := by
  intro e st2 h
  simp only [image] at h
  repeat' split at h
  all_goals simp_all

/-- A failing cimage leaves the state as it found it. -/
theorem cimage_atomic {F : Type} (L : Lib F) (st : St) (s : List String) (n : Nat) :
    Atomic (cimage L st s n) st := by
  intro e st2 h
  simp only [cimage] at h
  repeat' split at h
  all_goals simp_all

/-- A failing list leaves the state as it found it. -/
theorem list_atomic {F : Type} (L : Lib F) (st : St) (s : List String) (n : Nat) :
    Atomic (list L st s n) st := by
  intro e st2 h
  simp only [list] at h
  repeat' split at h
  all_goals simp_all

/-- A failing listitem leaves the state as it found it. -/
theorem listitem_atomic {F : Type} (L : Lib F) (st : St) (s : List String) (n : Nat) :
    Atomic (listitem L st s n) st := by
  intro e st2 h
  simp only [listitem] at h
  repeat' split at h
  all_goals simp_all

/-- A failing shapes leaves the state as it found it. -/
theorem shapes_atomic {F : Type} (L : Lib F) (st : St) (s : List String) (n : Nat) :
    Atomic (shapes L st s n) st := by
  intro e st2 h
  simp only [shapes] at h
  repeat' split at h
  all_goals simp_all

/-- A failing regshapes leaves the state as it found it. -/
theorem regshapes_atomic {F : Type} (L : Lib F) (st : St) (s : List String) (n : Nat) :
    Atomic (regshapes L st s n) st := by
  intro e st2 h
  simp only [regshapes] at h
  repeat' split at h
  all_goals simp_all

/-- A failing polygon leaves the state as it found it. -/
theorem polygon_atomic {F : Type} (L : Lib F) (st : St) (s : List String) (n : Nat) :
    Atomic (polygon L st s n) st := by
  intro e st2 h
  simp only [polygon] at h
  repeat' split at h
  all_goals simp_all

/-- A failing line leaves the state as it found it. -/
theorem line_atomic {F : Type} (L : Lib F) (st : St) (s : List String) (n : Nat) :
    Atomic (line L st s n) st := by
  intro e st2 h
  simp only [line] at h
  repeat' split at h
  all_goals simp_all

/-- A failing hline leaves the state as it found it. -/
theorem hline_atomic {F : Type} (L : Lib F) (st : St) (s : List String) (n : Nat) :
    Atomic (hline L st s n) st := by
  intro e st2 h
  simp only [hline] at h
  repeat' split at h
  all_goals simp_all

/-- A failing vline leaves the state as it found it. -/
theorem vline_atomic {F : Type} (L : Lib F) (st : St) (s : List String) (n : Nat) :
    Atomic (vline L st s n) st := by
  intro e st2 h
  simp only [vline] at h
  repeat' split at h
  all_goals simp_all

/-- A failing arc leaves the state as it found it. -/
theorem arc_atomic {F : Type} (L : Lib F) (st : St) (s : List String) (n : Nat) :
    Atomic (arc L st s n) st := by
  intro e st2 h
  simp only [arc] at h
  repeat' split at h
  all_goals simp_all

/-- A failing curve leaves the state as it found it. -/
theorem curve_atomic {F : Type} (L : Lib F) (st : St) (s : List String) (n : Nat) :
    Atomic (curve L st s n) st := by
  intro e st2 h
  simp only [curve] at h
  repeat' split at h
  all_goals simp_all

/-- A failing legend leaves the state as it found it. -/
theorem legend_atomic {F : Type} (L : Lib F) (st : St) (s : List String) (n : Nat) :
    Atomic (legend L st s n) st := by
  intro e st2 h
  simp only [legend] at h
  repeat' split at h
  all_goals simp_all

/-- A failing brace leaves the state as it found it. -/
theorem brace_atomic {F : Type} (L : Lib F) (st : St) (s : List String) (n : Nat) :
    Atomic (brace L st s n) st := by
  intro e st2 h
  simp only [brace] at h
  repeat' split at h
  all_goals simp_all

/-- A failing arrow leaves the state as it found it. -/
theorem arrow_atomic {F : Type} (L : Lib F) (st : St) (s : List String) (n : Nat) :
    Atomic (arrow L st s n) st := by
  intro e st2 h
  simp only [arrow] at h
  repeat' split at h
  all_goals simp_all

/-- A failing carrow leaves the state as it found it. -/
theorem carrow_atomic {F : Type} (L : Lib F) (st : St) (s : List String) (n : Nat) :
    Atomic (carrow L st s n) st := by
  intro e st2 h
  simp only [carrow] at h
  repeat' split at h
  all_goals simp_all

/-- Atomicity passes through a conditional. -/
theorem atomic_ite (c : Prop) [Decidable c] (a b : Result) (st : St)
    (ha : c → Atomic a st) (hb : ¬ c → Atomic b st) : Atomic (if c then a else b) st := by
  by_cases h : c
  · simpa [h] using ha h
  · simpa [h] using hb h

/-- Apart from include, grid and chart, whose failure can follow nested dispatch or an
external program, a directive that fails leaves the state as it found it. -/
theorem keyparseStep_atomic {F : Type} (L : Lib F) (kp : KP) (proc : PROC) (st : St)
    (k : String) (rest : List String) (t : String) (n : Nat)
    (h1 : k ≠ "include") (h2 : k ≠ "grid") (h3 : k ≠ "chart") (h4 : k ≠ "dchart") :
    Atomic (keyparseStep L kp proc st (k :: rest) t n) st := by
  simp only [keyparseStep, h1, h2, h3, h4, if_false, or_self]
  refine atomic_ite _ _ _ st (fun _ => deck_atomic st _ n) (fun _ => ?_)
  refine atomic_ite _ _ _ st (fun _ => canvas_atomic L st _ n) (fun _ => ?_)
  refine atomic_ite _ _ _ st (fun _ => slide_atomic st _ n) (fun _ => ?_)
  refine atomic_ite _ _ _ st (fun _ => text_atomic L st _ n) (fun _ => ?_)
  refine atomic_ite _ _ _ st (fun _ => rtext_atomic L st _ n) (fun _ => ?_)
  refine atomic_ite _ _ _ st (fun _ => textblock_atomic L st _ n) (fun _ => ?_)
  refine atomic_ite _ _ _ st (fun _ => textcode_atomic L st _ n) (fun _ => ?_)
  refine atomic_ite _ _ _ st (fun _ => image_atomic L st _ n) (fun _ => ?_)
  refine atomic_ite _ _ _ st (fun _ => cimage_atomic L st _ n) (fun _ => ?_)
  refine atomic_ite _ _ _ st (fun _ => list_atomic L st _ n) (fun _ => ?_)
  refine atomic_ite _ _ _ st (fun _ => endtag_atomic st _ n) (fun _ => ?_)
  refine atomic_ite _ _ _ st (fun _ => listitem_atomic L st _ n) (fun _ => ?_)
  refine atomic_ite _ _ _ st (fun _ => shapes_atomic L st _ n) (fun _ => ?_)
  refine atomic_ite _ _ _ st (fun _ => regshapes_atomic L st _ n) (fun _ => ?_)
  refine atomic_ite _ _ _ st (fun _ => polygon_atomic L st _ n) (fun _ => ?_)
  refine atomic_ite _ _ _ st (fun _ => line_atomic L st _ n) (fun _ => ?_)
  refine atomic_ite _ _ _ st (fun _ => arc_atomic L st _ n) (fun _ => ?_)
  refine atomic_ite _ _ _ st (fun _ => curve_atomic L st _ n) (fun _ => ?_)
  refine atomic_ite _ _ _ st (fun _ => legend_atomic L st _ n) (fun _ => ?_)
  refine atomic_ite _ _ _ st (fun _ => arrow_atomic L st _ n) (fun _ => ?_)
  refine atomic_ite _ _ _ st (fun _ => brace_atomic L st _ n) (fun _ => ?_)
  refine atomic_ite _ _ _ st (fun _ => carrow_atomic L st _ n) (fun _ => ?_)
  refine atomic_ite _ _ _ st (fun _ => vline_atomic L st _ n) (fun _ => ?_)
  refine atomic_ite _ _ _ st (fun _ => hline_atomic L st _ n) (fun _ => ?_)
  exact keyparseDefault_atomic L st _ n

/-! ## Failures without nested dispatch -/

/-- Without fuel the dispatcher does not return. -/
theorem keyparse_zero {F : Type} (L : Lib F) : keyparse L 0 = fun _ _ _ _ => .nofuel := rfl

/-- Without fuel the compiler does not return. -/
theorem process_zero {F : Type} (L : Lib F) : process L 0 = fun _ _ => .nofuel := rfl

/-- The include case of the switch. -/
theorem keyparseStep_include {F : Type} (L : Lib F) (kp : KP) (proc : PROC) (st : St)
    (rest : List String) (t : String) (n : Nat) :
    keyparseStep L kp proc st ("include" :: rest) t n = includeFile L proc st ("include" :: rest) n := by
  simp [keyparseStep]

/-- The grid case of the switch. -/
theorem keyparseStep_grid {F : Type} (L : Lib F) (kp : KP) (proc : PROC) (st : St)
    (rest : List String) (t : String) (n : Nat) :
    keyparseStep L kp proc st ("grid" :: rest) t n = grid L kp st ("grid" :: rest) n := by
  simp [keyparseStep]

/-- Only include and grid call back into the dispatcher or the compiler. -/
theorem keyparseStep_indep {F : Type} (L : Lib F) (kp kp2 : KP) (proc proc2 : PROC) (st : St)
    (k : String) (rest : List String) (t : String) (n : Nat)
    (h1 : k ≠ "include") (h2 : k ≠ "grid") :
    keyparseStep L kp proc st (k :: rest) t n = keyparseStep L kp2 proc2 st (k :: rest) t n := by
  simp only [keyparseStep, h1, h2, if_false]

/-- A grid loop that ends although dispatch is out of fuel has dispatched nothing. -/
theorem gridloop_nofuel {F : Type} (L : Lib F) (n : Nat) (x yint xint limit : F) :
    ∀ (lines : List String) (xp yp : F) (st st2 : St),
      gridloop L (fun _ _ _ _ => .nofuel) n x yint xint limit lines xp yp st = .ret st2 →
      st2 = st ∧ ∀ kp : KP, gridloop L kp n x yint xint limit lines xp yp st = .ret st := by
  intro lines
  induction lines with
  | nil =>
    intro xp yp st st2 h
    simp only [gridloop, Outcome.ret.injEq] at h
    exact ⟨h.symm, fun kp => rfl⟩
  | cons t rest ih =>
    intro xp yp st st2 h
    by_cases ht : t.length = 0
    · simp only [gridloop, ht, if_true] at h
      obtain ⟨h1, h2⟩ := ih _ _ st st2 h
      refine ⟨h1, fun kp => ?_⟩
      simp only [gridloop, ht, if_true]
      exact h2 kp
    · simp [gridloop, ht] at h

/-- An include that fails although the compiler is out of fuel has not opened its file. -/
theorem includeFile_nofuel {F : Type} (L : Lib F) (st : St) (s : List String) (n : Nat)
    (e : String) (st2 : St)
    (h : includeFile L (fun _ _ => .nofuel) st s n = .ret (some e, st2)) :
    st2 = st ∧ ∀ proc : PROC, includeFile L proc st s n = .ret (some e, st) := by
  refine ⟨?_, fun proc => ?_⟩
  · simp only [includeFile] at h
    repeat' split at h
    all_goals simp_all
  · simp only [includeFile] at h ⊢
    repeat' split at h
    all_goals simp_all

/-- A grid that fails although dispatch is out of fuel has dispatched no data line. -/
theorem grid_nofuel {F : Type} (L : Lib F) (st : St) (s : List String) (n : Nat)
    (e : String) (st2 : St)
    (h : grid L (fun _ _ _ _ => .nofuel) st s n = .ret (some e, st2)) :
    st2 = st ∧ ∀ kp : KP, grid L kp st s n = .ret (some e, st) := by
  refine ⟨?_, fun kp => ?_⟩
  · simp only [grid] at h
    repeat' split at h
    all_goals try (simp only [Outcome.ret.injEq, Prod.mk.injEq, Option.some.injEq, reduceCtorEq, false_and, and_false] at h)
    all_goals try (exact h.2.symm)
    all_goals try (rename_i hg; obtain ⟨h1, _⟩ := gridloop_nofuel L n _ _ _ _ _ _ _ _ _ hg; exact h.2 ▸ h1)
  · simp only [grid] at h ⊢
    repeat' split at h
    all_goals try (simp only [Outcome.ret.injEq, Prod.mk.injEq, Option.some.injEq, reduceCtorEq, false_and, and_false] at h)
    all_goals try (simp only [*]; done)
    rename_i hg
    obtain ⟨_, h2⟩ := gridloop_nofuel L n _ _ _ _ _ _ _ _ _ hg
    simp only [h2 kp, h.1]


/-- A directive other than chart that fails although nested dispatch is out of fuel has failed
on its own: it leaves the state as it found it and fails alike with any amount of fuel. -/
theorem keyparse_own_failure {F : Type} (L : Lib F) (fuel : Nat) (st : St) (k : String)
    (rest : List String) (t : String) (n : Nat) (e : String) (st2 : St)
    (hchart : k ≠ "chart") (hdchart : k ≠ "dchart")
    (h : keyparse L 1 st (k :: rest) t n = .ret (some e, st2)) :
    st2 = st ∧ keyparse L (fuel + 1) st (k :: rest) t n = .ret (some e, st) := by
  rw [keyparse_succ, keyparse_zero, process_zero] at h
  rw [keyparse_succ]
  by_cases hi : k = "include"
  · subst hi
    rw [keyparseStep_include] at h ⊢
    obtain ⟨h1, h2⟩ := includeFile_nofuel L st _ n e st2 h
    exact ⟨h1, h2 _⟩
  · by_cases hg : k = "grid"
    · subst hg
      rw [keyparseStep_grid] at h ⊢
      obtain ⟨h1, h2⟩ := grid_nofuel L st _ n e st2 h
      exact ⟨h1, h2 _⟩
    · have h1 := keyparseStep_atomic L _ _ st k rest t n hi hg hchart hdchart e st2 h
      subst h1
      refine ⟨rfl, ?_⟩
      rw [keyparseStep_indep L _ (fun _ _ _ _ => .nofuel) _ (fun _ _ => .nofuel) st2 k rest t n hi hg]
      exact h

/-! ## Lemmas on the main loop -/

/-- The state the main loop ends in does not depend on the errors collected so far. -/
theorem mainloop_state_indep {F : Type} (L : Lib F) (kp : KP) (fuel : Nat) (gas : Nat) :
    ∀ (st : St) (lines : List String) (n : Nat) (e1 e2 : List Error),
      (mainloop L kp fuel gas st lines n e1).map Prod.snd
        = (mainloop L kp fuel gas st lines n e2).map Prod.snd := by
  induction gas with
  | zero =>
    intro st lines n e1 e2
    cases lines <;> simp [mainloop, Outcome.map]
  | succ g ih =>
    intro st lines n e1 e2
    cases lines with
    | nil => simp [mainloop, Outcome.map]
    | cons t rest =>
      simp only [mainloop]
      cases hs : lineStep L kp fuel st t rest n with
      | panic => rfl
      | nofuel => rfl
      | ret r =>
        obtain ⟨errs, st1, rest1⟩ := r
        exact ih st1 rest1 (n + 1) (e1 ++ errs) (e2 ++ errs)

/-- An empty line is skipped. -/
theorem lineStep_empty {F : Type} (L : Lib F) (kp : KP) (fuel : Nat) (st : St)
    (rest : List String) (n : Nat) : lineStep L kp fuel st "" rest n = .ret ([], st, rest) := by
  simp [lineStep, parse, L.scan_nil]

/-- Only the empty string has no first byte. -/
theorem byteAt_zero_none (t : String) (h : byteAt t 0 = none) : t = "" := by
  cases t with
  | mk d =>
    cases d with
    | nil => rfl
    | cons c cs => simp [byteAt] at h

/-- With a wrong number of tokens loadata reads no line and writes no file. -/
theorem loadata_of_length_ne {F : Type} (L : Lib F) (st : St) (s : List String) (n : Nat)
    (lines : List String) (h : s.length ≠ 2) : (loadata L st s n lines).2 = (st, lines) := by
  match s with
  | [] => rfl
  | [_] => rfl
  | [_, _] => simp at h
  | _ :: _ :: _ :: _ => rfl

/-- The token "=" is not a quoted file name: loadata reads no line and writes no file. -/
theorem loadata_eq_sign {F : Type} (L : Lib F) (st : St) (k : String) (n : Nat)
    (lines : List String) : (loadata L st [k, "="] n lines).2 = (st, lines) := by
  have h : filequote "=" n = .error (lineno n ++ ": " ++ "=" ++ " is not a valid filename") := by
    unfold filequote
    rw [if_pos (by decide)]
  simp [loadata, h]


/-- A pass on a line that fails on its own leaves the state and the scanner as an empty line
does. -/
theorem lineStep_of_failure {F : Type} (L : Lib F) (fuel fuelN : Nat) (st : St) (t : String)
    (rest : List String) (n : Nat) (e : String) (st2 : St)
    (hfor : (parse L st.emap t).head? ≠ some "for")
    (hchart : (parse L st.emap t).head? ≠ some "chart")
    (hdchart : (parse L st.emap t).head? ≠ some "dchart")
    (hfail : keyparse L 1 st (parse L st.emap t) t n = .ret (some e, st2)) :
    ∃ errs, lineStep L (keyparse L (fuel + 1)) fuelN st t rest n = .ret (errs, st, rest) := by
  cases hp : parse L st.emap t with
  | nil => exact ⟨[], by simp [lineStep, hp]⟩
  | cons tok0 toks =>
    rw [hp] at hfor hchart hdchart hfail
    simp only [List.head?_cons, ne_eq, Option.some.injEq] at hfor hchart hdchart
    obtain ⟨hst, hfuel⟩ := keyparse_own_failure L fuel st tok0 toks t n e st2 hchart hdchart hfail
    subst hst
    by_cases hb : byteAt t 0 = none
    · have ht := byteAt_zero_none t hb
      subst ht
      simp [parse, L.scan_nil] at hp
    · by_cases hc : byteAt t 0 = some '#'
      · exact ⟨[], by simp [lineStep, hp, hc]⟩
      · by_cases hd : tok0 = "data"
        · subst hd
          have hl : (loadata L st2 ("data" :: toks) n rest).2 = (st2, rest) := by
            by_cases hlen : ("data" :: toks).length = 2
            · match toks, hlen with
              | [s1], _ =>
                by_cases hs1 : s1 = "="
                · subst hs1
                  exact loadata_eq_sign L st2 "data" n rest
                · exfalso
                  rw [keyparse_succ, keyparseStep_default L _ _ st2 "data" [s1] t n (by decide)]
                    at hfuel
                  simp [keyparseDefault, isaop, hs1] at hfuel
            · exact loadata_of_length_ne L st2 _ n rest hlen
          have hl1 : (loadata L st2 ("data" :: toks) n rest).2.1 = st2 := by rw [hl]
          have hl2 : (loadata L st2 ("data" :: toks) n rest).2.2 = rest := by rw [hl]
          refine ⟨[(loadata L st2 ("data" :: toks) n rest).1, some e], ?_⟩
          simp [lineStep, hp, hb, hc, hl1, hl2, hfuel]
        · refine ⟨[some e], ?_⟩
          simp [lineStep, hp, hb, hc, hd, hfor, hfuel]

/-! ## The main loop never runs short of passes -/

/-- forbody only consumes lines. -/
theorem forbody_length {F : Type} (L : Lib F) (m : Store) (lines : List String) :
    (forbody L m lines).2.length ≤ lines.length := by
  induction lines with
  | nil => simp [forbody]
  | cons t rest ih =>
    simp only [forbody]
    split
    · exact Nat.le_succ_of_le ih
    · split
      · simp
      · exact Nat.le_succ_of_le ih

/-- The loop of loadata only consumes lines. -/
theorem dataLines_length {F : Type} (L : Lib F) (lines : List String) :
    (dataLines L lines).2.length ≤ lines.length := by
  induction lines with
  | nil => simp [dataLines]
  | cons t rest ih =>
    simp only [dataLines]
    split
    · simp
    · split
      · exact Nat.le_succ_of_le ih
      · exact Nat.le_succ_of_le ih

/-- loadata only consumes lines. -/
theorem loadata_length {F : Type} (L : Lib F) (st : St) (s : List String) (n : Nat)
    (lines : List String) : (loadata L st s n lines).2.2.length ≤ lines.length := by
  simp only [loadata]
  repeat' split
  all_goals first
    | exact dataLines_length L lines
    | exact Nat.le_refl _

/-- parsefor only consumes lines. -/
theorem parsefor_length {F : Type} (L : Lib F) (kp : KP) (fuel : Nat) (st : St) (s : List String)
    (n : Nat) (lines : List String) (e : Error) (st1 : St) (rest1 : List String)
    (h : parsefor L kp fuel st s n lines = .ret (e, st1, rest1)) :
    rest1.length ≤ lines.length := by
  have hb := forbody_length L st.emap lines
  simp only [parsefor] at h
  repeat' split at h
  all_goals first
    | (simp only [Outcome.ret.injEq, Prod.mk.injEq, reduceCtorEq] at h; done)
    | (simp only [Outcome.ret.injEq, Prod.mk.injEq] at h
       obtain ⟨_, _, h3⟩ := h
       rw [← h3]
       exact hb)

/-- A pass of the main loop only consumes lines. -/
theorem lineStep_length {F : Type} (L : Lib F) (kp : KP) (fuel : Nat) (st : St) (t : String)
    (rest : List String) (n : Nat) (errs : List Error) (st1 : St) (rest1 : List String)
    (h : lineStep L kp fuel st t rest n = .ret (errs, st1, rest1)) :
    rest1.length ≤ rest.length := by
  simp only [lineStep] at h
  split at h
  · simp only [Outcome.ret.injEq, Prod.mk.injEq] at h
    rw [← h.2.2]
  · split at h
    · simp at h
    · split at h
      · simp only [Outcome.ret.injEq, Prod.mk.injEq] at h
        rw [← h.2.2]
      · split at h
        · simp at h
        · simp at h
        · rename_i tok0 toks _ _ _ errs1 st2 rest2 hfor
          have h2 : rest2.length ≤ rest.length := by
            split at hfor
            · split at hfor
              · rename_i hp
                simp only [Outcome.ret.injEq, Prod.mk.injEq] at hfor
                rw [← hfor.2.2]
                exact parsefor_length L kp fuel st _ n rest _ _ _ hp
              · simp at hfor
              · simp at hfor
            · simp only [Outcome.ret.injEq, Prod.mk.injEq] at hfor
              rw [← hfor.2.2]
          split at h
          · simp at h
          · simp at h
          · simp only [Outcome.ret.injEq, Prod.mk.injEq] at h
            rw [← h.2.2]
            split
            · exact Nat.le_trans (loadata_length L st2 _ n rest2) h2
            · exact h2

/-- With at least as many passes allowed as there are lines left, the main loop never stops
for want of passes: its result does not depend on the bound. -/
theorem mainloop_gas {F : Type} (L : Lib F) (kp : KP) (fuel : Nat) (g1 : Nat) :
    ∀ (g2 : Nat) (st : St) (lines : List String) (n : Nat) (errors : List Error),
      lines.length ≤ g1 → lines.length ≤ g2 →
      mainloop L kp fuel g1 st lines n errors = mainloop L kp fuel g2 st lines n errors := by
  induction g1 with
  | zero =>
    intro g2 st lines n errors h1 h2
    have : lines = [] := List.eq_nil_of_length_eq_zero (Nat.le_zero.1 h1)
    subst this
    cases g2 <;> simp [mainloop]
  | succ g ih =>
    intro g2 st lines n errors h1 h2
    cases lines with
    | nil => cases g2 <;> simp [mainloop]
    | cons t rest =>
      cases g2 with
      | zero => simp at h2
      | succ g2 =>
        simp only [mainloop]
        cases hs : lineStep L kp fuel st t rest n with
        | panic => rfl
        | nofuel => rfl
        | ret r =>
          obtain ⟨errs, st1, rest1⟩ := r
          have hl := lineStep_length L kp fuel st t rest n errs st1 rest1 hs
          simp only [List.length_cons] at h1 h2
          exact ih g2 st1 rest1 (n + 1) _ (by omega) (by omega)

/-! ## Best-effort compilation -/

/-- Mapping twice is mapping the composition. -/
theorem Outcome.map_map {α β γ : Type} (f : α → β) (g : β → γ) (x : Outcome α) :
    (x.map f).map g = x.map (fun a => g (f a)) := by
  cases x <;> rfl

/-- There are no more errors than collected results. -/
theorem countErrs_le (errors : List Error) : countErrs errors ≤ errors.length := by
  simp only [countErrs]
  exact List.length_filter_le _ _

/-- The output and store process ends with are those its main loop ends with. -/
theorem processWith_view {F : Type} (L : Lib F) (kp : KP) (fuel : Nat) (st : St) (r : Src) :
    (processWith L kp fuel st r).map (fun x => (x.2.out, x.2.emap))
      = (mainloop L kp fuel r.lines.length st r.lines 1 []).map (fun x => (x.2.out, x.2.emap)) := by
  simp only [processWith]
  cases hm : mainloop L kp fuel r.lines.length st r.lines 1 [] with
  | panic => rfl
  | nofuel => rfl
  | ret x =>
    obtain ⟨errors, st1⟩ := x
    cases hr : r.err with
    | some m => simp [Outcome.map]
    | none =>
      by_cases hn : countErrs errors > 0
      · have hlt : countErrs errors - 1 < errors.length := by
          have := countErrs_le errors
          omega
        simp only [if_pos hn, List.getElem?_eq_getElem hlt]
        simp [Outcome.map]
      · simp [hn, Outcome.map]

/-- C8, as amended: at every state in which the main loop of process reads a line L whose first
token is none of for, chart and dchart and whose directive returns a failure from keyparse on
its own, that is with no fuel for nested dispatch (a failing include has not started on the
included file, a failing grid has dispatched no data line), the compilation goes on with the
lines after L from the very state an empty line would leave: with any fuel the final state
(output, store, files) of the main loop is the same with L and with an empty line in its
place, and so are the output and final store of process when L is the first line of the
script. -/
theorem best_effort {F : Type} (L : Lib F) (fuel fuelN gas : Nat) (st : St) (t : String)
    (post : List String) (n : Nat) (errors : List Error) (e : String) (st2 : St)
    (hfor : (parse L st.emap t).head? ≠ some "for")
    (hchart : (parse L st.emap t).head? ≠ some "chart")
    (hdchart : (parse L st.emap t).head? ≠ some "dchart")
    (hfail : keyparse L 1 st (parse L st.emap t) t n = .ret (some e, st2)) :
    (mainloop L (keyparse L (fuel + 1)) fuelN (gas + 1) st (t :: post) n errors).map Prod.snd
      = (mainloop L (keyparse L (fuel + 1)) fuelN (gas + 1) st ("" :: post) n errors).map Prod.snd ∧
    (n = 1 → ∀ err : Error,
      (process L (fuel + 1) st { lines := t :: post, err := err }).map
          (fun x => (x.2.out, x.2.emap))
        = (process L (fuel + 1) st { lines := "" :: post, err := err }).map
          (fun x => (x.2.out, x.2.emap))) := by
  have key : ∀ (fN g : Nat) (errs : List Error),
      (mainloop L (keyparse L (fuel + 1)) fN (g + 1) st (t :: post) n errs).map Prod.snd
        = (mainloop L (keyparse L (fuel + 1)) fN (g + 1) st ("" :: post) n errs).map Prod.snd := by
    intro fN g errs
    obtain ⟨es, hes⟩ := lineStep_of_failure L fuel fN st t post n e st2 hfor hchart hdchart hfail
    simp only [mainloop, hes, lineStep_empty]
    exact mainloop_state_indep L _ fN g st post (n + 1) _ _
  refine ⟨key fuelN gas errors, ?_⟩
  intro hn err
  subst hn
  rw [process_succ, processWith_view, processWith_view]
  have h := key (fuel + 1) post.length []
  have h2 := congrArg (Outcome.map (fun s : St => (s.out, s.emap))) h
  rw [Outcome.map_map, Outcome.map_map] at h2
  simpa using h2

/-- Witness of C8: the failing line canvas before w = 100 and deck. -/
theorem best_effort_witness :
    (mainloop exactLib (keyparse exactLib 1) 1 3 (St.init []) ["canvas", "w = 100", "deck"] 1
        []).map Prod.snd
      = (mainloop exactLib (keyparse exactLib 1) 1 3 (St.init []) ["", "w = 100", "deck"] 1
        []).map Prod.snd :=
  (best_effort exactLib 0 1 2 (St.init []) "canvas" ["w = 100", "deck"] 1 []
    "line 1: canvas width height" (St.init []) (by decide) (by decide) (by decide)
    (by decide)).1

/-- C8, as stated, fails on a line that opens a loop: the line for = 1 2 returns the illegal
assignment failure from keyparse, yet it has already swallowed the lines up to efor, which an
empty line in its place leaves to be compiled. -/
theorem best_effort_fails_on_for :
    keyparse exactLib 1 (St.init []) (parse exactLib [] "for = 1 2") "for = 1 2" 1
      = .ret (some "line 1: [for = 1 2] is a illegal assignment", St.init []) ∧
    (process exactLib 1 (St.init []) (script ["for = 1 2", "x = 5", "efor"])).map
      (fun x => (x.2.out, x.2.emap)) = .ret ("", []) ∧
    (process exactLib 1 (St.init []) (script ["", "x = 5", "efor"])).map
      (fun x => (x.2.out, x.2.emap)) = .ret ("", [("x", "5")]) := by
  decide


/-- A failing include can have written output: the included file f holds deck / canvas / canvas,
its compilation writes the deck element and returns the failure of its line 2, which include
returns in turn. -/
theorem include_fails_after_output :
    keyparse exactLib 2 (St.init [("f", script ["deck", "canvas", "canvas"])])
        ["include", "\"f\""] "include \"f\"" 1
      = .ret (some "line 2: canvas width height",
          { emap := [], out := "<deck>\n", fs := [("f", script ["deck", "canvas", "canvas"])],
            rng := 0, stderr := "line 2: canvas width height\nline 3: canvas width height\n" }) := by
  decide

/-! ## The collected errors -/

/-- C4 at the script deck / canvas: the canvas directive of line 2 returns a failure, which is
collected and reported, yet process returns nil, the first entry of the collected list. -/
theorem process_nil_despite_failure :
    keyparse exactLib 1 ((St.init []).write "<deck>\n") ["canvas"] "canvas" 2
      = .ret (some "line 2: canvas width height", (St.init []).write "<deck>\n") ∧
    mainloop exactLib (keyparse exactLib 1) 1 2 (St.init []) ["deck", "canvas"] 1 []
      = .ret ([none, some "line 2: canvas width height"], (St.init []).write "<deck>\n") ∧
    process exactLib 1 (St.init []) (script ["deck", "canvas"])
      = .ret (none, { emap := [], out := "<deck>\n", fs := [], rng := 0,
                      stderr := "line 2: canvas width height\n" }) := by
  decide

/-- C5 at the script deck / canvas / slide a b c d: lines 2 and 3 both fail, the collected list
is [nil, failure of line 2, failure of line 3], and process returns the entry at index 1, the
failure of line 2, not the failure of the last failing directive. -/
theorem process_returns_earlier_failure :
    mainloop exactLib (keyparse exactLib 1) 1 3 (St.init []) ["deck", "canvas", "slide a b c d"] 1 []
      = .ret ([none, some "line 2: canvas width height", some "line 3: slide [bgcolor] [fgcolor]"],
          (St.init []).write "<deck>\n") ∧
    process exactLib 1 (St.init []) (script ["deck", "canvas", "slide a b c d"])
      = .ret (some "line 2: canvas width height",
          { emap := [], out := "<deck>\n", fs := [], rng := 0,
            stderr := "line 2: canvas width height\nline 3: slide [bgcolor] [fgcolor]\n" }) := by
  decide

/-- C6 at the script for i = [ a ] / canvas / efor: the body directive canvas returns a failure
when it is replayed, evaloop drops it, nothing but the nil results of the for line is collected,
nothing is reported and process returns nil. -/
theorem loop_failure_dropped :
    keyparse exactLib 1 (St.init []) (substFor "i" .quoted "a" ["canvas"]) "" 1
      = .ret (some "line 1: canvas width height", St.init []) ∧
    mainloop exactLib (keyparse exactLib 1) 1 3 (St.init []) ["for i = [ a ]", "canvas", "efor"] 1 []
      = .ret ([none, none], St.init []) ∧
    process exactLib 1 (St.init []) (script ["for i = [ a ]", "canvas", "efor"])
      = .ret (none, St.init []) := by
  decide

/-- C7 at the script for i = [ a ] / deck / efor / canvas: the failing canvas directive is on
physical line 4, and the failure it returns carries line number 2, because the lines read by
forbody are not counted. -/
theorem line_number_after_loop :
    mainloop exactLib (keyparse exactLib 1) 1 4 (St.init [])
        ["for i = [ a ]", "deck", "efor", "canvas"] 1 []
      = .ret ([none, none, some "line 2: canvas width height"], (St.init []).write "<deck>\n") ∧
    process exactLib 1 (St.init []) (script ["for i = [ a ]", "deck", "efor", "canvas"])
      = .ret (none, { emap := [], out := "<deck>\n", fs := [], rng := 0,
                      stderr := "line 2: canvas width height\n" }) := by
  decide

/-! ## Lemmas on replay -/

/-- Dispatching a concatenation is dispatching its parts in turn. -/
theorem dispatchAll_append (kp : KP) (n : Nat) (xs ys : List (List String)) :
    ∀ st : St, dispatchAll kp n (xs ++ ys) st =
      match dispatchAll kp n xs st with
      | .ret st2 => dispatchAll kp n ys st2
      | .panic => .panic
      | .nofuel => .nofuel := by
  induction xs with
  | nil => intro st; rfl
  | cons r rs ih =>
    intro st
    simp only [List.cons_append, dispatchAll]
    cases h : kp st r "" n with
    | ret x => obtain ⟨e, st2⟩ := x; exact ih st2
    | panic => rfl
    | nofuel => rfl

/-- One pass over the body dispatches the substituted records in order. -/
theorem evalbody_eq_dispatchAll (kp : KP) (forvar : String) (format : Format) (v : String)
    (n : Nat) (body : List (List String)) :
    ∀ st : St, evalbody kp forvar format v n body st
      = dispatchAll kp n (body.map (substFor forvar format v)) st := by
  induction body with
  | nil => intro st; rfl
  | cons fb rest ih =>
    intro st
    simp only [evalbody, evaloop, List.map_cons, dispatchAll]
    cases h : kp st (substFor forvar format v fb) "" n with
    | ret x => obtain ⟨e, st2⟩ := x; exact ih st2
    | panic => rfl
    | nofuel => rfl

/-- The loop over a list of values dispatches the replay records in order. -/
theorem listloop_eq_dispatchAll (kp : KP) (forvar : String) (body : List (List String))
    (n : Nat) (vals : List String) :
    ∀ st : St, listloop kp forvar body n vals st
      = dispatchAll kp n (replayRecords forvar .quoted vals body) st := by
  induction vals with
  | nil => intro st; rfl
  | cons v vs ih =>
    intro st
    simp only [listloop, replayRecords, List.flatMap_cons, dispatchAll_append,
      evalbody_eq_dispatchAll]
    cases h : dispatchAll kp n (body.map (substFor forvar .quoted v)) st with
    | ret st2 => exact ih st2
    | panic => rfl
    | nofuel => rfl

/-- A numeric loop that ends within its fuel dispatches the replay records of its values. -/
theorem numloopRun_eq_dispatchAll {F : Type} (L : Lib F) (kp : KP) (forvar : String)
    (body : List (List String)) (n : Nat) (en incr : F) (fuel : Nat) :
    ∀ (v : F) (st : St) (vals : List F), numValues L en incr fuel v = some vals →
      numloopRun L kp forvar body n en incr fuel v st
        = dispatchAll kp n (replayRecords forvar .plain (vals.map L.ftoa) body) st := by
  induction fuel with
  | zero => intro v st vals h; simp [numValues] at h
  | succ k ih =>
    intro v st vals h
    simp only [numValues] at h
    by_cases hle : L.le v en = true
    · simp only [hle, if_true, Option.map_eq_some'] at h
      obtain ⟨vs, hvs, rfl⟩ := h
      simp only [numloopRun, hle, if_true, replayRecords, List.map_cons, List.flatMap_cons,
        dispatchAll_append, evalbody_eq_dispatchAll]
      cases hd : dispatchAll kp n (body.map (substFor forvar .plain (L.ftoa v))) st with
      | ret st2 => exact ih (L.add v incr) st2 vs hvs
      | panic => rfl
      | nofuel => rfl
    · simp only [hle, Bool.false_eq_true, if_false, Option.some.injEq] at h
      subst h
      simp [numloopRun, hle, replayRecords, dispatchAll]

/-- The number of replay records: one copy of the body for each value. -/
theorem replayRecords_length (forvar : String) (format : Format) (vals : List String)
    (body : List (List String)) :
    (replayRecords forvar format vals body).length = vals.length * body.length := by
  induction vals with
  | nil => simp [replayRecords]
  | cons v vs ih =>
    simp only [replayRecords, List.flatMap_cons, List.length_append, List.length_map,
      List.length_cons] at ih ⊢
    rw [ih]
    ring

/-- An inline-list loop dispatches the replay records of its elements, in the quoted
format, over the body buffered from the store at loop entry. -/
theorem parsefor_vectloop {F : Type} (L : Lib F) (kp : KP) (fuel : Nat) (st : St)
    (s : List String) (n : Nat) (lines : List String) (forvar : String) (vl : List String)
    (hv : s[1]? = some forvar) (ht : fortype s = .vectloop) (hf : forvector s = .ok vl) :
    parsefor L kp fuel st s n lines
      = forResult (forbody L st.emap lines).2
          (dispatchAll kp n (replayRecords forvar .quoted vl (forbody L st.emap lines).1) st) := by
  simp only [parsefor, hv, ht, hf, listloop_eq_dispatchAll, forResult]
  cases dispatchAll kp n (replayRecords forvar .quoted vl (forbody L st.emap lines).1) st <;> rfl

/-- A file loop dispatches the replay records of the lines of its file, in the quoted
format, over the body buffered from the store at loop entry. -/
theorem parsefor_fileloop {F : Type} (L : Lib F) (kp : KP) (fuel : Nat) (st : St)
    (s : List String) (n : Nat) (lines : List String) (forvar : String) (fl : List String)
    (hv : s[1]? = some forvar) (ht : fortype s = .fileloop)
    (hf : forfile L st.fs s = .ret (fl, none)) :
    parsefor L kp fuel st s n lines
      = forResult (forbody L st.emap lines).2
          (dispatchAll kp n (replayRecords forvar .quoted fl (forbody L st.emap lines).1) st) := by
  simp only [parsefor, hv, ht, hf, listloop_eq_dispatchAll, forResult]
  cases dispatchAll kp n (replayRecords forvar .quoted fl (forbody L st.emap lines).1) st <;> rfl

/-- A numeric loop that ends within its fuel dispatches the replay records of the texts of
its values, in the plain format, over the body buffered from the store at loop entry. -/
theorem parsefor_numloop {F : Type} (L : Lib F) (kp : KP) (fuel : Nat) (st : St)
    (s : List String) (n : Nat) (lines : List String) (forvar : String) (b e i : F)
    (vals : List F)
    (hv : s[1]? = some forvar) (ht : fortype s = .numloop) (hf : fornum L s n = .ok (b, e, i))
    (hvals : numValues L e i fuel b = some vals) :
    parsefor L kp fuel st s n lines
      = forResult (forbody L st.emap lines).2
          (dispatchAll kp n
            (replayRecords forvar .plain (vals.map L.ftoa) (forbody L st.emap lines).1) st) := by
  simp only [parsefor, hv, ht, hf,
    numloopRun_eq_dispatchAll L kp forvar _ n e i fuel b st vals hvals, forResult]
  cases dispatchAll kp n
    (replayRecords forvar .plain (vals.map L.ftoa) (forbody L st.emap lines).1) st <;> rfl

/-- Over exact arithmetic, a loop variable that passes the test m times and then fails it
takes the values v, v + incr, ..., v + (m - 1) incr. -/
theorem numValues_exact (L : Lib ℚ) (hadd : ∀ a b, L.add a b = a + b)
    (hle : ∀ a b, L.le a b = decide (a ≤ b)) (en incr : ℚ) (m : Nat) :
    ∀ (fuel : Nat) (v : ℚ), m < fuel → (∀ j : Nat, j < m → v + j * incr ≤ en) →
      ¬ (v + m * incr ≤ en) →
      numValues L en incr fuel v = some ((List.range m).map (fun k : Nat => v + k * incr)) := by
  induction m with
  | zero =>
    intro fuel v hf _ hlast
    cases fuel with
    | zero => omega
    | succ k =>
      have : ¬ v ≤ en := by simpa using hlast
      simp [numValues, hle, this]
  | succ m ih =>
    intro fuel v hf hall hlast
    cases fuel with
    | zero => omega
    | succ k =>
      have h0 : v ≤ en := by simpa using hall 0 (Nat.succ_pos m)
      have hrec := ih k (v + incr) (by omega)
        (fun j hj => by
          have := hall (j + 1) (by omega)
          push_cast at this
          linarith)
        (by
          intro hc
          apply hlast
          push_cast
          linarith)
      simp only [numValues, hle, h0, decide_True, if_true, hadd, hrec, Option.map_some']
      congr 1
      rw [List.range_succ_eq_map, List.map_cons, List.map_map]
      congr 1
      · simp
      · apply List.map_congr_left
        intro k _
        simp only [Function.comp, Nat.cast_succ]
        ring

/-- C12: over exact arithmetic, for a numeric loop header for v = B E I with I > 0 and E >= B,
parsefor given more fuel than passes replays the whole buffered body exactly
floor((E-B)/I)+1 times, the k-th replay (k from 0) with the loop variable replaced by the
numeric text of B + k*I, in ascending order. -/
theorem numeric_loop_replay (L : Lib ℚ) (hadd : ∀ a b, L.add a b = a + b)
    (hle : ∀ a b, L.le a b = decide (a ≤ b)) (kp : KP) (fuel : Nat) (st : St)
    (v bt et it : String) (n : Nat) (lines : List String) (B E I : ℚ)
    (hb : L.parseFloat bt = .ok B) (he : L.parseFloat et = .ok E) (hi : L.parseFloat it = .ok I)
    (hbt : bt ≠ "[") (hI : 0 < I) (hEB : B ≤ E)
    (hfuel : ⌊(E - B) / I⌋.toNat + 1 < fuel) :
    parsefor L kp fuel st ["for", v, "=", bt, et, it] n lines
      = forResult (forbody L st.emap lines).2
          (dispatchAll kp n
            (replayRecords v .plain
              ((List.range (⌊(E - B) / I⌋.toNat + 1)).map (fun k : Nat => L.ftoa (B + k * I)))
              (forbody L st.emap lines).1) st) ∧
    (replayRecords v .plain
        ((List.range (⌊(E - B) / I⌋.toNat + 1)).map (fun k : Nat => L.ftoa (B + k * I)))
        (forbody L st.emap lines).1).length
      = (⌊(E - B) / I⌋.toNat + 1) * (forbody L st.emap lines).1.length := by
  have hq : 0 ≤ (E - B) / I := div_nonneg (by linarith) (le_of_lt hI)
  have hfl : 0 ≤ ⌊(E - B) / I⌋ := Int.floor_nonneg.2 hq
  have hcast : ((⌊(E - B) / I⌋.toNat : ℕ) : ℚ) = ((⌊(E - B) / I⌋ : ℤ) : ℚ) := by
    have := Int.toNat_of_nonneg hfl
    exact_mod_cast congrArg (fun z : ℤ => (z : ℚ)) this
  have hvals := numValues_exact L hadd hle E I (⌊(E - B) / I⌋.toNat + 1) fuel B hfuel
    (fun j hj => by
      have hj2 : (j : ℚ) ≤ ((⌊(E - B) / I⌋.toNat : ℕ) : ℚ) := by exact_mod_cast Nat.lt_succ_iff.1 hj
      rw [hcast] at hj2
      have h3 : (j : ℚ) ≤ (E - B) / I := le_trans hj2 (Int.floor_le _)
      have h4 := (le_div_iff₀ hI).1 h3
      linarith)
    (by
      intro hc
      have h1 : (E - B) / I < ((⌊(E - B) / I⌋ : ℤ) : ℚ) + 1 := Int.lt_floor_add_one _
      have h2 := (div_lt_iff₀ hI).1 h1
      push_cast at hc
      rw [hcast] at hc
      linarith)
  have ht : fortype ["for", v, "=", bt, et, it] = .numloop := by
    simp [fortype, hbt]
  have hf : fornum L ["for", v, "=", bt, et, it] n = .ok (B, E, I) := by
    simp [fornum, hb, he, hi]
  refine ⟨?_, ?_⟩
  · rw [parsefor_numloop L kp fuel st _ n lines v B E I _ rfl ht hf hvals, List.map_map]
    rfl
  · rw [replayRecords_length]
    simp

/-- Witness of C12: the header for i = 1 3 1 over the body circle i i 5. -/
theorem numeric_loop_replay_witness :
    parsefor exactLib (keyparse exactLib 1) 5 (St.init []) ["for", "i", "=", "1", "3", "1"] 1
        ["circle i i 5", "efor"]
      = forResult (forbody exactLib (St.init []).emap ["circle i i 5", "efor"]).2
          (dispatchAll (keyparse exactLib 1) 1
            (replayRecords "i" .plain
              ((List.range (⌊((3 : ℚ) - 1) / 1⌋.toNat + 1)).map
                (fun k : Nat => exactLib.ftoa (1 + k * 1)))
              (forbody exactLib (St.init []).emap ["circle i i 5", "efor"]).1) (St.init [])) :=
  (numeric_loop_replay exactLib (fun _ _ => rfl) (fun _ _ => rfl) (keyparse exactLib 1) 5
    (St.init []) "i" "1" "3" "1" 1 ["circle i i 5", "efor"] 1 3 1
    (by with_unfolding_all decide) (by with_unfolding_all decide) (by with_unfolding_all decide)
    (by decide) (by norm_num) (by norm_num) (by norm_num; decide)).1

/-- C13: for an inline-list loop header for v = [ e1 ... eN ] with N >= 0, forvector returns
the N elements and parsefor replays the buffered body exactly N times in element order, the
k-th replay with every token equal to the loop variable replaced by ek between double
quotes, whatever ek looks like. -/
theorem inline_list_replay {F : Type} (L : Lib F) (kp : KP) (fuel : Nat) (st : St) (v : String)
    (es : List String) (n : Nat) (lines : List String) :
    forvector ("for" :: v :: "=" :: "[" :: (es ++ ["]"])) = .ok es ∧
    parsefor L kp fuel st ("for" :: v :: "=" :: "[" :: (es ++ ["]"])) n lines
      = forResult (forbody L st.emap lines).2
          (dispatchAll kp n (replayRecords v .quoted es (forbody L st.emap lines).1) st) ∧
    (replayRecords v .quoted es (forbody L st.emap lines).1).length
      = es.length * (forbody L st.emap lines).1.length ∧
    (∀ (e : String) (fb : List String),
      substFor v .quoted e fb = fb.map (fun tok => if tok = v then "\"" ++ e ++ "\"" else tok)) := by
  have hf : forvector ("for" :: v :: "=" :: "[" :: (es ++ ["]"])) = .ok es := by
    simp [forvector]
  have ht : fortype ("for" :: v :: "=" :: "[" :: (es ++ ["]"])) = .vectloop := by
    have hl : ("for" :: v :: "=" :: "[" :: (es ++ ["]"])).getLast? = some "]" := by
      have h : ("for" :: v :: "=" :: "[" :: (es ++ ["]"])) = ("for" :: v :: "=" :: "[" :: es) ++ ["]"] := by
        simp
      rw [h, List.getLast?_append]
      simp
    simp only [fortype, hl]
    simp
  refine ⟨hf, ?_, replayRecords_length _ _ _ _, fun e fb => rfl⟩
  exact parsefor_vectloop L kp fuel st _ n lines v es rfl ht hf

/-- C14, as amended: for a file loop header for v = "name" whose file is read without error,
parsefor replays the buffered body once for every line of the file, in file order, the
loop variable replaced by the line between double quotes; empty lines are not set apart. -/
theorem file_loop_replay {F : Type} (L : Lib F) (kp : KP) (fuel : Nat) (st : St) (v q : String)
    (n : Nat) (lines : List String) (src : Src)
    (hlen : q.length > 3) (hq0 : byteAt q 0 = some doublequote)
    (hq1 : byteAt q (q.length - 1) = some doublequote)
    (hfile : st.fs.get? (slice q 1 (q.length - 1)) = some src) (herr : src.err = none) :
    fortype ["for", v, "=", q] = .fileloop ∧
    forfile L st.fs ["for", v, "=", q] = .ret (src.lines, none) ∧
    parsefor L kp fuel st ["for", v, "=", q] n lines
      = forResult (forbody L st.emap lines).2
          (dispatchAll kp n (replayRecords v .quoted src.lines (forbody L st.emap lines).1) st) ∧
    (replayRecords v .quoted src.lines (forbody L st.emap lines).1).length
      = src.lines.length * (forbody L st.emap lines).1.length := by
  have hne : q ≠ "[" := by
    intro h
    rw [h] at hlen
    exact absurd hlen (by decide)
  have ht : fortype ["for", v, "=", q] = .fileloop := by
    simp [fortype, hne, hlen, hq0, hq1]
  have hf : forfile L st.fs ["for", v, "=", q] = .ret (src.lines, none) := by
    have h2 : ¬ q.length < 2 := by omega
    simp [forfile, h2, hfile, herr]
  exact ⟨ht, hf, parsefor_fileloop L kp fuel st _ n lines v src.lines rfl ht hf,
    replayRecords_length _ _ _ _⟩

/-- Witness of C14: the file ff with the lines a, an empty line and b. -/
theorem file_loop_replay_witness :
    forfile exactLib [("ff", script ["a", "", "b"])] ["for", "x", "=", "\"ff\""]
      = .ret (["a", "", "b"], none) :=
  (file_loop_replay exactLib (keyparse exactLib 1) 1 (St.init [("ff", script ["a", "", "b"])])
    "x" "\"ff\"" 1 ["slide x", "efor"] (script ["a", "", "b"]) (by decide) (by decide)
    (by decide) (by decide) rfl).2.1

/-- C14, as stated, fails on a file with an empty line: the loop over the file ff with the
lines a, empty and b replays the body slide x three times, the second time with the empty
value between quotes. -/
theorem file_loop_keeps_empty_lines :
    forfile exactLib [("ff", script ["a", "", "b"])] ["for", "x", "=", "\"ff\""]
      = .ret (["a", "", "b"], none) ∧
    (process exactLib 1 (St.init [("ff", script ["a", "", "b"])])
        (script ["for x = \"ff\"", "slide x", "efor"])).map (fun r => r.2.out)
      = .ret "<slide bg=\"a\">\n<slide bg=\"\">\n<slide bg=\"b\">\n" := by
  decide

/-- C15: fortype is "not a loop" on a record with fewer than 4 tokens or whose token 2 is not
"="; otherwise it is the inline-list kind whenever token 3 is "[" and the last token is "]",
with 5 or 6 tokens too; otherwise, with 5 or 6 tokens, it is the numeric kind. -/
theorem fortype_classes (s : List String) :
    ((s.length < 4 ∨ s[2]? ≠ some "=") → fortype s = .noloop) ∧
    (4 ≤ s.length → s[2]? = some "=" → s[3]? = some "[" → s.getLast? = some "]" →
      fortype s = .vectloop) ∧
    (s[2]? = some "=" → ¬ (s[3]? = some "[" ∧ s.getLast? = some "]") →
      (s.length = 5 ∨ s.length = 6) → fortype s = .numloop) := by
  match s with
  | [] => simp [fortype]
  | [_] => simp [fortype]
  | [_, _] => simp [fortype]
  | [_, _, _] => simp [fortype]
  | s0 :: s1 :: s2 :: s3 :: rest =>
    refine ⟨?_, ?_, ?_⟩
    · intro h
      have h2 : s2 ≠ "=" := by
        rcases h with h | h
        · simp only [List.length_cons] at h
          omega
        · simpa using h
      simp only [fortype]
      rw [if_pos h2]
    · intro _ h2 h3 hl
      have e2 : s2 = "=" := by simpa using h2
      have e3 : s3 = "[" := by simpa using h3
      simp only [fortype]
      rw [if_neg (not_not.2 e2), if_pos ⟨e3, hl⟩]
    · intro h2 hnv hlen
      have e2 : s2 = "=" := by simpa using h2
      have hnv2 : ¬ (s3 = "[" ∧ (s0 :: s1 :: s2 :: s3 :: rest).getLast? = some "]") := by
        intro hc
        exact hnv ⟨by simp [hc.1], hc.2⟩
      have hn4 : ¬ ((s0 :: s1 :: s2 :: s3 :: rest).length = 4 ∧ s3.length > 3
          ∧ byteAt s3 0 = some doublequote
          ∧ byteAt s3 (s3.length - 1) = some doublequote) := by
        intro hc
        rcases hlen with h | h <;> omega
      simp only [fortype]
      rw [if_neg (not_not.2 e2), if_neg hnv2, if_neg hn4, if_pos hlen]

/-- Witness of C15: a three-token record, an inline list of two elements (6 tokens) and a
numeric header of 5 tokens. -/
theorem fortype_classes_witness :
    fortype ["for", "i", "="] = .noloop ∧
    fortype ["for", "i", "=", "[", "a", "]"] = .vectloop ∧
    fortype ["for", "i", "=", "1", "3"] = .numloop :=
  ⟨(fortype_classes ["for", "i", "="]).1 (Or.inl (by decide)),
   (fortype_classes ["for", "i", "=", "[", "a", "]"]).2.1 (by decide) (by decide) (by decide)
     (by decide),
   (fortype_classes ["for", "i", "=", "1", "3"]).2.2 (by decide) (by decide) (Or.inl (by decide))⟩

/-- C16 at the record for x = "a": the quoted one-character name has three bytes, fortype asks
for more than three and answers "not a loop", while filequote accepts the same token as
the file name a; parsefor returns the incorrect for loop failure although the file exists. -/
theorem fortype_rejects_short_name :
    fortype ["for", "x", "=", "\"a\""] = .noloop ∧
    filequote "\"a\"" 1 = .ok "a" ∧
    parsefor exactLib (keyparse exactLib 1) 1 (St.init [("a", script ["1", "2"])])
        ["for", "x", "=", "\"a\""] 1 ["slide x", "efor"]
      = .ret (some "line 1: incorrect for loop: [for x = \"a\"]",
          St.init [("a", script ["1", "2"])], []) := by
  decide

/-- C17 at the line for: parsefor reads the loop variable s[1] before it looks at the shape
of the record, so a bare for panics with an index out of range; no failure is returned. -/
theorem bare_for_panics :
    parsefor exactLib (keyparse exactLib 1) 1 (St.init []) ["for"] 1 []
      = .panic ∧
    process exactLib 1 (St.init []) (script ["for"]) = .panic := by
  decide

/-! ## The copy made by evaloop -/

/-- Substitution keeps the length of the record. -/
theorem substFor_length (forvar : String) (format : Format) (v : String) (s : List String) :
    (substFor forvar format v s).length = s.length := by
  simp [substFor]

/-- Substitution token by token. -/
theorem substFor_getElem? (forvar : String) (format : Format) (v : String) (s : List String)
    (i : Nat) :
    (substFor forvar format v s)[i]?
      = (s[i]?).map (fun tok => if tok = forvar then format.sprintf v else tok) := by
  simp [substFor]

/-- C18: evaloop hands to the dispatcher a record e of the length of the buffered record s,
with the formatted iteration text wherever s holds the loop variable and the token of s
everywhere else; e is a fresh copy, so the buffered record is the same after the call, also
when the handler writes to its slice (circle to ellipse, square to rect), and each pass
over the body runs on the same buffered records. -/
theorem evaloop_copies_record (kp : KP) (st : St) (f : String) (format : Format) (t : String)
    (n : Nat) (mem : Mem) (sAddr : Nat) (body : List (List String)) (vs : List String)
    (hs : sAddr < mem.length) :
    (substFor f format t (mem.read sAddr)).length = (mem.read sAddr).length ∧
    (∀ (i : Nat) (tok : String), (mem.read sAddr)[i]? = some tok →
      (tok = f → (substFor f format t (mem.read sAddr))[i]? = some (format.sprintf t)) ∧
      (tok ≠ f → (substFor f format t (mem.read sAddr))[i]? = some tok)) ∧
    evaloop kp st f format t (mem.read sAddr) n
      = (kp st (substFor f format t (mem.read sAddr)) "" n).map Prod.snd ∧
    (evaloopMem mem st.emap f format t sAddr).2 ≠ sAddr ∧
    (evaloopMem mem st.emap f format t sAddr).1.read (evaloopMem mem st.emap f format t sAddr).2
      = keyparseTokens st.emap (substFor f format t (mem.read sAddr)) ∧
    (evaloopMem mem st.emap f format t sAddr).1.read sAddr = mem.read sAddr ∧
    listloop kp f body n (t :: vs) st
      = (match evalbody kp f .quoted t n body st with
         | .ret st2 => listloop kp f body n vs st2
         | .panic => .panic
         | .nofuel => .nofuel) := by
  refine ⟨substFor_length _ _ _ _, ?_, ?_, ?_, ?_, ?_, rfl⟩
  · intro i tok hi
    rw [substFor_getElem?, hi]
    constructor
    · intro h; simp [h]
    · intro h; simp [h]
  · simp only [evaloop]
    cases kp st (substFor f format t (mem.read sAddr)) "" n with
    | ret x => rfl
    | panic => rfl
    | nofuel => rfl
  · simp only [evaloopMem, Mem.alloc]
    omega
  · simp [evaloopMem, Mem.alloc, Mem.rewrite, Mem.read, List.getD_eq_getElem?_getD]
  · have hne : mem.length ≠ sAddr := by omega
    simp [evaloopMem, Mem.alloc, Mem.rewrite, Mem.read, List.getD_eq_getElem?_getD,
      List.getElem?_set, hne, List.getElem?_append_left hs]

/-- Witness of C18: the buffered record circle i i 5 replayed with i = 2: the dispatcher gets
circle 2 2 5 in a new array, regshapes turns that array into ellipse 2 2 5, and the
buffered record still reads circle i i 5. -/
theorem evaloop_copies_record_witness :
    (evaloopMem [["circle", "i", "i", "5"]] [] "i" .plain "2" 0).1.read 0
      = ["circle", "i", "i", "5"] ∧
    (evaloopMem [["circle", "i", "i", "5"]] [] "i" .plain "2" 0).1.read 1
      = ["ellipse", "2", "2", "5"] :=
  ⟨(evaloop_copies_record (keyparse exactLib 1) (St.init []) "i" .plain "2" 1
      [["circle", "i", "i", "5"]] 0 [] [] (by decide)).2.2.2.2.2.1,
   by decide⟩

/-! ## The buffered body -/

/-- C19: whatever the dispatcher does to the store, the records a loop hands to it are fixed
when the loop is entered: they are the records buffered by forbody from the store at
entry, with the loop variable replaced by the iteration value; this holds for the
inline-list, the file and the numeric loop. -/
theorem replay_records_fixed_at_entry {F : Type} (L : Lib F) (kp : KP) (fuel : Nat) (st : St)
    (s : List String) (n : Nat) (lines : List String) (forvar : String)
    (hv : s[1]? = some forvar) :
    (∀ vl, fortype s = .vectloop → forvector s = .ok vl →
      parsefor L kp fuel st s n lines
        = forResult (forbody L st.emap lines).2
            (dispatchAll kp n (replayRecords forvar .quoted vl (forbody L st.emap lines).1) st)) ∧
    (∀ fl, fortype s = .fileloop → forfile L st.fs s = .ret (fl, none) →
      parsefor L kp fuel st s n lines
        = forResult (forbody L st.emap lines).2
            (dispatchAll kp n (replayRecords forvar .quoted fl (forbody L st.emap lines).1) st)) ∧
    (∀ b e i vals, fortype s = .numloop → fornum L s n = .ok (b, e, i) →
      numValues L e i fuel b = some vals →
      parsefor L kp fuel st s n lines
        = forResult (forbody L st.emap lines).2
            (dispatchAll kp n
              (replayRecords forvar .plain (vals.map L.ftoa) (forbody L st.emap lines).1) st)) :=
  ⟨fun vl ht hf => parsefor_vectloop L kp fuel st s n lines forvar vl hv ht hf,
   fun fl ht hf => parsefor_fileloop L kp fuel st s n lines forvar fl hv ht hf,
   fun b e i vals ht hf hvals =>
     parsefor_numloop L kp fuel st s n lines forvar b e i vals hv ht hf hvals⟩

/-- Witness of C19: with w bound to 1 at entry, the body w = 2 / slide w is replayed as
w = 2 / slide 1: the assignment of the first body line does not reach the tokens of the
second, and the slide after the loop reads the new value. -/
theorem replay_records_fixed_at_entry_witness :
    parsefor exactLib (keyparse exactLib 1) 1 ((St.init []).setVar "w" "1")
        ["for", "i", "=", "[", "a", "]"] 2 ["w = 2", "slide w", "efor", "slide w"]
      = forResult ["slide w"]
          (dispatchAll (keyparse exactLib 1) 2 [["w", "=", "2"], ["slide", "1"]]
            ((St.init []).setVar "w" "1")) ∧
    (process exactLib 1 (St.init [])
        (script ["w = 1", "for i = [ a ]", "w = 2", "slide w", "efor", "slide w"])).map
        (fun r => r.2.out)
      = .ret "<slide bg=1>\n<slide bg=2>\n" :=
  ⟨(replay_records_fixed_at_entry exactLib (keyparse exactLib 1) 1 ((St.init []).setVar "w" "1")
      ["for", "i", "=", "[", "a", "]"] 2 ["w = 2", "slide w", "efor", "slide w"] "i" rfl).1
      ["a"] (by decide) (by decide),
   by decide⟩

/-- The records of the lines that hold tokens. -/
theorem forbody_no_efor {F : Type} (L : Lib F) (m : Store) (pre : List String)
    (hpre : ∀ t ∈ pre, (parse L m t).head? ≠ some "efor") :
    forbody L m pre = ((pre.map (parse L m)).filter (fun r => r ≠ []), []) := by
  induction pre with
  | nil => rfl
  | cons t rest ih =>
    have ih2 := ih (fun u hu => hpre u (List.mem_cons_of_mem t hu))
    have ht := hpre t (List.mem_cons_self t rest)
    simp only [forbody]
    cases hp : parse L m t with
    | nil => simp [ih2, hp]
    | cons p0 ps =>
      have hne : p0 ≠ "efor" := by
        intro h
        apply ht
        rw [hp, h]
        rfl
      simp [ih2, hp, hne]

/-- C20: forbody returns, in order, the token records of the lines before the first line
whose first token is efor, leaving out the lines without tokens, and leaves in the scanner
the lines after that terminator; without any such line it reads to the end of the input.
It keeps no count of nested loops: for lines among those before the terminator are
buffered like any record, and whatever follows the first efor, a second efor included, is
left unread. -/
theorem forbody_spec {F : Type} (L : Lib F) (m : Store) (pre post : List String) (term : String)
    (hpre : ∀ t ∈ pre, (parse L m t).head? ≠ some "efor")
    (hterm : (parse L m term).head? = some "efor") :
    forbody L m (pre ++ term :: post)
      = ((pre.map (parse L m)).filter (fun r => r ≠ []), post) ∧
    forbody L m pre = ((pre.map (parse L m)).filter (fun r => r ≠ []), []) := by
  refine ⟨?_, forbody_no_efor L m pre hpre⟩
  induction pre with
  | nil =>
    cases hp : parse L m term with
    | nil => simp [hp] at hterm
    | cons p0 ps =>
      have h0 : p0 = "efor" := by simpa [hp] using hterm
      simp [forbody, hp, h0]
  | cons t rest ih =>
    have ih2 := ih (fun u hu => hpre u (List.mem_cons_of_mem t hu))
    have ht := hpre t (List.mem_cons_self t rest)
    simp only [List.cons_append, forbody]
    cases hp : parse L m t with
    | nil => simp [ih2, hp]
    | cons p0 ps =>
      have hne : p0 ≠ "efor" := by
        intro h
        apply ht
        rw [hp, h]
        rfl
      simp [ih2, hp, hne]

/-- Witness of C20: a body holding a nested loop: the inner efor ends the outer body, and
the lines slide and efor stay in the scanner. -/
theorem forbody_spec_witness :
    forbody exactLib [] (["for j = 1 2", "", "deck"] ++ "efor" :: ["slide", "efor"])
      = ((["for j = 1 2", "", "deck"].map (parse exactLib [])).filter (fun r => r ≠ []),
          ["slide", "efor"]) :=
  (forbody_spec exactLib [] ["for j = 1 2", "", "deck"] ["slide", "efor"] "efor" (by decide)
    (by decide)).1

/-! ## The concrete library on integers -/

/-- The digit characters: what they are and what they are not. -/
theorem digitChar_facts (d : Nat) (hd : d < 10) :
    (Nat.digitChar d).isDigit = true ∧ (Nat.digitChar d).toNat - 48 = d ∧
    Nat.digitChar d ≠ '.' ∧ Nat.digitChar d ≠ '-' ∧ Nat.digitChar d ≠ '+' := by
  interval_cases d <;> decide

/-- The digits core prints are those of Mathlib, most significant first. -/
theorem toDigitsCore_eq_digits (fuel : Nat) :
    ∀ (n : Nat) (ds : List Char), 0 < n → n < fuel →
      Nat.toDigitsCore 10 fuel n ds = ((Nat.digits 10 n).reverse.map Nat.digitChar) ++ ds := by
  induction fuel with
  | zero => intro n ds _ h; omega
  | succ f ih =>
    intro n ds hn hf
    have hdig : Nat.digits 10 n = n % 10 :: Nat.digits 10 (n / 10) :=
      Nat.digits_def' (by norm_num) hn
    simp only [Nat.toDigitsCore]
    by_cases h0 : n / 10 = 0
    · simp [h0, hdig]
    · have hpos : 0 < n / 10 := Nat.pos_of_ne_zero h0
      have hlt : n / 10 < f := by omega
      rw [if_neg h0, ih (n / 10) _ hpos hlt, hdig]
      simp

/-- The decimal text of a positive number, by its digits. -/
theorem toDigits_eq_digits (n : Nat) (hn : 0 < n) :
    Nat.toDigits 10 n = (Nat.digits 10 n).reverse.map Nat.digitChar := by
  simp [Nat.toDigits, toDigitsCore_eq_digits (n + 1) n [] hn (Nat.lt_succ_self n)]

/-- The value of a digit string with one more digit at the end. -/
theorem digitsVal_append_digit (xs : List Char) (d : Nat) (hd : d < 10) :
    ∀ v, digitsVal xs = some v → digitsVal (xs ++ [Nat.digitChar d]) = some (v * 10 + d) := by
  obtain ⟨h1, h2, _⟩ := digitChar_facts d hd
  induction xs with
  | nil =>
    intro v hv
    simp only [digitsVal, Option.some.injEq] at hv
    subst hv
    simp [digitsVal, h1, h2]
  | cons c cs ih =>
    intro v hv
    simp only [digitsVal] at hv
    by_cases hc : c.isDigit = true
    · simp only [hc, if_true] at hv
      cases hcs : digitsVal cs with
      | none => simp [hcs] at hv
      | some w =>
        simp only [hcs, Option.some.injEq] at hv
        have := ih w hcs
        simp only [List.cons_append, digitsVal, hc, if_true, List.append_eq, this,
          List.length_append, List.length_singleton, Option.some.injEq]
        rw [← hv]
        ring
    · simp [hc] at hv

/-- The value of the printed digits of a list of digits is the number they stand for. -/
theorem digitsVal_digits (ds : List Nat) (h : ∀ d ∈ ds, d < 10) :
    digitsVal (ds.reverse.map Nat.digitChar) = some (Nat.ofDigits 10 ds) := by
  induction ds with
  | nil => rfl
  | cons d ds ih =>
    have hd := h d (List.mem_cons_self d ds)
    have ih2 := ih (fun x hx => h x (List.mem_cons_of_mem d hx))
    rw [List.reverse_cons, List.map_append, List.map_singleton,
      digitsVal_append_digit _ d hd _ ih2, Nat.ofDigits_cons]
    congr 1
    ring

/-- Reading back the decimal text of a natural number. -/
theorem digitsVal_toDigits (n : Nat) : digitsVal (Nat.toDigits 10 n) = some n := by
  by_cases hn : n = 0
  · subst hn; decide
  · rw [toDigits_eq_digits n (Nat.pos_of_ne_zero hn),
      digitsVal_digits _ (fun d hd => Nat.digits_lt_base (by norm_num) hd), Nat.ofDigits_digits]

/-- The characters of a decimal text are digits. -/
theorem toDigits_chars (n : Nat) :
    ∀ c ∈ Nat.toDigits 10 n, c ≠ '.' ∧ c ≠ '-' ∧ c ≠ '+' := by
  by_cases hn : n = 0
  · subst hn; decide
  · rw [toDigits_eq_digits n (Nat.pos_of_ne_zero hn)]
    intro c hc
    simp only [List.mem_map, List.mem_reverse] at hc
    obtain ⟨d, hd, rfl⟩ := hc
    exact (digitChar_facts d (Nat.digits_lt_base (by norm_num) hd)).2.2

/-- A decimal text is not empty. -/
theorem toDigits_ne_nil (n : Nat) : Nat.toDigits 10 n ≠ [] := by
  by_cases hn : n = 0
  · subst hn; decide
  · rw [toDigits_eq_digits n (Nat.pos_of_ne_zero hn)]
    simp [Nat.digits_ne_nil_iff_ne_zero, hn]

/-- Reading back the decimal text of a natural number as a literal without sign. -/
theorem unsignedVal_toDigits (m : Nat) : unsignedVal (Nat.toDigits 10 m) = some (m : ℚ) := by
  have hch := toDigits_chars m
  have hne := toDigits_ne_nil m
  have htake : (Nat.toDigits 10 m).takeWhile (fun c => decide (c ≠ '.')) = Nat.toDigits 10 m := by
    rw [List.takeWhile_eq_self_iff]
    intro c hc
    simpa using (hch c hc).1
  have hdrop : (Nat.toDigits 10 m).dropWhile (fun c => decide (c ≠ '.')) = [] := by
    rw [List.dropWhile_eq_nil_iff]
    intro c hc
    simpa using (hch c hc).1
  simp only [unsignedVal, htake, hdrop, List.drop_nil, digitsVal_toDigits, digitsVal]
  simp [hne]

/-- The characters of the decimal text of a natural number. -/
theorem repr_data (m : Nat) : (Nat.repr m).data = Nat.toDigits 10 m := rfl

/-- ParseFloat of the concrete library reads the plain decimal text of an integer exactly. -/
theorem parseDecimal_intText (a : Int) : parseDecimal (intText a) = .ok (a : ℚ) := by
  by_cases ha : a < 0
  · have hd : (intText a).data = '-' :: Nat.toDigits 10 a.natAbs := by
      simp [intText, ha, repr_data]
    have hval : -((a.natAbs : ℕ) : ℚ) = (a : ℚ) := by
      have : (a.natAbs : ℤ) = -a := by omega
      have h2 : ((a.natAbs : ℕ) : ℚ) = ((a.natAbs : ℤ) : ℚ) := (Int.cast_natCast a.natAbs).symm
      rw [h2, this]
      simp
    simp only [parseDecimal, hd, unsignedVal_toDigits, hval]
  · have hd : (intText a).data = Nat.toDigits 10 a.natAbs := by
      simp [intText, ha, repr_data]
    have hval : ((a.natAbs : ℕ) : ℚ) = (a : ℚ) := by
      have : (a.natAbs : ℤ) = a := by omega
      have h2 : ((a.natAbs : ℕ) : ℚ) = ((a.natAbs : ℤ) : ℚ) := (Int.cast_natCast a.natAbs).symm
      rw [h2, this]
    have hch := toDigits_chars a.natAbs
    have hne := toDigits_ne_nil a.natAbs
    have hu := unsignedVal_toDigits a.natAbs
    simp only [parseDecimal, hd]
    cases hl : Nat.toDigits 10 a.natAbs with
    | nil => exact absurd hl hne
    | cons c cs =>
      have hc := hch c (by rw [hl]; exact List.mem_cons_self c cs)
      rw [hl] at hu
      split
      · rename_i heq; simp at heq
      · rename_i heq
        simp only [List.cons.injEq] at heq
        exact absurd heq.1 hc.2.1
      · rename_i heq
        simp only [List.cons.injEq] at heq
        exact absurd heq.1 hc.2.2
      · simp only [hu, hval]

/-- The count of digits by repeated division is the length of the digit list. -/
theorem numDigits_eq_length (fuel : Nat) :
    ∀ n : Nat, 0 < n → n < fuel → numDigits fuel n = (Nat.digits 10 n).length := by
  induction fuel with
  | zero => intro n _ h; omega
  | succ f ih =>
    intro n hn hf
    have hdig : Nat.digits 10 n = n % 10 :: Nat.digits 10 (n / 10) :=
      Nat.digits_def' (by norm_num) hn
    simp only [numDigits]
    by_cases h10 : n < 10
    · have h0 : n / 10 = 0 := by omega
      simp [h10, hdig, h0]
    · have hpos : 0 < n / 10 := by omega
      have hlt : n / 10 < f := by omega
      rw [if_neg h10, ih (n / 10) hpos hlt, hdig]
      simp [Nat.add_comm]

/-- The decimal text of a positive number times a power of ten: zeros are appended. -/
theorem toDigits_mul_pow (m j : Nat) (hm : 0 < m) :
    Nat.toDigits 10 (m * 10 ^ j) = Nat.toDigits 10 m ++ List.replicate j '0' := by
  have hpos : 0 < m * 10 ^ j := Nat.mul_pos hm (pow_pos (by norm_num) _)
  rw [toDigits_eq_digits _ hpos, toDigits_eq_digits _ hm, Nat.mul_comm,
    Nat.digits_base_pow_mul (by norm_num) hm]
  have hz : Nat.digitChar 0 = '0' := by decide
  simp [List.map_replicate, hz]

/-- Leading zeros are what dropWhile removes from a run of zeros followed by a list. -/
theorem dropWhile_zero_replicate (j : Nat) (ys : List Char) :
    (List.replicate j '0' ++ ys).dropWhile (fun c => decide (c = '0'))
      = ys.dropWhile (fun c => decide (c = '0')) := by
  induction j with
  | zero => simp
  | succ k ih => simp [List.replicate_succ, ih]

/-- Trailing zeros appended to a digit string are stripped again. -/
theorem stripZeros_append_zeros (xs : List Char) (j : Nat) :
    stripZeros (xs ++ List.replicate j '0') = stripZeros xs := by
  simp only [stripZeros, List.reverse_append, List.reverse_replicate, dropWhile_zero_replicate]

/-- A list is its leading zeros followed by what dropWhile keeps. -/
theorem replicate_append_dropWhile (ys : List Char) :
    List.replicate (ys.length - (ys.dropWhile (fun c => decide (c = '0'))).length) '0'
      ++ ys.dropWhile (fun c => decide (c = '0')) = ys := by
  induction ys with
  | nil => simp
  | cons c cs ih =>
    by_cases hc : c = '0'
    · subst hc
      have hle : (cs.dropWhile (fun c => decide (c = '0'))).length ≤ cs.length :=
        List.Sublist.length_le (List.dropWhile_sublist _)
      have e : ('0' :: cs).length - (cs.dropWhile (fun c => decide (c = '0'))).length
          = (cs.length - (cs.dropWhile (fun c => decide (c = '0'))).length) + 1 := by
        simp only [List.length_cons]
        omega
      simp only [List.dropWhile_cons, decide_True, if_true]
      rw [e, List.replicate_succ, List.cons_append, ih]
    · simp [List.dropWhile_cons, hc]

/-- Putting back the stripped zeros gives the digit string back. -/
theorem stripZeros_append_replicate (xs : List Char) :
    stripZeros xs ++ List.replicate (xs.length - (stripZeros xs).length) '0' = xs := by
  have h := replicate_append_dropWhile xs.reverse
  have h2 := congrArg List.reverse h
  simp only [List.reverse_append, List.reverse_replicate, List.reverse_reverse,
    List.length_reverse] at h2
  simpa [stripZeros] using h2

/-- Stripping zeros does not lengthen a digit string. -/
theorem stripZeros_length_le (xs : List Char) : (stripZeros xs).length ≤ xs.length := by
  simp only [stripZeros, List.length_reverse]
  exact le_trans (List.Sublist.length_le (List.dropWhile_sublist _)) (by simp)

/-- A positive number below 10^6 has between one and six digits. -/
theorem digits_length_bounds (m : Nat) (hm : 0 < m) (hlt : m < 10 ^ 6) :
    1 ≤ (Nat.digits 10 m).length ∧ (Nat.digits 10 m).length ≤ 6 := by
  constructor
  · have : Nat.digits 10 m ≠ [] := Nat.digits_ne_nil_iff_ne_zero.mpr (Nat.pos_iff_ne_zero.1 hm)
    exact List.length_pos.2 this
  · by_contra hc
    have h7 : 7 ≤ (Nat.digits 10 m).length := by omega
    have h1 := Nat.base_pow_length_digits_le 10 m (by norm_num) (Nat.pos_iff_ne_zero.1 hm)
    have h2 : 10 ^ 7 ≤ 10 ^ (Nat.digits 10 m).length := Nat.pow_le_pow_right (by norm_num) h7
    omega

/-- The length of the decimal text of a positive number is its count of digits. -/
theorem toDigits_length (m : Nat) (hm : 0 < m) :
    (Nat.toDigits 10 m).length = (Nat.digits 10 m).length := by
  rw [toDigits_eq_digits m hm]
  simp

/-- Shortest formatting of a positive integer below 10^6 is its plain decimal text. -/
theorem formatAbs_natCast (m : Nat) (hm : 0 < m) (hlt : m < 10 ^ 6) :
    formatAbs (m : ℚ) = Nat.repr m := by
  obtain ⟨hL1, hL6⟩ := digits_length_bounds m hm hlt
  have hne : (m : ℚ) ≠ 0 := Nat.cast_ne_zero.2 (Nat.pos_iff_ne_zero.1 hm)
  have hfl : (m : ℚ).floor = (m : ℤ) := by
    show ⌊(m : ℚ)⌋ = _
    exact Int.floor_natCast m
  have hnd := numDigits_eq_length (m + 1) m hm (Nat.lt_succ_self m)
  have hj : (17 - ((Nat.digits 10 m).length : ℤ)).toNat = 17 - (Nat.digits 10 m).length := by
    omega
  have hsc : (m : ℚ) * (10 : ℚ) ^ (17 - (Nat.digits 10 m).length)
      = ((m * 10 ^ (17 - (Nat.digits 10 m).length) : ℕ) : ℚ) := by
    push_cast
    rfl
  have hfl2 : (((m * 10 ^ (17 - (Nat.digits 10 m).length) : ℕ) : ℚ)).floor
      = ((m * 10 ^ (17 - (Nat.digits 10 m).length) : ℕ) : ℤ) := by
    show ⌊(((m * 10 ^ (17 - (Nat.digits 10 m).length) : ℕ) : ℚ))⌋ = _
    exact Int.floor_natCast _
  have hds : stripZeros (Nat.repr (m * 10 ^ (17 - (Nat.digits 10 m).length))).data
      = stripZeros (Nat.toDigits 10 m) := by
    rw [repr_data, toDigits_mul_pow m _ hm, stripZeros_append_zeros]
  have hle := stripZeros_length_le (Nat.toDigits 10 m)
  have hlen := toDigits_length m hm
  have hback := stripZeros_append_replicate (Nat.toDigits 10 m)
  have hd17 : ((Nat.digits 10 m).length : ℤ) ≤ 17 := by omega
  have hex : ¬ (((Nat.digits 10 m).length : ℤ) - 1 < -4 ∨ ((Nat.digits 10 m).length : ℤ) - 1 ≥ 6) := by
    omega
  have hdp0 : ¬ (((Nat.digits 10 m).length : ℤ) ≤ 0) := by omega
  have hndle : ((stripZeros (Nat.toDigits 10 m)).length : ℤ) ≤ ((Nat.digits 10 m).length : ℤ) := by
    omega
  have hrep : (((Nat.digits 10 m).length : ℤ) - ((stripZeros (Nat.toDigits 10 m)).length : ℤ)).toNat
      = (Nat.toDigits 10 m).length - (stripZeros (Nat.toDigits 10 m)).length := by
    omega
  simp only [formatAbs, decPoint]
  rw [if_neg hne]
  simp only [hfl, Int.toNat_ofNat, if_pos hm, hnd, if_pos hd17, hj, hsc, hfl2, hds, if_neg hex,
    if_neg hdp0, if_pos hndle, hrep]
  show String.mk _ ++ String.mk _ = _
  rw [String.ext_iff]
  simp only [String.data_append, hback]
  rfl

/-- Shortest formatting of an integer of magnitude below 10^6 is its plain decimal text. -/
theorem formatG_intCast (r : Int) (hr : |r| < 10 ^ 6) : formatG (r : ℚ) = intText r := by
  have hcast : ((r.natAbs : ℕ) : ℚ) = ((r.natAbs : ℤ) : ℚ) := (Int.cast_natCast r.natAbs).symm
  have hb : r.natAbs < 10 ^ 6 := by
    have := abs_lt.1 hr
    omega
  by_cases hneg : r < 0
  · have hq : (r : ℚ) < 0 := by exact_mod_cast hneg
    have hval : -(r : ℚ) = ((r.natAbs : ℕ) : ℚ) := by
      have : (r.natAbs : ℤ) = -r := by omega
      rw [hcast, this]
      simp
    have hpos : 0 < r.natAbs := by omega
    simp only [formatG, if_pos hq, hval, formatAbs_natCast _ hpos hb, intText, if_pos hneg]
  · have hq : ¬ (r : ℚ) < 0 := by
      have : (0 : ℤ) ≤ r := by omega
      have : (0 : ℚ) ≤ (r : ℚ) := by exact_mod_cast this
      exact not_lt.2 this
    have hval : (r : ℚ) = ((r.natAbs : ℕ) : ℚ) := by
      have : (r.natAbs : ℤ) = r := by omega
      rw [hcast, this]
    simp only [formatG, if_neg hq, intText, if_neg hneg]
    by_cases h0 : r = 0
    · subst h0
      with_unfolding_all decide
    · have hpos : 0 < r.natAbs := by omega
      rw [hval, formatAbs_natCast _ hpos hb]

/-- The concrete library is exact on the integers. -/
theorem exactLib_integer : IntegerLib exactLib (fun a => (a : ℚ)) where
  parse := fun a _ => parseDecimal_intText a
  add := fun a b _ _ _ => by
    show ((a : ℚ) + (b : ℚ)) = ((a + b : ℤ) : ℚ)
    push_cast
    rfl
  sub := fun a b _ _ _ => by
    show ((a : ℚ) - (b : ℚ)) = ((a - b : ℤ) : ℚ)
    push_cast
    rfl
  mul := fun a b _ _ _ _ => by
    show ((a : ℚ) * (b : ℚ)) = ((a * b : ℤ) : ℚ)
    push_cast
    rfl
  ftoa := fun r hr => formatG_intCast r hr

/-! ## Compound assignment on integers -/

/-- C11, as amended: in a library exact on the integers below 2^53, for an identifier whose
store value is the decimal text of an integer a and an integer literal n, the compound
assignments id += n, id -= n and id *= n succeed and bind id to the plain decimal text of
a+n, a-n and a*n, whenever that result is of magnitude below 10^6 (and, for a product that
is zero, no factor is negative); every other key is left as it was. -/
theorem compound_assign_integers {F : Type} (L : Lib F) (ofInt : Int → F)
    (hL : IntegerLib L ofInt) (st : St) (id : String) (k : Nat) (a n : Int)
    (hid : st.emap.get? id = some (intText a)) (ha : |a| < 2 ^ 53) (hn : |n| < 2 ^ 53) :
    (|a + n| < 10 ^ 6 →
      assignop L st [id, "+", "=", intText n] k = .ret (none, st.setVar id (intText (a + n)))) ∧
    (|a - n| < 10 ^ 6 →
      assignop L st [id, "-", "=", intText n] k = .ret (none, st.setVar id (intText (a - n)))) ∧
    (|a * n| < 10 ^ 6 → (a * n ≠ 0 ∨ (0 ≤ a ∧ 0 ≤ n)) →
      assignop L st [id, "*", "=", intText n] k = .ret (none, st.setVar id (intText (a * n)))) ∧
    (∀ v key, key ≠ id → eval (st.setVar id v).emap key = eval st.emap key) := by
  have he : eval st.emap id = intText a := by simp [eval, hid]
  have hpa := hL.parse a ha
  have hpn := hL.parse n hn
  have hbig : (10 : Int) ^ 6 < 2 ^ 53 := by norm_num
  refine ⟨fun hr => ?_, fun hr => ?_, fun hr hz => ?_, fun v key hk => ?_⟩
  · have h1 := hL.add a n ha hn (lt_trans hr hbig)
    have h2 := hL.ftoa (a + n) hr
    simp [assignop, he, hpa, hpn, h1, h2]
  · have h1 := hL.sub a n ha hn (lt_trans hr hbig)
    have h2 := hL.ftoa (a - n) hr
    simp [assignop, he, hpa, hpn, h1, h2]
  · have h1 := hL.mul a n ha hn (lt_trans hr hbig) hz
    have h2 := hL.ftoa (a * n) hr
    simp [assignop, he, hpa, hpn, h1, h2]
  · simp [St.setVar, eval, Store.get?_set_of_ne _ _ _ _ hk]

/-- C11 witness: with x bound to 5 in the concrete library, x += 3, x -= 3 and x *= 3 bind x
to the decimal texts of 8, 2 and 15. -/
theorem compound_assign_integers_witness :
    ((St.init []).setVar "x" "5").emap.get? "x" = some (intText 5) ∧
    assignop exactLib ((St.init []).setVar "x" "5") ["x", "+", "=", intText 3] 1
      = .ret (none, ((St.init []).setVar "x" "5").setVar "x" (intText (5 + 3))) ∧
    assignop exactLib ((St.init []).setVar "x" "5") ["x", "-", "=", intText 3] 1
      = .ret (none, ((St.init []).setVar "x" "5").setVar "x" (intText (5 - 3))) ∧
    assignop exactLib ((St.init []).setVar "x" "5") ["x", "*", "=", intText 3] 1
      = .ret (none, ((St.init []).setVar "x" "5").setVar "x" (intText (5 * 3))) :=
  have h := compound_assign_integers exactLib (fun a => (a : ℚ)) exactLib_integer
    ((St.init []).setVar "x" "5") "x" 1 5 3 (by decide) (by norm_num) (by norm_num)
  ⟨by decide, h.1 (by norm_num), h.2.1 (by norm_num),
    h.2.2.1 (by norm_num) (Or.inl (by norm_num))⟩

/-- C11, as stated, fails from 10^6 on: with x bound to 999999, x += 1 binds x to the
shortest formatting 1e+06 of the sum, not to the plain decimal text 1000000. -/
theorem compound_assign_exponent_text :
    assignop exactLib ((St.init []).setVar "x" "999999") ["x", "+", "=", "1"] 1
      = .ret (none, (St.init []).setVar "x" "1e+06") ∧
    intText (999999 + 1) = "1000000" := by
  with_unfolding_all decide

/-! ## The tokens of a line -/

/-- C21: parse returns a record as long as the list of raw tokens of the line; its token 0 is
the raw token 0 as it stands, also when that token is a key of the store, and its token i,
for i >= 1, is eval of the raw token i. -/
theorem parse_spec {F : Type} (L : Lib F) (m : Store) (src : String) :
    (parse L m src).length = (L.scan src).length ∧
    (parse L m src)[0]? = (L.scan src)[0]? ∧
    (∀ i : Nat, (parse L m src)[i + 1]? = ((L.scan src)[i + 1]?).map (eval m)) ∧
    (∀ r0 v : String, ∀ rs : List String, L.scan src = r0 :: rs →
      parse L (m.set r0 v) src = r0 :: rs.map (eval (m.set r0 v))) := by
  cases h : L.scan src with
  | nil => simp [parse, h]
  | cons t0 ts =>
    refine ⟨by simp [parse, h], by simp [parse, h], fun i => by simp [parse, h], ?_⟩
    intro r0 v rs hr
    simp only [List.cons.injEq] at hr
    obtain ⟨rfl, rfl⟩ := hr
    simp [parse, h]

/-- Witness of C21: with w bound to 100 and text bound to 7, the line text w 10 keeps its
token 0 and has the value of w as token 1. -/
theorem parse_spec_witness :
    parse exactLib (Store.set [("w", "100")] "text" "7") "text w 10"
      = "text" :: ["w", "10"].map (eval (Store.set [("w", "100")] "text" "7")) :=
  (parse_spec exactLib [("w", "100")] "text w 10").2.2.2 "text" "7" ["w", "10"] (by decide)

/-! ## Escaping -/

/-- The characters that replace one character are those of its replacement text. -/
theorem xmlescChar_data (c : Char) :
    (if c = '&' then "&amp;" else if c = '<' then "&lt;" else if c = '>' then "&gt;"
      else String.singleton c).data = xmlescChar c := by
  by_cases h1 : c = '&'
  · subst h1; rfl
  · by_cases h2 : c = '<'
    · subst h2; rfl
    · by_cases h3 : c = '>'
      · subst h3; rfl
      · simp [xmlescChar, h1, h2, h3]

/-- A character that is none of the three is replaced by itself. -/
theorem xmlescChar_other (c : Char) (h : c ≠ '&' ∧ c ≠ '<' ∧ c ≠ '>') : xmlescChar c = [c] := by
  simp [xmlescChar, h.1, h.2.1, h.2.2]

/-- Escaping leaves a list of characters without the three as it is. -/
theorem flatMap_xmlescChar_other (cs : List Char) (h : ∀ c ∈ cs, c ≠ '&' ∧ c ≠ '<' ∧ c ≠ '>') :
    cs.flatMap xmlescChar = cs := by
  induction cs with
  | nil => rfl
  | cons c rest ih =>
    rw [List.flatMap_cons, xmlescChar_other c (h c (List.mem_cons_self c rest)),
      ih (fun d hd => h d (List.mem_cons_of_mem c hd))]
    rfl

/-- C22: xmlesc is the concatenation, character by character, of the replacement text of each
character: "&amp;" for '&', "&lt;" for '<', "&gt;" for '>' and the character itself for
any other; so it distributes over concatenation and leaves a string without the three
characters as it is. -/
theorem xmlesc_spec (s a b : String) :
    xmlesc s = String.join (s.data.map (fun c =>
      if c = '&' then "&amp;" else if c = '<' then "&lt;" else if c = '>' then "&gt;"
      else String.singleton c)) ∧
    xmlesc (a ++ b) = xmlesc a ++ xmlesc b ∧
    ((∀ c ∈ s.data, c ≠ '&' ∧ c ≠ '<' ∧ c ≠ '>') → xmlesc s = s) := by
  refine ⟨?_, ?_, fun h => ?_⟩
  · rw [String.join_eq, List.map_map]
    simp only [xmlesc]
    congr 1
    generalize s.data = cs
    induction cs with
    | nil => rfl
    | cons c rest ih =>
      rw [List.flatMap_cons, List.map_cons, List.flatten_cons, ih]
      congr 1
      exact (xmlescChar_data c).symm
  · apply String.ext
    simp [xmlesc, String.data_append, List.flatMap_append]
  · apply String.ext
    simp only [xmlesc]
    exact flatMap_xmlescChar_other s.data h

/-- Witness of C22: a string without the three characters. -/
theorem xmlesc_spec_witness : xmlesc "Hello" = "Hello" :=
  (xmlesc_spec "Hello" "" "").2.2 (by decide)

/-- Between double quotes, qesc gives the escaped text. -/
theorem qesc_quoted (t : String) : qesc (dq ++ t ++ dq) = xmlesc t := by
  by_cases h0 : t.length = 0
  · have ht : t = "" := by
      apply String.ext
      exact List.length_eq_zero.1 h0
    subst ht
    rfl
  · have hq : dq.length = 1 := rfl
    have hlen : (dq ++ t ++ dq).length = t.length + 2 := by
      rw [String.length_append, String.length_append, hq]
      omega
    have h3 : ¬ (dq ++ t ++ dq).length < 3 := by omega
    have hd : (dq ++ t ++ dq).data = (doublequote :: t.data) ++ [doublequote] := rfl
    have e1 : t.length + 2 - 1 = (doublequote :: t.data).length := by
      rw [List.length_cons]
      rfl
    unfold qesc
    rw [if_neg h3]
    congr 1
    apply String.ext
    show List.drop 1 (List.take ((dq ++ t ++ dq).length - 1) (dq ++ t ++ dq).data) = t.data
    rw [hd, hlen, e1, List.take_left]
    rfl

/-- C23: for every text between double quotes qesc returns xmlesc of the text: the
delimiters are stripped and the text is escaped once, so a literal less-than sign yields
"&lt;" and not "&amp;lt;". -/
theorem qesc_escapes_once (t : String) :
    qesc (dq ++ t ++ dq) = xmlesc t ∧
    qesc (dq ++ "<" ++ dq) = "&lt;" ∧
    qesc (dq ++ "<" ++ dq) ≠ "&amp;lt;" ∧
    qesc (dq ++ "a & b" ++ dq) = "a &amp; b" :=
  ⟨qesc_quoted t, by decide, by decide, by decide⟩

/-- The length of escaped text: four more characters for each ampersand, three more for
each less-than and each greater-than sign. -/
theorem flatMap_xmlescChar_length (cs : List Char) :
    (cs.flatMap xmlescChar).length
      = cs.length + 4 * cs.count '&' + 3 * cs.count '<' + 3 * cs.count '>' := by
  induction cs with
  | nil => rfl
  | cons c rest ih =>
    rw [List.flatMap_cons, List.length_append, ih]
    by_cases h1 : c = '&'
    · subst h1
      simp [xmlescChar, List.count_cons]
      omega
    · by_cases h2 : c = '<'
      · subst h2
        simp [xmlescChar, List.count_cons]
        omega
      · by_cases h3 : c = '>'
        · subst h3
          simp [xmlescChar, List.count_cons]
          omega
        · have e1 : ('&' == c) = false := by simpa using fun e => h1 e.symm
          simp [xmlescChar, h1, h2, h3, List.count_cons, Ne.symm h1, Ne.symm h2, Ne.symm h3]
          omega

/-- Escaped text has an ampersand as soon as the text has one of the three characters. -/
theorem flatMap_xmlescChar_amp (cs : List Char) (c : Char) (hc : c ∈ cs)
    (h : c = '&' ∨ c = '<' ∨ c = '>') : '&' ∈ cs.flatMap xmlescChar := by
  rw [List.mem_flatMap]
  refine ⟨c, hc, ?_⟩
  rcases h with rfl | rfl | rfl <;> decide

/-- C24: escaping twice gives the same text as escaping once exactly when the text has none
of the characters '&', '<' and '>'. -/
theorem xmlesc_twice_iff (s : String) :
    xmlesc (xmlesc s) = xmlesc s ↔ ∀ c ∈ s.data, c ≠ '&' ∧ c ≠ '<' ∧ c ≠ '>' := by
  constructor
  · intro h c hc
    by_contra hn
    have hsp : c = '&' ∨ c = '<' ∨ c = '>' := by
      by_cases h1 : c = '&'
      · exact Or.inl h1
      · by_cases h2 : c = '<'
        · exact Or.inr (Or.inl h2)
        · by_cases h3 : c = '>'
          · exact Or.inr (Or.inr h3)
          · exact absurd ⟨h1, h2, h3⟩ hn
    have hamp := flatMap_xmlescChar_amp s.data c hc hsp
    have hpos : 0 < (s.data.flatMap xmlescChar).count '&' := List.count_pos_iff.2 hamp
    have hl := flatMap_xmlescChar_length (s.data.flatMap xmlescChar)
    have hd := congrArg (fun x : String => x.data.length) h
    simp only [xmlesc] at hd
    omega
  · intro h
    have e : xmlesc s = s := by
      apply String.ext
      simp only [xmlesc]
      exact flatMap_xmlescChar_other s.data h
    rw [e, e]

/-! ## The text of a slide -/

set_option maxRecDepth 4000 in
/-- C25: in a library that splits the six lines deck, slide, w = 100, text "Hello" 10 10 w,
eslide, edeck into their tokens and prints 10 and 100 between quotes as they stand, process
from the empty store returns success, binds w and writes exactly the five lines of the
example; and a text record with five tokens writes its position and size tokens as the xp,
yp and sp attribute values and the escaped literal, without its quotes, as content. -/
theorem text_example {F : Type} (L : Lib F) (fuel : Nat) (fs : Files)
    (h1 : L.scan "deck" = ["deck"]) (h2 : L.scan "slide" = ["slide"])
    (h3 : L.scan "w = 100" = ["w", "=", "100"])
    (h4 : L.scan "text \"Hello\" 10 10 w" = ["text", "\"Hello\"", "10", "10", "w"])
    (h5 : L.scan "eslide" = ["eslide"]) (h6 : L.scan "edeck" = ["edeck"])
    (hq10 : L.quote "10" = "\"10\"") (hq100 : L.quote "100" = "\"100\"") :
    process L (fuel + 1) (St.init fs)
        (script ["deck", "slide", "w = 100", "text \"Hello\" 10 10 w", "eslide", "edeck"])
      = .ret (none,
          { emap := [("w", "100")],
            out := "<deck>\n<slide>\n<text xp=\"10\" yp=\"10\" sp=\"100\" >Hello</text>\n</slide>\n</deck>\n",
            fs := fs, rng := 0, stderr := "" }) ∧
    (∀ (st : St) (lit s2 s3 s4 : String) (n : Nat),
      text L st ["text", dq ++ lit ++ dq, s2, s3, s4] n
        = .ret (none, st.write ("<text xp=" ++ L.quote s2 ++ " yp=" ++ L.quote s3 ++ " sp="
            ++ L.quote s4 ++ " >" ++ xmlesc lit ++ "</text>\n"))) := by
  constructor
  · have b1 : byteAt "deck" 0 = some 'd' := by decide
    have b2 : byteAt "slide" 0 = some 's' := by decide
    have b3 : byteAt "w = 100" 0 = some 'w' := by decide
    have b4 : byteAt "text \"Hello\" 10 10 w" 0 = some 't' := by decide
    have b5 : byteAt "eslide" 0 = some 'e' := by decide
    have b6 : byteAt "edeck" 0 = some 'e' := by decide
    have c5 : ("eslide".length < 2 ∨ ¬ slice "eslide" 0 1 = "e") = False := eq_false (by decide)
    have c6 : ("edeck".length < 2 ∨ ¬ slice "edeck" 0 1 = "e") = False := eq_false (by decide)
    have s5 : slice "eslide" 1 "eslide".length = "slide" := by decide
    have s6 : slice "edeck" 1 "edeck".length = "deck" := by decide
    have qh : qesc "\"Hello\"" = "Hello" := by decide
    simp [process_succ, keyparse_succ, processWith, script, mainloop, lineStep, parse, h1, h2, h3, h4, h5, h6,
      b1, b2, b3, b4, b5, b6, keyparseStep, deck, slide, text, endtag, keyparseDefault, assign,
      simpleassign, fontColorOp, eval, Store.get?, Store.set, St.init, St.write, St.setVar,
      hq10, hq100, countErrs, report, c5, c6, s5, s6, qh]
    rfl
  · intro st lit s2 s3 s4 n
    simp only [text, fontColorOp, qesc_quoted, if_true]
    simp only [String.append_assoc]
    rfl

/-- Witness of C25: the concrete library on the six lines of the example. -/
theorem text_example_witness :
    process exactLib 1 (St.init [])
        (script ["deck", "slide", "w = 100", "text \"Hello\" 10 10 w", "eslide", "edeck"])
      = .ret (none,
          { emap := [("w", "100")],
            out := "<deck>\n<slide>\n<text xp=\"10\" yp=\"10\" sp=\"100\" >Hello</text>\n</slide>\n</deck>\n",
            fs := [], rng := 0, stderr := "" }) :=
  (text_example exactLib 0 [] (by decide) (by decide) (by decide) (by decide) (by decide)
    (by decide) (by decide) (by decide)).1

/-! ## The canvas -/

/-- The concrete library prints plain text between quotes as it stands. -/
theorem quoteStr_plain (s : String) (h : plain s = true) : quoteStr s = dq ++ s ++ dq := by
  have hmap : ∀ cs : List Char, cs.all plainChar = true →
      cs.flatMap (fun c => if c = doublequote then ['\\', doublequote]
        else if c = '\\' then ['\\', '\\'] else [c]) = cs := by
    intro cs
    induction cs with
    | nil => intro _; rfl
    | cons c rest ih =>
      intro hc
      simp only [List.all_cons, Bool.and_eq_true] at hc
      have hp := hc.1
      simp only [plainChar, decide_eq_true_eq] at hp
      rw [List.flatMap_cons, ih hc.2, if_neg hp.2.2.1, if_neg hp.2.2.2]
      rfl
  simp only [quoteStr]
  rw [hmap s.data h]

/-- C26, as amended: for a canvas record with exactly three tokens whose two operands have
plain values (printable text without quote or backslash), keyparse succeeds and writes
exactly the canvas element with the two values between quotes, followed by a newline; for
every other token count it fails with the line-numbered usage error and leaves the state as
it was. -/
theorem canvas_spec {F : Type} (L : Lib F) (fuel : Nat) (st : St) (W H t : String) (n : Nat)
    (hq : ∀ s : String, plain s = true → L.quote s = dq ++ s ++ dq)
    (hW : plain (eval st.emap W) = true) (hH : plain (eval st.emap H) = true) :
    keyparse L (fuel + 1) st ["canvas", W, H] t n
      = .ret (none, st.write ("<canvas width=" ++ (dq ++ eval st.emap W ++ dq) ++ " height="
          ++ (dq ++ eval st.emap H ++ dq) ++ "/>\n")) ∧
    (∀ rest : List String, rest.length ≠ 2 →
      keyparse L (fuel + 1) st ("canvas" :: rest) t n
        = .ret (some (lineno n ++ ": " ++ "canvas" ++ " width height"), st)) := by
  constructor
  · simp [keyparse_succ, keyparseStep, canvas, hq _ hW, hq _ hH]
  · intro rest hrest
    match rest, hrest with
    | [], _ => simp [keyparse_succ, keyparseStep, canvas]
    | [_], _ => simp [keyparse_succ, keyparseStep, canvas]
    | [_, _], h => exact absurd rfl h
    | _ :: _ :: _ :: _, _ => simp [keyparse_succ, keyparseStep, canvas]

/-- Witness of C26: the record canvas 1024 768 in the empty store. -/
theorem canvas_spec_witness :
    keyparse exactLib 1 (St.init []) ["canvas", "1024", "768"] "canvas 1024 768" 1
      = .ret (none, (St.init []).write ("<canvas width=" ++ (dq ++ eval [] "1024" ++ dq)
          ++ " height=" ++ (dq ++ eval [] "768" ++ dq) ++ "/>\n")) ∧
    (St.init []).write ("<canvas width=" ++ (dq ++ eval [] "1024" ++ dq)
          ++ " height=" ++ (dq ++ eval [] "768" ++ dq) ++ "/>\n")
      = (St.init []).write "<canvas width=\"1024\" height=\"768\"/>\n" :=
  ⟨(canvas_spec exactLib 0 (St.init []) "1024" "768" "canvas 1024 768" 1 quoteStr_plain
    (by decide) (by decide)).1, by decide⟩

/-- C26, as stated, fails when an operand without quote or backslash is a key whose value has
one: with w bound to the text a between quotes, the record canvas w 768 writes the quotes of
the value escaped, not the value as it stands between quotes; a loop body whose canvas line
is buffered before w is assigned leads to that record. -/
theorem canvas_quotes_value :
    plain "w" = true ∧ plain "768" = true ∧
    eval ((St.init []).setVar "w" "\"a\"").emap "w" = "\"a\"" ∧
    keyparse exactLib 1 ((St.init []).setVar "w" "\"a\"") ["canvas", "w", "768"] "" 1
      = .ret (none, ((St.init []).setVar "w" "\"a\"").write
          "<canvas width=\"\\\"a\\\"\" height=\"768\"/>\n") ∧
    "<canvas width=\"\\\"a\\\"\" height=\"768\"/>\n"
      ≠ "<canvas width=\"" ++ "\"a\"" ++ "\" height=\"" ++ "768" ++ "\"/>\n" ∧
    (process exactLib 3 (St.init [])
        (script ["for i = 1 1 1", "w = \"a\"", "canvas w 768", "efor"])).map (fun r => r.2.out)
      = .ret "<canvas width=\"\\\"a\\\"\" height=\"768\"/>\n" := by
  with_unfolding_all decide

/-! ## Arity and operands of text, braces and curved arrows -/

/-- C27, as the code has it: a text, ctext or etext record with fewer than five tokens fails
with the line-numbered usage error and leaves the state as it was, but a record with ten
tokens or more is accepted: text returns success and writes what it writes for the first
five tokens alone, the element without any of the optional attributes. -/
theorem text_arity {F : Type} (L : Lib F) (st : St) (s0 : String) (n : Nat)
    (hs0 : s0 = "text" ∨ s0 = "ctext" ∨ s0 = "etext") :
    (∀ rest : List String, rest.length < 4 →
      text L st (s0 :: rest) n
        = .ret (some (lineno n ++ ": " ++ s0
            ++ " \"text\" x y size [font] [color] [opacity] [link]"), st)) ∧
    (∀ (s1 s2 s3 s4 : String) (opt : List String), 5 ≤ opt.length →
      fontColorOp L opt = "" ∧
      text L st (s0 :: s1 :: s2 :: s3 :: s4 :: opt) n = text L st [s0, s1, s2, s3, s4] n ∧
      ∃ w : String, text L st [s0, s1, s2, s3, s4] n = .ret (none, st.write w)) := by
  constructor
  · intro rest hrest
    match rest, hrest with
    | [], _ => simp [text]
    | [_], _ => simp [text]
    | [_, _], _ => simp [text]
    | [_, _, _], _ => simp [text]
    | _ :: _ :: _ :: _ :: _, h => simp at h; omega
  · intro s1 s2 s3 s4 opt hopt
    have hf : fontColorOp L opt = "" := by
      match opt, hopt with
      | _ :: _ :: _ :: _ :: _ :: _, _ => simp [fontColorOp]
    have hf0 : fontColorOp L [] = "" := rfl
    rcases hs0 with rfl | rfl | rfl
    · exact ⟨hf, by simp [text, hf, hf0], ⟨_, rfl⟩⟩
    · exact ⟨hf, by simp [text, hf, hf0], ⟨_, rfl⟩⟩
    · exact ⟨hf, by simp [text, hf, hf0], ⟨_, rfl⟩⟩

/-- Witness of C27: a text record with ten tokens is accepted and loses its four
attributes. -/
theorem text_arity_witness :
    fontColorOp exactLib ["\"serif\"", "\"red\"", "50", "\"u\"", "extra"] = "" ∧
    text exactLib (St.init [])
        ["text", "\"a\"", "10", "20", "2", "\"serif\"", "\"red\"", "50", "\"u\"", "extra"] 1
      = text exactLib (St.init []) ["text", "\"a\"", "10", "20", "2"] 1 ∧
    ∃ w : String, text exactLib (St.init []) ["text", "\"a\"", "10", "20", "2"] 1
      = .ret (none, (St.init []).write w) :=
  (text_arity exactLib (St.init []) "text" 1 (Or.inl rfl)).2 "\"a\"" "10" "20" "2"
    ["\"serif\"", "\"red\"", "50", "\"u\"", "extra"] (by decide)

/-- C28, as the code has it: in a brace record with at least six tokens, an x, y, size or aw
that is not a number makes brace return a failure and leave the state as it was, and so does
an ah that is not a number when a seventh token follows; with exactly six tokens and an ah
that is not a number, brace indexes the record past its end and panics. -/
theorem brace_bad_operand {F : Type} (L : Lib F) (st : St) (s0 s1 s2 s3 s4 s5 : String)
    (opt : List String) (n : Nat) (x y size aw : F) (m : String) :
    (L.parseFloat s1 = .error m →
      brace L st (s0 :: s1 :: s2 :: s3 :: s4 :: s5 :: opt) n = .ret (notNumber n s1, st)) ∧
    (L.parseFloat s1 = .ok x → L.parseFloat s2 = .error m →
      brace L st (s0 :: s1 :: s2 :: s3 :: s4 :: s5 :: opt) n = .ret (notNumber n s2, st)) ∧
    (L.parseFloat s1 = .ok x → L.parseFloat s2 = .ok y → L.parseFloat s3 = .error m →
      brace L st (s0 :: s1 :: s2 :: s3 :: s4 :: s5 :: opt) n = .ret (notNumber n s3, st)) ∧
    (L.parseFloat s1 = .ok x → L.parseFloat s2 = .ok y → L.parseFloat s3 = .ok size →
      L.parseFloat s4 = .error m →
      brace L st (s0 :: s1 :: s2 :: s3 :: s4 :: s5 :: opt) n = .ret (notNumber n s5, st)) ∧
    (L.parseFloat s1 = .ok x → L.parseFloat s2 = .ok y → L.parseFloat s3 = .ok size →
      L.parseFloat s4 = .ok aw → L.parseFloat s5 = .error m →
      (∀ s6 rest, opt = s6 :: rest →
        brace L st (s0 :: s1 :: s2 :: s3 :: s4 :: s5 :: opt) n = .ret (notNumber n s6, st)) ∧
      (opt = [] → brace L st [s0, s1, s2, s3, s4, s5] n = .panic)) := by
  refine ⟨fun h1 => ?_, fun h1 h2 => ?_, fun h1 h2 h3 => ?_, fun h1 h2 h3 h4 => ?_,
    fun h1 h2 h3 h4 h5 => ⟨fun s6 rest ho => ?_, fun _ => ?_⟩⟩
  · simp [brace, h1]
  · simp [brace, h1, h2]
  · simp [brace, h1, h2, h3]
  · simp [brace, h1, h2, h3, h4]
  · subst ho
    simp [brace, h1, h2, h3, h4, h5]
  · simp [brace, h1, h2, h3, h4, h5]

/-- Witness of C28: the record lbrace 10 20 5 1 abc, of exactly six tokens, panics. -/
theorem brace_bad_operand_witness :
    brace exactLib (St.init []) ["lbrace", "10", "20", "5", "1", "abc"] 1 = .panic :=
  ((brace_bad_operand exactLib (St.init []) "lbrace" "10" "20" "5" "1" "abc" [] 1 10 20 5 1
    "strconv.ParseFloat: parsing \"abc\": invalid syntax").2.2.2.2
    (by with_unfolding_all decide) (by with_unfolding_all decide) (by with_unfolding_all decide)
    (by with_unfolding_all decide) (by with_unfolding_all decide)).2 rfl

/-- C29, as the code has it: in a curved-arrow record with at least seven tokens and a keyword
of seven characters or more, an x3 (token 5) that is not a number makes carrow return the
failure of the conversion and leave the state as it was, but a y3 (token 6) that is not a
number makes carrow return success, the state left as it was. -/
theorem carrow_bad_endpoint {F : Type} (L : Lib F) (st : St) (s0 s1 s2 s3 s4 s5 s6 : String)
    (opt : List String) (n : Nat) (x : F) (m : String) (hs0 : ¬ s0.length < 7) :
    (L.parseFloat s5 = .error m →
      carrow L st (s0 :: s1 :: s2 :: s3 :: s4 :: s5 :: s6 :: opt) n = .ret (some m, st)) ∧
    (L.parseFloat s5 = .ok x → L.parseFloat s6 = .error m →
      carrow L st (s0 :: s1 :: s2 :: s3 :: s4 :: s5 :: s6 :: opt) n = .ret (none, st)) := by
  refine ⟨fun h5 => ?_, fun h5 h6 => ?_⟩
  · simp [carrow, hs0, h5]
  · simp [carrow, hs0, h5, h6]

/-- Witness of C29: the record lcarrow 10 10 20 20 30 abc returns success and writes
nothing. -/
theorem carrow_bad_endpoint_witness :
    carrow exactLib (St.init []) ["lcarrow", "10", "10", "20", "20", "30", "abc"] 1
      = .ret (none, St.init []) :=
  (carrow_bad_endpoint exactLib (St.init []) "lcarrow" "10" "10" "20" "20" "30" "abc" [] 1 30
    "strconv.ParseFloat: parsing \"abc\": invalid syntax" (by decide)).2
    (by with_unfolding_all decide) (by with_unfolding_all decide)

/-! ## Placement on the grid -/

/-- The record parse returns is as long as the list of raw tokens. -/
theorem parse_length {F : Type} (L : Lib F) (m : Store) (src : String) :
    (parse L m src).length = (L.scan src).length := by
  cases h : L.scan src with
  | nil => simp [parse, h]
  | cons t0 ts => simp [parse, h]

/-- On a line with at least three tokens, and when the text of the abscissa is not the token
"y", subxy returns the record of the line placed at the position. -/
theorem subxy_eq_gridRecord {F : Type} (L : Lib F) (m : Store) (t : String) (xv yv : F)
    (h3 : 3 ≤ (L.scan t).length) (hy : L.fmtG xv ≠ "y") :
    subxy L m t xv yv = gridRecord L m t xv yv := by
  have hlen : ¬ (parse L m t).length < 3 := by
    rw [parse_length]
    omega
  simp only [subxy, gridRecord, if_neg hlen]
  apply List.map_congr_left
  intro a _
  by_cases hx : a = "x"
  · simp [hx, hy]
  · simp [hx]

/-- The columns of a grid: with a positive step and a limit not left of the start, the first
floor((limit - x) / xint) + 1 abscissas are within the limit and the next one is beyond. -/
theorem grid_columns (x xint limit : ℚ) (hxint : 0 < xint) (hlim : x ≤ limit) :
    (∀ j : Nat, j < ⌊(limit - x) / xint⌋.toNat + 1 → x + (j : ℚ) * xint ≤ limit) ∧
    limit < x + ((⌊(limit - x) / xint⌋.toNat + 1 : Nat) : ℚ) * xint := by
  have hq : 0 ≤ (limit - x) / xint := div_nonneg (by linarith) (le_of_lt hxint)
  have hfl : 0 ≤ ⌊(limit - x) / xint⌋ := Int.floor_nonneg.2 hq
  have hcast : ((⌊(limit - x) / xint⌋.toNat : ℕ) : ℚ) = ((⌊(limit - x) / xint⌋ : ℤ) : ℚ) := by
    have := Int.toNat_of_nonneg hfl
    exact_mod_cast congrArg (fun z : ℤ => (z : ℚ)) this
  constructor
  · intro j hj
    have hj2 : (j : ℚ) ≤ ((⌊(limit - x) / xint⌋.toNat : ℕ) : ℚ) := by
      exact_mod_cast Nat.lt_succ_iff.1 hj
    rw [hcast] at hj2
    have h3 : (j : ℚ) ≤ (limit - x) / xint := le_trans hj2 (Int.floor_le _)
    have h4 := (le_div_iff₀ hxint).1 h3
    linarith
  · have h1 : (limit - x) / xint < ((⌊(limit - x) / xint⌋ : ℤ) : ℚ) + 1 := Int.lt_floor_add_one _
    have h2 := (div_lt_iff₀ hxint).1 h1
    push_cast
    rw [hcast]
    linarith

/-- The place after place k: the next column of the same row, or the first column of the
next row after the last column. -/
theorem next_place (k C : Nat) (hC : 0 < C) :
    (k % C + 1 = C → (k + 1) % C = 0 ∧ (k + 1) / C = k / C + 1) ∧
    (k % C + 1 < C → (k + 1) % C = k % C + 1 ∧ (k + 1) / C = k / C) := by
  have hk := Nat.div_add_mod k C
  constructor
  · intro h
    have e : k + 1 = C * (k / C + 1) := by
      rw [Nat.mul_add, Nat.mul_one]
      omega
    rw [e]
    exact ⟨Nat.mul_mod_right _ _, Nat.mul_div_cancel_left _ hC⟩
  · intro h
    have e : k + 1 = (k % C + 1) + C * (k / C) := by omega
    constructor
    · rw [e, Nat.add_mul_mod_self_left]
      exact Nat.mod_eq_of_lt h
    · rw [e, Nat.add_mul_div_left _ _ hC, Nat.div_eq_of_lt h, Nat.zero_add]

/-- The loop of grid, entered with a cursor that the wrap test brings to place k, dispatches
the lines that are not empty to the places k, k + 1, ... of the grid. -/
theorem gridloop_placement (L : Lib ℚ) (hadd : ∀ a b, L.add a b = a + b)
    (hsub : ∀ a b, L.sub a b = a - b) (hgt : ∀ a b, L.gt a b = decide (a > b)) (kp : KP)
    (n : Nat) (x y xint yint limit : ℚ) (hxint : 0 < xint) (hlim : x ≤ limit)
    (hfmt : ∀ j : Nat, j < ⌊(limit - x) / xint⌋.toNat + 1 → L.fmtG (x + (j : ℚ) * xint) ≠ "y") :
    ∀ (lines : List String), (∀ t ∈ lines, t.length ≠ 0 → 3 ≤ (L.scan t).length) →
    ∀ (k : Nat) (xp yp : ℚ) (st : St),
      (if xp > limit then x else xp)
        = x + ((k % (⌊(limit - x) / xint⌋.toNat + 1) : Nat) : ℚ) * xint →
      (if xp > limit then yp - yint else yp)
        = y - ((k / (⌊(limit - x) / xint⌋.toNat + 1) : Nat) : ℚ) * yint →
      gridloop L kp n x yint xint limit lines xp yp st
        = gridPlacement L kp n x y xint yint (⌊(limit - x) / xint⌋.toNat + 1)
            (lines.filter (fun t => decide (t.length ≠ 0))) k st := by
  obtain ⟨hin, hout⟩ := grid_columns x xint limit hxint hlim
  generalize hC : ⌊(limit - x) / xint⌋.toNat + 1 = C at hin hout hfmt
  have hCpos : 0 < C := by omega
  intro lines
  induction lines with
  | nil => intro _ k xp yp st _ _; rfl
  | cons t rest ih =>
    intro htok k xp yp st hx hy
    have hrest : ∀ u ∈ rest, u.length ≠ 0 → 3 ≤ (L.scan u).length :=
      fun u hu => htok u (List.mem_cons_of_mem t hu)
    have hmod : k % C < C := Nat.mod_lt k hCpos
    have hle : x + ((k % C : Nat) : ℚ) * xint ≤ limit := hin (k % C) hmod
    simp only [gridloop, hgt, hsub, hadd, decide_eq_true_eq, hx, hy]
    by_cases ht : t.length = 0
    · have hf : (t :: rest).filter (fun t => decide (t.length ≠ 0))
          = rest.filter (fun t => decide (t.length ≠ 0)) := by
        simp [List.filter_cons, ht]
      rw [if_pos ht, hf]
      apply ih hrest k
      · rw [if_neg (not_lt.2 hle)]
      · rw [if_neg (not_lt.2 hle)]
    · have hf : (t :: rest).filter (fun t => decide (t.length ≠ 0))
          = t :: rest.filter (fun t => decide (t.length ≠ 0)) := by
        simp [List.filter_cons, ht]
      rw [if_neg ht, hf]
      simp only [gridPlacement]
      rw [subxy_eq_gridRecord L st.emap t _ _ (htok t (List.mem_cons_self t rest) ht)
        (hfmt (k % C) hmod)]
      cases hk : kp st (gridRecord L st.emap t (x + ((k % C : Nat) : ℚ) * xint)
          (y - ((k / C : Nat) : ℚ) * yint)) t n with
      | panic => rfl
      | nofuel => rfl
      | ret r =>
        obtain ⟨e, st2⟩ := r
        simp only []
        by_cases hlast : k % C + 1 = C
        · obtain ⟨hm, hd⟩ := (next_place k C hCpos).1 hlast
          have hCq : (C : ℚ) = ((k % C : Nat) : ℚ) + 1 := by exact_mod_cast hlast.symm
          have hbig : limit < x + ((k % C : Nat) : ℚ) * xint + xint := by
            have h := hout
            rw [hCq] at h
            linarith
          apply ih hrest (k + 1)
          · rw [if_pos hbig, hm]
            simp
          · rw [if_pos hbig, hd]
            push_cast
            ring
        · have hlt : k % C + 1 < C := by omega
          obtain ⟨hm, hd⟩ := (next_place k C hCpos).2 hlt
          have hsmall : ¬ limit < x + ((k % C : Nat) : ℚ) * xint + xint := by
            have h := hin (k % C + 1) hlt
            push_cast at h
            have : x + ((k % C : Nat) : ℚ) * xint + xint = x + (((k % C : Nat) : ℚ) + 1) * xint := by
              ring
            rw [this]
            exact not_lt.2 h
          apply ih hrest (k + 1)
          · rw [if_neg hsmall, hm]
            push_cast
            ring
          · rw [if_neg hsmall, hd]

/-- C30: over exact arithmetic, for a grid directive with start (x, y), steps xint > 0 and
yint, and limit >= x, let C = floor((limit - x) / xint) + 1; for a data file whose lines that
are not empty have at least three tokens each, grid dispatches these lines in order, the
k-th of them (k from 0) with its "x" tokens replaced by the text of x + (k mod C) * xint and
its "y" tokens by the text of y - floor(k / C) * yint; empty lines take no place. -/
theorem grid_placement (L : Lib ℚ) (hadd : ∀ a b, L.add a b = a + b)
    (hsub : ∀ a b, L.sub a b = a - b) (hgt : ∀ a b, L.gt a b = decide (a > b)) (kp : KP)
    (st : St) (s0 s1 s2 s3 s4 s5 s6 : String) (more : List String) (n : Nat)
    (x y xint yint limit : ℚ) (file : String) (r : Src)
    (hx : L.parseFloat (eval st.emap s2) = .ok x) (hy : L.parseFloat (eval st.emap s3) = .ok y)
    (hxi : L.parseFloat (eval st.emap s4) = .ok xint)
    (hyi : L.parseFloat (eval st.emap s5) = .ok yint)
    (hl : L.parseFloat (eval st.emap s6) = .ok limit)
    (hfile : filequote s1 n = .ok file) (hopen : st.fs.get? file = some r)
    (hxint : 0 < xint) (hlim : x ≤ limit)
    (htok : ∀ t ∈ r.lines, t.length ≠ 0 → 3 ≤ (L.scan t).length)
    (hfmt : ∀ j : Nat, j < ⌊(limit - x) / xint⌋.toNat + 1 → L.fmtG (x + (j : ℚ) * xint) ≠ "y") :
    grid L kp st (s0 :: s1 :: s2 :: s3 :: s4 :: s5 :: s6 :: more) n
      = (gridPlacement L kp n x y xint yint (⌊(limit - x) / xint⌋.toNat + 1)
          (r.lines.filter (fun t => decide (t.length ≠ 0))) 0 st).map (fun st2 => (r.err, st2)) := by
  have hloop := gridloop_placement L hadd hsub hgt kp n x y xint yint limit hxint hlim hfmt
    r.lines htok 0 x y st
    (by rw [if_neg (not_lt.2 hlim)]; simp) (by rw [if_neg (not_lt.2 hlim)]; simp)
  simp only [grid, hx, hy, hxi, hyi, hl, hfile, hopen, hloop]
  cases gridPlacement L kp n x y xint yint (⌊(limit - x) / xint⌋.toNat + 1)
    (r.lines.filter (fun t => decide (t.length ≠ 0))) 0 st <;> rfl

/-- Witness of C30: a grid of two columns over a file of three circles and an empty line;
the circles go to (10, 80), (40, 80) and (10, 60). -/
theorem grid_placement_witness :
    grid exactLib (keyparse exactLib 1)
        (St.init [("g", script ["circle x y 2", "", "circle x y 2", "circle x y 2"])])
        ["grid", "\"g\"", "10", "80", "30", "20", "50"] 1
      = (gridPlacement exactLib (keyparse exactLib 1) 1 10 80 30 20
          (⌊((50 : ℚ) - 10) / 30⌋.toNat + 1)
          ((script ["circle x y 2", "", "circle x y 2", "circle x y 2"]).lines.filter
            (fun t => decide (t.length ≠ 0))) 0
          (St.init [("g", script ["circle x y 2", "", "circle x y 2", "circle x y 2"])])).map
          (fun st2 => ((script ["circle x y 2", "", "circle x y 2", "circle x y 2"]).err, st2)) ∧
    (grid exactLib (keyparse exactLib 1)
        (St.init [("g", script ["circle x y 2", "", "circle x y 2", "circle x y 2"])])
        ["grid", "\"g\"", "10", "80", "30", "20", "50"] 1).map (fun r => r.2.out)
      = .ret ("<ellipse xp=\"10\" yp=\"80\" wp=\"2\" hr=\"100\"/>\n"
          ++ "<ellipse xp=\"40\" yp=\"80\" wp=\"2\" hr=\"100\"/>\n"
          ++ "<ellipse xp=\"10\" yp=\"60\" wp=\"2\" hr=\"100\"/>\n") :=
  ⟨grid_placement exactLib (fun _ _ => rfl) (fun _ _ => rfl) (fun _ _ => rfl)
    (keyparse exactLib 1)
    (St.init [("g", script ["circle x y 2", "", "circle x y 2", "circle x y 2"])])
    "grid" "\"g\"" "10" "80" "30" "20" "50" [] 1 10 80 30 20 50 "g"
    (script ["circle x y 2", "", "circle x y 2", "circle x y 2"])
    (by with_unfolding_all decide) (by with_unfolding_all decide) (by with_unfolding_all decide)
    (by with_unfolding_all decide) (by with_unfolding_all decide) (by decide) (by decide)
    (by norm_num) (by norm_num) (by decide) (by with_unfolding_all decide),
   by with_unfolding_all decide⟩

/-! ## Random values -/

/-- C31: over exact arithmetic, for min < max and a draw r with 0 <= r < 1, the assignment
id = random min max succeeds and stores the text of vmap(r, 0, 1, min, max), which is
min + (max - min) * r and lies in the half-open interval from min to max. -/
theorem random_in_range (L : Lib ℚ) (hadd : ∀ a b, L.add a b = a + b)
    (hsub : ∀ a b, L.sub a b = a - b) (hmul : ∀ a b, L.mul a b = a * b)
    (hdiv : ∀ a b, L.div a b = a / b) (hofNat : ∀ k : Nat, L.ofNat k = (k : ℚ))
    (st : St) (id smin smax : String) (n : Nat) (mn mx : ℚ)
    (hmin : L.parseFloat (eval st.emap smin) = .ok mn)
    (hmax : L.parseFloat (eval st.emap smax) = .ok mx)
    (hlt : mn < mx) (hr0 : 0 ≤ L.randFloat st.rng) (hr1 : L.randFloat st.rng < 1) :
    random L st [id, "=", "random", smin, smax] n
      = .ret (none, { st.setVar id (L.ftoa (vmap L (L.randFloat st.rng) 0 1 mn mx)) with
          rng := st.rng + 1 }) ∧
    vmap L (L.randFloat st.rng) 0 1 mn mx = mn + (mx - mn) * L.randFloat st.rng ∧
    mn ≤ vmap L (L.randFloat st.rng) 0 1 mn mx ∧
    vmap L (L.randFloat st.rng) 0 1 mn mx < mx := by
  have hv : vmap L (L.randFloat st.rng) 0 1 mn mx = mn + (mx - mn) * L.randFloat st.rng := by
    simp [vmap, hadd, hsub, hmul, hdiv]
  have hd : 0 < mx - mn := by linarith
  refine ⟨?_, hv, ?_, ?_⟩
  · have h0 : L.ofNat 0 = 0 := by simpa using hofNat 0
    have h1 : L.ofNat 1 = 1 := by simpa using hofNat 1
    simp [random, hmin, hmax, h0, h1]
  · rw [hv]
    have := mul_nonneg (le_of_lt hd) hr0
    linarith
  · rw [hv]
    have := mul_lt_mul_of_pos_left hr1 hd
    linarith

/-- Witness of C31: x = random 10 20 with the first draw of the concrete library, 1/2. -/
theorem random_in_range_witness :
    (10 : ℚ) ≤ vmap exactLib (exactLib.randFloat (St.init []).rng) 0 1 10 20 ∧
    vmap exactLib (exactLib.randFloat (St.init []).rng) 0 1 10 20 < 20 :=
  (random_in_range exactLib (fun _ _ => rfl) (fun _ _ => rfl) (fun _ _ => rfl) (fun _ _ => rfl)
    (fun _ => rfl) (St.init []) "x" "10" "20" 1 10 20 (by with_unfolding_all decide)
    (by with_unfolding_all decide) (by norm_num) (by with_unfolding_all decide)
    (by with_unfolding_all decide)).2.2

/-! ## Mirrored braces -/

/-- C32: with a negation that the arithmetic of the library respects, the six segments of
rbrace are those of lbrace with aw negated, and the six segments of dbrace are those of
ubrace with ah negated, for all x, y, size, aw, ah and attr. -/
theorem brace_mirror {F : Type} (L : Lib F) (neg : F → F)
    (hadd : ∀ a b, L.add a (neg b) = L.sub a b) (hsub : ∀ a b, L.sub a (neg b) = L.add a b)
    (hmul : ∀ a b, L.mul a (neg b) = neg (L.mul a b))
    (hdiv : ∀ a b, L.div (neg a) b = neg (L.div a b))
    (x y size aw ah : F) (attr : String) :
    rbrace L x y size aw ah attr = lbrace L x y size (neg aw) ah attr ∧
    dbrace L x y size aw ah attr = ubrace L x y size aw (neg ah) attr := by
  constructor
  · simp only [rbrace, lbrace, hadd, hdiv]
  · simp only [dbrace, ubrace, hsub, hmul]

/-- Witness of C32: the concrete library with the negation of the rationals. -/
theorem brace_mirror_witness :
    rbrace exactLib 50 50 20 4 2 "" = lbrace exactLib 50 50 20 (-4) 2 "" ∧
    dbrace exactLib 50 50 20 4 2 "" = ubrace exactLib 50 50 20 4 (-2) "" :=
  brace_mirror exactLib (fun a => -a) (fun a b => (sub_eq_add_neg a b).symm)
    (fun a b => sub_neg_eq_add a b) (fun a b => mul_neg a b) (fun a b => neg_div b a)
    50 50 20 4 2 ""

/-! ## Quoted names and unquoted text -/

/-- C34, as the code has it: filequote returns the name of a non-empty name between double
quotes and fails on a token shorter than three characters and on a token with a double quote
at neither end; but a token of three characters or more with a double quote at one end only
is accepted, and filequote returns it without its first and last character. -/
theorem filequote_spec (name s : String) (n : Nat) :
    (name ≠ "" → filequote (dq ++ name ++ dq) n = .ok name) ∧
    (s.length < 3 → filequote s n = .error (lineno n ++ ": " ++ s ++ " is not a valid filename")) ∧
    (byteAt s 0 ≠ some doublequote → byteAt s (s.length - 1) ≠ some doublequote →
      filequote s n = .error (lineno n ++ ": " ++ s ++ " is not a valid filename")) ∧
    (3 ≤ s.length → (byteAt s 0 = some doublequote ∨ byteAt s (s.length - 1) = some doublequote) →
      filequote s n = .ok (slice s 1 (s.length - 1))) := by
  refine ⟨fun hne => ?_, fun h => ?_, fun h0 h1 => ?_, fun h3 h => ?_⟩
  · have hq : dq.length = 1 := rfl
    have hpos : 0 < name.length := by
      cases name with
      | mk d =>
        cases d with
        | nil => exact absurd rfl hne
        | cons c cs => simp [String.length]
    have hlen : (dq ++ name ++ dq).length = name.length + 2 := by
      rw [String.length_append, String.length_append, hq]
      omega
    have h3 : ¬ (dq ++ name ++ dq).length < 3 := by omega
    have hd : (dq ++ name ++ dq).data = (doublequote :: name.data) ++ [doublequote] := rfl
    have hb0 : byteAt (dq ++ name ++ dq) 0 = some doublequote := by
      show ((dq ++ name ++ dq).data)[0]? = _
      rw [hd]
      simp
    have e1 : name.length + 2 - 1 = (doublequote :: name.data).length := by
      rw [List.length_cons]
      rfl
    have hs : slice (dq ++ name ++ dq) 1 ((dq ++ name ++ dq).length - 1) = name := by
      apply String.ext
      show List.drop 1 (List.take ((dq ++ name ++ dq).length - 1) (dq ++ name ++ dq).data)
        = name.data
      rw [hd, hlen, e1, List.take_left]
      rfl
    simp only [filequote, if_neg h3, hb0, hs]
    simp
  · simp [filequote, h]
  · by_cases h3 : s.length < 3
    · simp [filequote, h3]
    · simp [filequote, h3, h0, h1]
  · have h3n : ¬ s.length < 3 := by omega
    have hn : ¬ (byteAt s 0 ≠ some doublequote ∧ byteAt s (s.length - 1) ≠ some doublequote) := by
      intro hc
      rcases h with h | h
      · exact hc.1 h
      · exact hc.2 h
    simp only [filequote, if_neg h3n, if_neg hn]

/-- Witness of C34: the token abc with an opening double quote and no closing one is accepted,
as the name ab. -/
theorem filequote_spec_witness :
    filequote "\"abc" 1 = .ok (slice "\"abc" 1 ("\"abc".length - 1)) ∧
    slice "\"abc" 1 ("\"abc".length - 1) = "ab" :=
  ⟨(filequote_spec "" "\"abc" 1).2.2.2 (by decide) (Or.inl (by decide)), by decide⟩

/-- C40: qesc does not look at what it strips: on a token of three characters or more it
returns xmlesc of the token without its first and last character, whatever these are, so
the bare token 1234 gives 23; on a token shorter than three characters it returns the empty
string; text writes that as the content of the element. -/
theorem qesc_strips_unchecked {F : Type} (L : Lib F) (s : String) :
    (3 ≤ s.length → qesc s = xmlesc (String.mk s.data.tail.dropLast)) ∧
    (s.length < 3 → qesc s = "") ∧
    qesc "1234" = "23" ∧ qesc "7" = "" ∧ qesc "42" = "" ∧
    (∀ (st : St) (n : Nat), text L st ["text", "1234", "10", "10", "2"] n
      = .ret (none, st.write ("<text xp=" ++ L.quote "10" ++ " yp=" ++ L.quote "10" ++ " sp="
          ++ L.quote "2" ++ " >" ++ "23" ++ "</text>\n"))) := by
  refine ⟨fun h3 => ?_, fun h => ?_, by decide, by decide, by decide, fun st n => ?_⟩
  · have h3n : ¬ s.length < 3 := by omega
    have key : ∀ l : List Char, List.drop 1 (List.take (l.length - 1) l) = l.tail.dropLast := by
      intro l
      cases l with
      | nil => rfl
      | cons c cs => simp [List.dropLast_eq_take, List.drop_take]
    simp only [qesc, if_neg h3n, slice]
    congr 2
    exact key s.data
  · simp [qesc, h]
  · have hq : qesc "1234" = "23" := by decide
    simp only [text, fontColorOp, hq, if_true]
    simp only [String.append_assoc]
    rfl

/-- Witness of C40: the bare token 1234. -/
theorem qesc_strips_unchecked_witness :
    qesc "1234" = xmlesc (String.mk "1234".data.tail.dropLast) :=
  (qesc_strips_unchecked exactLib "1234").1 (by decide)

/-! ## The header of a chart -/

/-- The loop of getheader follows each of the two names on its own. -/
theorem getheaderLoop_eq (c0 c1 : String) :
    ∀ (s : List String) (i li vi : Nat),
      getheaderLoop c0 c1 s i (li, vi) = (lastIndexFrom c0 s i li, lastIndexFrom c1 s i vi) := by
  intro s
  induction s with
  | nil => intro i li vi; rfl
  | cons p rest ih =>
    intro i li vi
    simp only [getheaderLoop, lastIndexFrom, ih]

/-- The index left for a name: the default when the name does not occur, the place of its
last occurrence when it does. -/
theorem lastIndexFrom_spec (c : String) :
    ∀ (s : List String) (i d : Nat),
      (c ∉ s → lastIndexFrom c s i d = d) ∧
      (c ∈ s → ∃ j, lastIndexFrom c s i d = i + j ∧ s[j]? = some c ∧
        ∀ j2, j < j2 → s[j2]? ≠ some c) := by
  intro s
  induction s with
  | nil =>
    intro i d
    exact ⟨fun _ => rfl, fun h => absurd h (List.not_mem_nil c)⟩
  | cons p rest ih =>
    intro i d
    obtain ⟨ihn, ihm⟩ := ih (i + 1) (if p = c then i else d)
    by_cases hrest : c ∈ rest
    · refine ⟨fun h => absurd (List.mem_cons_of_mem p hrest) h, fun _ => ?_⟩
      obtain ⟨j, hj, hget, hlast⟩ := ihm hrest
      refine ⟨j + 1, ?_, ?_, ?_⟩
      · simp only [lastIndexFrom, hj]
        omega
      · simpa using hget
      · intro j2 hj2
        cases j2 with
        | zero => omega
        | succ k =>
          have := hlast k (by omega)
          simpa using this
    · by_cases hp : p = c
      · refine ⟨fun h => absurd (hp ▸ List.mem_cons_self p rest) h, fun _ => ?_⟩
        refine ⟨0, ?_, ?_, ?_⟩
        · have hv := ihn hrest
          rw [if_pos hp] at hv
          simp only [lastIndexFrom, if_pos hp, hv]
          rfl
        · simp [hp]
        · intro j2 hj2 hget
          cases j2 with
          | zero => omega
          | succ k =>
            have hk : rest[k]? = some c := by simpa using hget
            exact hrest (List.getElem?_mem hk)
      · refine ⟨fun _ => ?_, fun h => ?_⟩
        · have hv := ihn hrest
          rw [if_neg hp] at hv
          simp only [lastIndexFrom, if_neg hp, hv]
        · rcases List.mem_cons.1 h with h | h
          · exact absurd h.symm hp
          · exact absurd h hrest

/-- Two names without a comma, joined by a comma, split into the two names. -/
theorem splitOnChar_pair (c0 c1 : String) (h0 : ',' ∉ c0.data) (h1 : ',' ∉ c1.data) :
    splitOnChar (c0 ++ "," ++ c1) ',' = [c0, c1] := by
  have hd : (c0 ++ "," ++ c1).data = [','].intercalate [c0.data, c1.data] := by
    simp [List.intercalate, String.data_append]
  have hs := List.splitOn_intercalate [c0.data, c1.data] ','
    (by
      intro l hl
      simp only [List.mem_cons, List.mem_singleton, List.not_mem_nil, or_false] at hl
      rcases hl with rfl | rfl
      · exact h0
      · exact h1)
    (by simp)
  simp only [splitOnChar, hd, hs, List.map_cons, List.map_nil]

/-- C35, as amended: for a selector of two names joined by a comma, each index getheader
returns is the place of the last occurrence of its name in the header row when the name
occurs, and its own default, 0 for the first and 1 for the second, when it does not; a
selector that is not exactly two fields gives (0, 1); on the header First,Second,Third,Sum
the selector First,Sum gives (0, 3) and First,Third gives (0, 2). -/
theorem getheader_spec (s : List String) (c0 c1 lv : String)
    (h0 : ',' ∉ c0.data) (h1 : ',' ∉ c1.data) :
    (c0 ∈ s → s[(getheader s (c0 ++ "," ++ c1)).1]? = some c0 ∧
      ∀ j, (getheader s (c0 ++ "," ++ c1)).1 < j → s[j]? ≠ some c0) ∧
    (c0 ∉ s → (getheader s (c0 ++ "," ++ c1)).1 = 0) ∧
    (c1 ∈ s → s[(getheader s (c0 ++ "," ++ c1)).2]? = some c1 ∧
      ∀ j, (getheader s (c0 ++ "," ++ c1)).2 < j → s[j]? ≠ some c1) ∧
    (c1 ∉ s → (getheader s (c0 ++ "," ++ c1)).2 = 1) ∧
    ((splitOnChar lv ',').length ≠ 2 → getheader s lv = (0, 1)) ∧
    getheader ["First", "Second", "Third", "Sum"] "First,Sum" = (0, 3) ∧
    getheader ["First", "Second", "Third", "Sum"] "First,Third" = (0, 2) := by
  have hg : getheader s (c0 ++ "," ++ c1) = (lastIndexFrom c0 s 0 0, lastIndexFrom c1 s 0 1) := by
    simp only [getheader, splitOnChar_pair c0 c1 h0 h1, getheaderLoop_eq]
  obtain ⟨a1, a2⟩ := lastIndexFrom_spec c0 s 0 0
  obtain ⟨b1, b2⟩ := lastIndexFrom_spec c1 s 0 1
  refine ⟨fun h => ?_, fun h => ?_, fun h => ?_, fun h => ?_, fun h => ?_, by decide, by decide⟩
  · obtain ⟨j, hj, hget, hlast⟩ := a2 h
    rw [hg]
    simp only [hj, Nat.zero_add]
    exact ⟨hget, hlast⟩
  · rw [hg]
    exact a1 h
  · obtain ⟨j, hj, hget, hlast⟩ := b2 h
    rw [hg]
    simp only [hj, Nat.zero_add]
    exact ⟨hget, hlast⟩
  · rw [hg]
    exact b1 h
  · simp only [getheader]
    split
    · rename_i c0 c1 heq
      rw [heq] at h
      exact absurd rfl h
    · rfl

/-- Witness of C35: the selector Third,Sum on the header of the example. -/
theorem getheader_spec_witness :
    ["First", "Second", "Third", "Sum"][(getheader ["First", "Second", "Third", "Sum"]
        ("Third" ++ "," ++ "Sum")).1]? = some "Third" ∧
    ∀ j, (getheader ["First", "Second", "Third", "Sum"] ("Third" ++ "," ++ "Sum")).1 < j →
      ["First", "Second", "Third", "Sum"][j]? ≠ some "Third" :=
  (getheader_spec ["First", "Second", "Third", "Sum"] "Third" "Sum" "" (by decide)
    (by decide)).1 (by decide)

/-- C35, as stated, fails when one name only is missing: on the header
First,Second,Third,Sum the selector Sum,Missing gives (3, 1), not (0, 1). -/
theorem getheader_partial_default :
    "Missing" ∉ ["First", "Second", "Third", "Sum"] ∧
    getheader ["First", "Second", "Third", "Sum"] "Sum,Missing" = (3, 1) ∧
    getheader ["First", "Second", "Third", "Sum"] "Sum,Missing" ≠ (0, 1) := by
  decide

/-! ## Failure in the dispatcher -/

/-- C36: for a record whose directive is not include, grid or chart (keywords chart and
dchart), if keyparse returns a failure then it leaves the state as it found it: nothing has
been written to the output and the store is unchanged. -/
theorem keyparse_failure_atomic {F : Type} (L : Lib F) (fuel : Nat) (st : St) (k : String)
    (rest : List String) (t : String) (n : Nat) (e : String) (st2 : St)
    (h1 : k ≠ "include") (h2 : k ≠ "grid") (h3 : k ≠ "chart") (h4 : k ≠ "dchart")
    (h : keyparse L (fuel + 1) st (k :: rest) t n = .ret (some e, st2)) :
    st2 = st ∧ st2.out = st.out ∧ st2.emap = st.emap := by
  rw [keyparse_succ] at h
  have hs := keyparseStep_atomic L _ _ st k rest t n h1 h2 h3 h4 e st2 h
  subst hs
  exact ⟨rfl, rfl, rfl⟩

/-- Witness of C36: an arrow whose fourth coordinate is not a number, after a slide was
opened and w assigned. -/
theorem keyparse_failure_atomic_witness :
    ({ emap := [("w", "100")], out := "<slide>\n", fs := [], rng := 0, stderr := "" } : St).out
      = "<slide>\n" :=
  (keyparse_failure_atomic exactLib 0
    { emap := [("w", "100")], out := "<slide>\n", fs := [], rng := 0, stderr := "" }
    "arrow" ["10", "10", "20", "abc"] "arrow 10 10 20 abc" 4
    "strconv.ParseFloat: parsing \"abc\": invalid syntax"
    { emap := [("w", "100")], out := "<slide>\n", fs := [], rng := 0, stderr := "" }
    (by decide) (by decide) (by decide) (by decide) (by with_unfolding_all decide)).2.1

/-! ## Short lines in a grid -/

/-- C37, as the code has it: when the first line of the data file is not empty and has fewer
than three tokens, subxy returns the empty record, keyparse indexes its token 0 and grid
panics. -/
theorem grid_short_line_panics {F : Type} (L : Lib F) (fuel : Nat) (st : St)
    (s0 s1 s2 s3 s4 s5 s6 : String) (more : List String) (n : Nat) (x y xint yint limit : F)
    (file : String) (r : Src) (t : String) (rest : List String)
    (hx : L.parseFloat (eval st.emap s2) = .ok x) (hy : L.parseFloat (eval st.emap s3) = .ok y)
    (hxi : L.parseFloat (eval st.emap s4) = .ok xint)
    (hyi : L.parseFloat (eval st.emap s5) = .ok yint)
    (hl : L.parseFloat (eval st.emap s6) = .ok limit)
    (hfile : filequote s1 n = .ok file) (hopen : st.fs.get? file = some r)
    (hlines : r.lines = t :: rest) (ht : t.length ≠ 0) (hshort : (L.scan t).length < 3) :
    (∀ xp yp : F, subxy L st.emap t xp yp = []) ∧
    (∀ st1 : St, keyparse L (fuel + 1) st1 [] t n = .panic) ∧
    grid L (keyparse L (fuel + 1)) st (s0 :: s1 :: s2 :: s3 :: s4 :: s5 :: s6 :: more) n
      = .panic := by
  have hsub : ∀ xp yp : F, subxy L st.emap t xp yp = [] := by
    intro xp yp
    have hlen : (parse L st.emap t).length < 3 := by
      rw [parse_length]
      exact hshort
    simp only [subxy, if_pos hlen]
  refine ⟨hsub, fun st1 => rfl, ?_⟩
  simp only [grid, hx, hy, hxi, hyi, hl, hfile, hopen, hlines, gridloop, if_neg ht, hsub]
  rfl

/-- Witness of C37: a data file whose first line has two tokens. -/
theorem grid_short_line_panics_witness :
    grid exactLib (keyparse exactLib 1) (St.init [("g", script ["a b", "circle x y 2"])])
      ["grid", "\"g\"", "10", "80", "30", "20", "50"] 1 = .panic :=
  (grid_short_line_panics exactLib 0 (St.init [("g", script ["a b", "circle x y 2"])])
    "grid" "\"g\"" "10" "80" "30" "20" "50" [] 1 10 80 30 20 50 "g"
    (script ["a b", "circle x y 2"]) "a b" ["circle x y 2"]
    (by with_unfolding_all decide) (by with_unfolding_all decide) (by with_unfolding_all decide)
    (by with_unfolding_all decide) (by with_unfolding_all decide) (by decide) (by decide)
    rfl (by decide) (by decide)).2.2

/-! ## Termination of the numeric loop -/

/-- A pass over the body returns when the dispatch of each of its records returns. -/
theorem evalbody_returns (kp : KP) (forvar : String) (format : Format) (v : String) (n : Nat)
    (body : List (List String))
    (hkp : ∀ st1 : St, ∀ fb ∈ body, ∃ e st2, kp st1 (substFor forvar format v fb) "" n
      = .ret (e, st2)) :
    ∀ st : St, ∃ st2, evalbody kp forvar format v n body st = .ret st2 := by
  induction body with
  | nil => intro st; exact ⟨st, rfl⟩
  | cons fb rest ih =>
    intro st
    obtain ⟨e, st1, h1⟩ := hkp st fb (List.mem_cons_self fb rest)
    obtain ⟨st2, h2⟩ := ih (fun s1 f hf => hkp s1 f (List.mem_cons_of_mem fb hf)) st1
    exact ⟨st2, by simp only [evalbody, evaloop, h1, h2]⟩

/-- A numeric loop whose variable stays within the end never returns: it uses up any fuel. -/
theorem numloopRun_forever (L : Lib ℚ) (hadd : ∀ a b, L.add a b = a + b)
    (hle : ∀ a b, L.le a b = decide (a ≤ b)) (kp : KP) (forvar : String)
    (body : List (List String)) (n : Nat) (en incr : ℚ) (hincr : incr ≤ 0)
    (hkp : ∀ (st1 : St) (val : String), ∀ fb ∈ body,
      ∃ e st2, kp st1 (substFor forvar .plain val fb) "" n = .ret (e, st2)) :
    ∀ (fuel : Nat) (v : ℚ) (st : St), v ≤ en →
      numloopRun L kp forvar body n en incr fuel v st = .nofuel := by
  intro fuel
  induction fuel with
  | zero => intro v st _; rfl
  | succ k ih =>
    intro v st hv
    obtain ⟨st2, h2⟩ := evalbody_returns kp forvar .plain (L.ftoa v) n body
      (fun s1 fb hfb => hkp s1 (L.ftoa v) fb hfb) st
    rw [numloopRun]
    simp only [hle, hv, decide_True, if_true, h2, hadd]
    exact ih (v + incr) st2 (by linarith)

/-- A numeric loop whose variable is beyond the end after m steps returns within m + 1
tests. -/
theorem numloopRun_ends (L : Lib ℚ) (hadd : ∀ a b, L.add a b = a + b)
    (hle : ∀ a b, L.le a b = decide (a ≤ b)) (kp : KP) (forvar : String)
    (body : List (List String)) (n : Nat) (en incr : ℚ)
    (hkp : ∀ (st1 : St) (val : String), ∀ fb ∈ body,
      ∃ e st2, kp st1 (substFor forvar .plain val fb) "" n = .ret (e, st2)) :
    ∀ (m : Nat) (v : ℚ) (st : St), 0 ≤ incr ∨ m = 0 → en < v + (m : ℚ) * incr →
      ∃ st2, numloopRun L kp forvar body n en incr (m + 1) v st = .ret st2 := by
  intro m
  induction m with
  | zero =>
    intro v st _ hm
    have hv : ¬ v ≤ en := by
      simp only [Nat.cast_zero, zero_mul, add_zero] at hm
      exact not_le.2 hm
    exact ⟨st, by simp [numloopRun, hle, hv]⟩
  | succ k ih =>
    intro v st hpos hm
    have hi : 0 ≤ incr := by
      rcases hpos with h | h
      · exact h
      · omega
    by_cases hv : v ≤ en
    · obtain ⟨st1, h1⟩ := evalbody_returns kp forvar .plain (L.ftoa v) n body
        (fun s1 fb hfb => hkp s1 (L.ftoa v) fb hfb) st
      obtain ⟨st2, h2⟩ := ih (v + incr) st1 (Or.inl hi) (by push_cast at hm; linarith)
      refine ⟨st2, ?_⟩
      rw [numloopRun]
      simp only [hle, hv, decide_True, if_true, h1, hadd]
      exact h2
    · exact ⟨st, by simp [numloopRun, hle, hv]⟩

/-- C38: over exact arithmetic, for a numeric loop header with numeric begin B, end E and
increment I, whatever their signs fornum accepts them, and, the dispatch of every body
record returning, the replay in parsefor returns with enough fuel if and only if I > 0 or
B > E; otherwise it uses up any amount of fuel. -/
theorem numeric_loop_terminates_iff (L : Lib ℚ) (hadd : ∀ a b, L.add a b = a + b)
    (hle : ∀ a b, L.le a b = decide (a ≤ b)) (kp : KP) (st : St)
    (v bt et it : String) (n : Nat) (lines : List String) (B E I : ℚ)
    (hb : L.parseFloat bt = .ok B) (he : L.parseFloat et = .ok E) (hi : L.parseFloat it = .ok I)
    (hbt : bt ≠ "[")
    (hkp : ∀ (st1 : St) (val : String), ∀ fb ∈ (forbody L st.emap lines).1,
      ∃ e st2, kp st1 (substFor v .plain val fb) "" n = .ret (e, st2)) :
    fornum L ["for", v, "=", bt, et, it] n = .ok (B, E, I) ∧
    ((∃ fuel e st2 rest,
        parsefor L kp fuel st ["for", v, "=", bt, et, it] n lines = .ret (e, st2, rest))
      ↔ (0 < I ∨ E < B)) ∧
    (¬ (0 < I ∨ E < B) →
      ∀ fuel, parsefor L kp fuel st ["for", v, "=", bt, et, it] n lines = .nofuel) := by
  have ht : fortype ["for", v, "=", bt, et, it] = .numloop := by
    simp [fortype, hbt]
  have hf : fornum L ["for", v, "=", bt, et, it] n = .ok (B, E, I) := by
    simp [fornum, hb, he, hi]
  have hpf : ∀ fuel, parsefor L kp fuel st ["for", v, "=", bt, et, it] n lines
      = match numloopRun L kp v (forbody L st.emap lines).1 n E I fuel B st with
        | .ret st2 => .ret (none, st2, (forbody L st.emap lines).2)
        | .panic => .panic
        | .nofuel => .nofuel := by
    intro fuel
    simp only [parsefor, ht, hf]
    rfl
  have hnever : ¬ (0 < I ∨ E < B) →
      ∀ fuel, parsefor L kp fuel st ["for", v, "=", bt, et, it] n lines = .nofuel := by
    intro hn fuel
    have hI : I ≤ 0 := not_lt.1 (fun h => hn (Or.inl h))
    have hBE : B ≤ E := not_lt.1 (fun h => hn (Or.inr h))
    rw [hpf, numloopRun_forever L hadd hle kp v _ n E I hI hkp fuel B st hBE]
  refine ⟨hf, ⟨fun h => ?_, fun h => ?_⟩, hnever⟩
  · by_contra hn
    obtain ⟨fuel, e, st2, rest, hr⟩ := h
    rw [hnever hn fuel] at hr
    exact absurd hr (by simp)
  · have hex : ∃ m : Nat, (0 ≤ I ∨ m = 0) ∧ E < B + (m : ℚ) * I := by
      rcases h with h | h
      · obtain ⟨m, hm⟩ := exists_nat_gt ((E - B) / I)
        refine ⟨m, Or.inl (le_of_lt h), ?_⟩
        have := (div_lt_iff₀ h).1 hm
        linarith
      · exact ⟨0, Or.inr rfl, by simpa using h⟩
    obtain ⟨m, hm1, hm2⟩ := hex
    obtain ⟨st2, h2⟩ := numloopRun_ends L hadd hle kp v _ n E I hkp m B st hm1 hm2
    exact ⟨m + 1, none, st2, (forbody L st.emap lines).2, by rw [hpf, h2]⟩

/-- Witness of C38: the header for i = 1 3 1 over the body circle i i 5 returns. -/
theorem numeric_loop_terminates_iff_witness :
    ∃ fuel e st2 rest,
      parsefor exactLib (keyparse exactLib 1) fuel (St.init []) ["for", "i", "=", "1", "3", "1"] 1
        ["circle i i 5", "efor"] = .ret (e, st2, rest) :=
  (numeric_loop_terminates_iff exactLib (fun _ _ => rfl) (fun _ _ => rfl) (keyparse exactLib 1)
    (St.init []) "i" "1" "3" "1" 1 ["circle i i 5", "efor"] 1 3 1
    (by with_unfolding_all decide) (by with_unfolding_all decide) (by with_unfolding_all decide)
    (by decide)
    (by
      intro st1 val fb hfb
      have hbody : (forbody exactLib (St.init []).emap ["circle i i 5", "efor"]).1
          = [["circle", "i", "i", "5"]] := by decide
      rw [hbody, List.mem_singleton] at hfb
      subst hfb
      exact ⟨_, _, rfl⟩)).2.1.2 (Or.inl (by norm_num))

/-! ## The markup handlers keep the store -/

/-- Keeping the store passes through a conditional. -/
theorem keepsStore_ite (c : Prop) [Decidable c] (a b : Result) (st : St)
    (ha : c → KeepsStore a st) (hb : ¬ c → KeepsStore b st) :
    KeepsStore (if c then a else b) st := by
  by_cases h : c
  · simpa [h] using ha h
  · simpa [h] using hb h

/-- The handler deck keeps the store. -/
theorem deck_keepsStore (st : St) (s : List String) (n : Nat) :
    KeepsStore (deck st s n) st := by
  intro e st2 h
  simp only [deck, Outcome.ret.injEq, Prod.mk.injEq] at h
  obtain ⟨_, rfl⟩ := h
  rfl

/-- The handler slide keeps the store. -/
theorem slide_keepsStore (st : St) (s : List String) (n : Nat) :
    KeepsStore (slide st s n) st := by
  intro e st2 h
  simp only [slide] at h
  repeat' split at h
  all_goals try (simp only [Outcome.ret.injEq, Prod.mk.injEq, reduceCtorEq] at h)
  all_goals (obtain ⟨_, rfl⟩ := h; rfl)

/-- The handler endtag keeps the store. -/
theorem endtag_keepsStore (st : St) (s : List String) (n : Nat) :
    KeepsStore (endtag st s n) st := by
  intro e st2 h
  simp only [endtag] at h
  repeat' split at h
  all_goals try (simp only [Outcome.ret.injEq, Prod.mk.injEq, reduceCtorEq] at h)
  all_goals (obtain ⟨_, rfl⟩ := h; rfl)

/-- The handler canvas keeps the store. -/
theorem canvas_keepsStore {F : Type} (L : Lib F) (st : St) (s : List String) (n : Nat) :
    KeepsStore (canvas L st s n) st := by
  intro e st2 h
  simp only [canvas] at h
  repeat' split at h
  all_goals try (simp only [Outcome.ret.injEq, Prod.mk.injEq, reduceCtorEq] at h)
  all_goals (obtain ⟨_, rfl⟩ := h; rfl)

/-- The handler text keeps the store. -/
theorem text_keepsStore {F : Type} (L : Lib F) (st : St) (s : List String) (n : Nat) :
    KeepsStore (text L st s n) st := by
  intro e st2 h
  simp only [text] at h
  repeat' split at h
  all_goals try (simp only [Outcome.ret.injEq, Prod.mk.injEq, reduceCtorEq] at h)
  all_goals (obtain ⟨_, rfl⟩ := h; rfl)

/-- The handler rtext keeps the store. -/
theorem rtext_keepsStore {F : Type} (L : Lib F) (st : St) (s : List String) (n : Nat) :
    KeepsStore (rtext L st s n) st := by
  intro e st2 h
  simp only [rtext] at h
  repeat' split at h
  all_goals try (simp only [Outcome.ret.injEq, Prod.mk.injEq, reduceCtorEq] at h)
  all_goals (obtain ⟨_, rfl⟩ := h; rfl)

/-- The handler textblock keeps the store. -/
theorem textblock_keepsStore {F : Type} (L : Lib F) (st : St) (s : List String) (n : Nat) :
    KeepsStore (textblock L st s n) st := by
  intro e st2 h
  simp only [textblock] at h
  repeat' split at h
  all_goals try (simp only [Outcome.ret.injEq, Prod.mk.injEq, reduceCtorEq] at h)
  all_goals (obtain ⟨_, rfl⟩ := h; rfl)

/-- The handler textcode keeps the store. -/
theorem textcode_keepsStore {F : Type} (L : Lib F) (st : St) (s : List String) (n : Nat) :
    KeepsStore (textcode L st s n) st := by
  intro e st2 h
  simp only [textcode] at h
  repeat' split at h
  all_goals try (simp only [Outcome.ret.injEq, Prod.mk.injEq, reduceCtorEq] at h)
  all_goals (obtain ⟨_, rfl⟩ := h; rfl)

/-- The handler image keeps the store. -/
theorem image_keepsStore {F : Type} (L : Lib F) (st : St) (s : List String) (n : Nat) :
    KeepsStore (image L st s n) st := by
  intro e st2 h
  simp only [image] at h
  repeat' split at h
  all_goals try (simp only [Outcome.ret.injEq, Prod.mk.injEq, reduceCtorEq] at h)
  all_goals (obtain ⟨_, rfl⟩ := h; rfl)

/-- The handler cimage keeps the store. -/
theorem cimage_keepsStore {F : Type} (L : Lib F) (st : St) (s : List String) (n : Nat) :
    KeepsStore (cimage L st s n) st := by
  intro e st2 h
  simp only [cimage] at h
  repeat' split at h
  all_goals try (simp only [Outcome.ret.injEq, Prod.mk.injEq, reduceCtorEq] at h)
  all_goals (obtain ⟨_, rfl⟩ := h; rfl)

/-- The handler list keeps the store. -/
theorem list_keepsStore {F : Type} (L : Lib F) (st : St) (s : List String) (n : Nat) :
    KeepsStore (list L st s n) st := by
  intro e st2 h
  simp only [list] at h
  repeat' split at h
  all_goals try (simp only [Outcome.ret.injEq, Prod.mk.injEq, reduceCtorEq] at h)
  all_goals (obtain ⟨_, rfl⟩ := h; rfl)

/-- The handler listitem keeps the store. -/
theorem listitem_keepsStore {F : Type} (L : Lib F) (st : St) (s : List String) (n : Nat) :
    KeepsStore (listitem L st s n) st := by
  intro e st2 h
  simp only [listitem] at h
  repeat' split at h
  all_goals try (simp only [Outcome.ret.injEq, Prod.mk.injEq, reduceCtorEq] at h)
  all_goals (obtain ⟨_, rfl⟩ := h; rfl)

/-- The handler shapes keeps the store. -/
theorem shapes_keepsStore {F : Type} (L : Lib F) (st : St) (s : List String) (n : Nat) :
    KeepsStore (shapes L st s n) st := by
  intro e st2 h
  simp only [shapes] at h
  repeat' split at h
  all_goals try (simp only [Outcome.ret.injEq, Prod.mk.injEq, reduceCtorEq] at h)
  all_goals (obtain ⟨_, rfl⟩ := h; rfl)

/-- The handler regshapes keeps the store. -/
theorem regshapes_keepsStore {F : Type} (L : Lib F) (st : St) (s : List String) (n : Nat) :
    KeepsStore (regshapes L st s n) st := by
  intro e st2 h
  simp only [regshapes] at h
  repeat' split at h
  all_goals try (simp only [Outcome.ret.injEq, Prod.mk.injEq, reduceCtorEq] at h)
  all_goals (obtain ⟨_, rfl⟩ := h; rfl)

/-- The handler polygon keeps the store. -/
theorem polygon_keepsStore {F : Type} (L : Lib F) (st : St) (s : List String) (n : Nat) :
    KeepsStore (polygon L st s n) st := by
  intro e st2 h
  simp only [polygon] at h
  repeat' split at h
  all_goals try (simp only [Outcome.ret.injEq, Prod.mk.injEq, reduceCtorEq] at h)
  all_goals (obtain ⟨_, rfl⟩ := h; rfl)

/-- The handler line keeps the store. -/
theorem line_keepsStore {F : Type} (L : Lib F) (st : St) (s : List String) (n : Nat) :
    KeepsStore (line L st s n) st := by
  intro e st2 h
  simp only [line] at h
  repeat' split at h
  all_goals try (simp only [Outcome.ret.injEq, Prod.mk.injEq, reduceCtorEq] at h)
  all_goals (obtain ⟨_, rfl⟩ := h; rfl)

/-- The handler hline keeps the store. -/
theorem hline_keepsStore {F : Type} (L : Lib F) (st : St) (s : List String) (n : Nat) :
    KeepsStore (hline L st s n) st := by
  intro e st2 h
  simp only [hline] at h
  repeat' split at h
  all_goals try (simp only [Outcome.ret.injEq, Prod.mk.injEq, reduceCtorEq] at h)
  all_goals (obtain ⟨_, rfl⟩ := h; rfl)

/-- The handler vline keeps the store. -/
theorem vline_keepsStore {F : Type} (L : Lib F) (st : St) (s : List String) (n : Nat) :
    KeepsStore (vline L st s n) st := by
  intro e st2 h
  simp only [vline] at h
  repeat' split at h
  all_goals try (simp only [Outcome.ret.injEq, Prod.mk.injEq, reduceCtorEq] at h)
  all_goals (obtain ⟨_, rfl⟩ := h; rfl)

/-- The handler arc keeps the store. -/
theorem arc_keepsStore {F : Type} (L : Lib F) (st : St) (s : List String) (n : Nat) :
    KeepsStore (arc L st s n) st := by
  intro e st2 h
  simp only [arc] at h
  repeat' split at h
  all_goals try (simp only [Outcome.ret.injEq, Prod.mk.injEq, reduceCtorEq] at h)
  all_goals (obtain ⟨_, rfl⟩ := h; rfl)

/-- The handler curve keeps the store. -/
theorem curve_keepsStore {F : Type} (L : Lib F) (st : St) (s : List String) (n : Nat) :
    KeepsStore (curve L st s n) st := by
  intro e st2 h
  simp only [curve] at h
  repeat' split at h
  all_goals try (simp only [Outcome.ret.injEq, Prod.mk.injEq, reduceCtorEq] at h)
  all_goals (obtain ⟨_, rfl⟩ := h; rfl)

/-- The handler legend keeps the store. -/
theorem legend_keepsStore {F : Type} (L : Lib F) (st : St) (s : List String) (n : Nat) :
    KeepsStore (legend L st s n) st := by
  intro e st2 h
  simp only [legend] at h
  repeat' split at h
  all_goals try (simp only [Outcome.ret.injEq, Prod.mk.injEq, reduceCtorEq] at h)
  all_goals (obtain ⟨_, rfl⟩ := h; rfl)

/-- The handler brace keeps the store. -/
theorem brace_keepsStore {F : Type} (L : Lib F) (st : St) (s : List String) (n : Nat) :
    KeepsStore (brace L st s n) st := by
  intro e st2 h
  simp only [brace] at h
  repeat' split at h
  all_goals try (simp only [Outcome.ret.injEq, Prod.mk.injEq, reduceCtorEq] at h)
  all_goals (obtain ⟨_, rfl⟩ := h; rfl)

/-- The handler arrow keeps the store. -/
theorem arrow_keepsStore {F : Type} (L : Lib F) (st : St) (s : List String) (n : Nat) :
    KeepsStore (arrow L st s n) st := by
  intro e st2 h
  simp only [arrow] at h
  repeat' split at h
  all_goals try (simp only [Outcome.ret.injEq, Prod.mk.injEq, reduceCtorEq] at h)
  all_goals (obtain ⟨_, rfl⟩ := h; rfl)

/-- The handler carrow keeps the store. -/
theorem carrow_keepsStore {F : Type} (L : Lib F) (st : St) (s : List String) (n : Nat) :
    KeepsStore (carrow L st s n) st := by
  intro e st2 h
  simp only [carrow] at h
  repeat' split at h
  all_goals try (simp only [Outcome.ret.injEq, Prod.mk.injEq, reduceCtorEq] at h)
  all_goals first
    | (obtain ⟨_, rfl⟩ := h; rfl)
    | (obtain ⟨_, rfl⟩ := h; simp only [St.write]; exact curve_keepsStore L st _ n _ _ (by assumption))

/-- The handler chart keeps the store. -/
theorem chart_keepsStore {F : Type} (L : Lib F) (st : St) (t : String) (n : Nat) :
    KeepsStore (chart L st t n) st := by
  intro e st2 h
  simp only [chart] at h
  repeat' split at h
  all_goals try (simp only [Outcome.ret.injEq, Prod.mk.injEq, reduceCtorEq] at h)
  all_goals (obtain ⟨_, rfl⟩ := h; rfl)

/-- Every directive with a keyword, apart from include and grid, which dispatch further
lines, keeps the store. -/
theorem keyparseStep_keepsStore {F : Type} (L : Lib F) (kp : KP) (proc : PROC) (st : St)
    (k : String) (rest : List String) (t : String) (n : Nat)
    (hk : k ∈ keywords) (h1 : k ≠ "include") (h2 : k ≠ "grid") :
    KeepsStore (keyparseStep L kp proc st (k :: rest) t n) st := by
  simp only [keyparseStep, h1, h2, if_false]
  refine keepsStore_ite _ _ _ st (fun _ => deck_keepsStore st _ n) (fun n1 => ?_)
  refine keepsStore_ite _ _ _ st (fun _ => canvas_keepsStore L st _ n) (fun n2 => ?_)
  refine keepsStore_ite _ _ _ st (fun _ => slide_keepsStore st _ n) (fun n3 => ?_)
  refine keepsStore_ite _ _ _ st (fun _ => text_keepsStore L st _ n) (fun n4 => ?_)
  refine keepsStore_ite _ _ _ st (fun _ => rtext_keepsStore L st _ n) (fun n5 => ?_)
  refine keepsStore_ite _ _ _ st (fun _ => textblock_keepsStore L st _ n) (fun n6 => ?_)
  refine keepsStore_ite _ _ _ st (fun _ => textcode_keepsStore L st _ n) (fun n7 => ?_)
  refine keepsStore_ite _ _ _ st (fun _ => image_keepsStore L st _ n) (fun n8 => ?_)
  refine keepsStore_ite _ _ _ st (fun _ => cimage_keepsStore L st _ n) (fun n9 => ?_)
  refine keepsStore_ite _ _ _ st (fun _ => list_keepsStore L st _ n) (fun n10 => ?_)
  refine keepsStore_ite _ _ _ st (fun _ => endtag_keepsStore st _ n) (fun n11 => ?_)
  refine keepsStore_ite _ _ _ st (fun _ => listitem_keepsStore L st _ n) (fun n12 => ?_)
  refine keepsStore_ite _ _ _ st (fun _ => shapes_keepsStore L st _ n) (fun n13 => ?_)
  refine keepsStore_ite _ _ _ st (fun _ => regshapes_keepsStore L st _ n) (fun n14 => ?_)
  refine keepsStore_ite _ _ _ st (fun _ => polygon_keepsStore L st _ n) (fun n15 => ?_)
  refine keepsStore_ite _ _ _ st (fun _ => line_keepsStore L st _ n) (fun n16 => ?_)
  refine keepsStore_ite _ _ _ st (fun _ => arc_keepsStore L st _ n) (fun n17 => ?_)
  refine keepsStore_ite _ _ _ st (fun _ => curve_keepsStore L st _ n) (fun n18 => ?_)
  refine keepsStore_ite _ _ _ st (fun _ => legend_keepsStore L st _ n) (fun n19 => ?_)
  refine keepsStore_ite _ _ _ st (fun _ => arrow_keepsStore L st _ n) (fun n20 => ?_)
  refine keepsStore_ite _ _ _ st (fun _ => brace_keepsStore L st _ n) (fun n21 => ?_)
  refine keepsStore_ite _ _ _ st (fun _ => carrow_keepsStore L st _ n) (fun n22 => ?_)
  refine keepsStore_ite _ _ _ st (fun _ => vline_keepsStore L st _ n) (fun n23 => ?_)
  refine keepsStore_ite _ _ _ st (fun _ => hline_keepsStore L st _ n) (fun n24 => ?_)
  refine keepsStore_ite _ _ _ st (fun _ => chart_keepsStore L st t n) (fun n25 => ?_)
  exfalso
  simp only [keywords, List.mem_cons, List.mem_singleton, List.not_mem_nil, or_false] at hk
  simp only [not_or] at n4 n10 n11 n13 n14 n15 n21 n22 n25
  simp_all

/-! ## Relations between states that dispatch preserves

The lemmas of this section are stated for a relation R between the state before and the
state after, which holds between states with the same store and is transitive. -/

/-- One pass over the body preserves a relation that every dispatch of a substituted record
preserves. -/
theorem evalbody_rel (R : St → St → Prop) (hemap : ∀ a b : St, b.emap = a.emap → R a b)
    (htrans : ∀ a b c : St, R a b → R b c → R a c) (kp : KP) (forvar : String)
    (format : Format) (v : String) (n : Nat) (body : List (List String))
    (hkp : ∀ st1 : St, ∀ fb ∈ body, ∀ e st2,
      kp st1 (substFor forvar format v fb) "" n = .ret (e, st2) → R st1 st2) :
    ∀ st st2 : St, evalbody kp forvar format v n body st = .ret st2 → R st st2 := by
  induction body with
  | nil =>
    intro st st2 h
    simp only [evalbody, Outcome.ret.injEq] at h
    exact hemap st st2 (by rw [h])
  | cons fb rest ih =>
    intro st st2 h
    simp only [evalbody, evaloop] at h
    cases hd : kp st (substFor forvar format v fb) "" n with
    | panic => simp [hd] at h
    | nofuel => simp [hd] at h
    | ret r =>
      obtain ⟨e, st1⟩ := r
      simp only [hd] at h
      exact htrans st st1 st2 (hkp st fb (List.mem_cons_self fb rest) e st1 hd)
        (ih (fun s1 f hf => hkp s1 f (List.mem_cons_of_mem fb hf)) st1 st2 h)

/-- The loop over a list of values preserves such a relation. -/
theorem listloop_rel (R : St → St → Prop) (hemap : ∀ a b : St, b.emap = a.emap → R a b)
    (htrans : ∀ a b c : St, R a b → R b c → R a c) (kp : KP) (forvar : String)
    (body : List (List String)) (n : Nat)
    (hkp : ∀ (v : String) (st1 : St), ∀ fb ∈ body, ∀ e st2,
      kp st1 (substFor forvar .quoted v fb) "" n = .ret (e, st2) → R st1 st2) :
    ∀ (vals : List String) (st st2 : St),
      listloop kp forvar body n vals st = .ret st2 → R st st2 := by
  intro vals
  induction vals with
  | nil =>
    intro st st2 h
    simp only [listloop, Outcome.ret.injEq] at h
    exact hemap st st2 (by rw [h])
  | cons v vs ih =>
    intro st st2 h
    simp only [listloop] at h
    cases hd : evalbody kp forvar .quoted v n body st with
    | panic => simp [hd] at h
    | nofuel => simp [hd] at h
    | ret st1 =>
      simp only [hd] at h
      exact htrans st st1 st2
        (evalbody_rel R hemap htrans kp forvar .quoted v n body (hkp v) st st1 hd)
        (ih st1 st2 h)

/-- The numeric loop preserves such a relation. -/
theorem numloopRun_rel {F : Type} (L : Lib F) (R : St → St → Prop)
    (hemap : ∀ a b : St, b.emap = a.emap → R a b)
    (htrans : ∀ a b c : St, R a b → R b c → R a c) (kp : KP) (forvar : String)
    (body : List (List String)) (n : Nat) (en incr : F)
    (hkp : ∀ (x : F) (st1 : St), ∀ fb ∈ body, ∀ e st2,
      kp st1 (substFor forvar .plain (L.ftoa x) fb) "" n = .ret (e, st2) → R st1 st2) :
    ∀ (fuel : Nat) (v : F) (st st2 : St),
      numloopRun L kp forvar body n en incr fuel v st = .ret st2 → R st st2 := by
  intro fuel
  induction fuel with
  | zero => intro v st st2 h; simp [numloopRun] at h
  | succ k ih =>
    intro v st st2 h
    rw [numloopRun] at h
    by_cases hle : L.le v en = true
    · simp only [hle, if_true] at h
      cases hd : evalbody kp forvar .plain (L.ftoa v) n body st with
      | panic => simp [hd] at h
      | nofuel => simp [hd] at h
      | ret st1 =>
        simp only [hd] at h
        exact htrans st st1 st2
          (evalbody_rel R hemap htrans kp forvar .plain (L.ftoa v) n body (hkp v) st st1 hd)
          (ih (L.add v incr) st1 st2 h)
    · simp only [hle, Bool.false_eq_true, if_false, Outcome.ret.injEq] at h
      exact hemap st st2 (by rw [h])

/-- A loop preserves a relation that the dispatch of every replayed record preserves. -/
theorem parsefor_rel {F : Type} (L : Lib F) (R : St → St → Prop)
    (hemap : ∀ a b : St, b.emap = a.emap → R a b)
    (htrans : ∀ a b c : St, R a b → R b c → R a c) (kp : KP) (fuel : Nat) (st : St)
    (s : List String) (n : Nat) (lines : List String) (forvar : String)
    (hv : s[1]? = some forvar)
    (hq : ∀ (v : String) (st1 : St), ∀ fb ∈ (forbody L st.emap lines).1, ∀ e st2,
      kp st1 (substFor forvar .quoted v fb) "" n = .ret (e, st2) → R st1 st2)
    (hp : ∀ (x : F) (st1 : St), ∀ fb ∈ (forbody L st.emap lines).1, ∀ e st2,
      kp st1 (substFor forvar .plain (L.ftoa x) fb) "" n = .ret (e, st2) → R st1 st2)
    (e : Error) (st2 : St) (rest : List String)
    (h : parsefor L kp fuel st s n lines = .ret (e, st2, rest)) : R st st2 := by
  simp only [parsefor, hv] at h
  split at h
  · split at h
    · simp only [Outcome.ret.injEq, Prod.mk.injEq] at h
      exact hemap st st2 (by rw [← h.2.1])
    · split at h
      · rename_i hrun
        simp only [Outcome.ret.injEq, Prod.mk.injEq] at h
        rw [← h.2.1]
        exact numloopRun_rel L R hemap htrans kp forvar _ n _ _ hp fuel _ st _ hrun
      · simp at h
      · simp at h
  · split at h
    · simp only [Outcome.ret.injEq, Prod.mk.injEq] at h
      exact hemap st st2 (by rw [← h.2.1])
    · split at h
      · rename_i hrun
        simp only [Outcome.ret.injEq, Prod.mk.injEq] at h
        rw [← h.2.1]
        exact listloop_rel R hemap htrans kp forvar _ n hq _ st _ hrun
      · simp at h
      · simp at h
  · split at h
    · simp at h
    · simp at h
    · simp only [Outcome.ret.injEq, Prod.mk.injEq] at h
      exact hemap st st2 (by rw [← h.2.1])
    · split at h
      · rename_i hrun
        simp only [Outcome.ret.injEq, Prod.mk.injEq] at h
        rw [← h.2.1]
        exact listloop_rel R hemap htrans kp forvar _ n hq _ st _ hrun
      · simp at h
      · simp at h
  · simp only [Outcome.ret.injEq, Prod.mk.injEq] at h
    exact hemap st st2 (by rw [← h.2.1])

/-- The loop of grid preserves a relation that every dispatch preserves. -/
theorem gridloop_rel {F : Type} (L : Lib F) (R : St → St → Prop)
    (hemap : ∀ a b : St, b.emap = a.emap → R a b)
    (htrans : ∀ a b c : St, R a b → R b c → R a c) (kp : KP) (n : Nat)
    (x yint xint limit : F)
    (hkp : ∀ (st1 : St) (r : List String) (t : String) (e : Error) (st2 : St),
      kp st1 r t n = .ret (e, st2) → R st1 st2) :
    ∀ (lines : List String) (xp yp : F) (st st2 : St),
      gridloop L kp n x yint xint limit lines xp yp st = .ret st2 → R st st2 := by
  intro lines
  induction lines with
  | nil =>
    intro xp yp st st2 h
    simp only [gridloop, Outcome.ret.injEq] at h
    exact hemap st st2 (by rw [h])
  | cons t rest ih =>
    intro xp yp st st2 h
    simp only [gridloop] at h
    by_cases ht : t.length = 0
    · simp only [ht, if_true] at h
      exact ih _ _ st st2 h
    · simp only [ht, if_false] at h
      split at h
      · rename_i e st1 hd
        exact htrans st st1 st2 (hkp st _ t e st1 hd) (ih _ _ st1 st2 h)
      · simp at h
      · simp at h

/-- The handler grid preserves a relation that every dispatch preserves. -/
theorem grid_rel {F : Type} (L : Lib F) (R : St → St → Prop)
    (hemap : ∀ a b : St, b.emap = a.emap → R a b)
    (htrans : ∀ a b c : St, R a b → R b c → R a c) (kp : KP) (st : St) (s : List String)
    (n : Nat)
    (hkp : ∀ (st1 : St) (r : List String) (t : String) (e : Error) (st2 : St),
      kp st1 r t n = .ret (e, st2) → R st1 st2)
    (e : Error) (st2 : St) (h : grid L kp st s n = .ret (e, st2)) : R st st2 := by
  simp only [grid] at h
  repeat' split at h
  all_goals try (simp only [Outcome.ret.injEq, Prod.mk.injEq, reduceCtorEq] at h)
  all_goals first
    | (obtain ⟨_, rfl⟩ := h; exact hemap _ _ rfl)
    | (obtain ⟨_, rfl⟩ := h
       exact gridloop_rel L R hemap htrans kp n _ _ _ _ hkp _ _ _ st _ (by assumption))

/-- The handler include preserves a relation that compiling a file preserves. -/
theorem includeFile_rel {F : Type} (L : Lib F) (R : St → St → Prop)
    (hemap : ∀ a b : St, b.emap = a.emap → R a b) (proc : PROC) (st : St) (s : List String)
    (n : Nat)
    (hproc : ∀ (st1 : St) (r : Src) (e : Error) (st2 : St), proc st1 r = .ret (e, st2) → R st1 st2)
    (e : Error) (st2 : St) (h : includeFile L proc st s n = .ret (e, st2)) : R st st2 := by
  simp only [includeFile] at h
  repeat' split at h
  all_goals try (simp only [Outcome.ret.injEq, Prod.mk.injEq, reduceCtorEq] at h)
  all_goals first
    | (obtain ⟨_, rfl⟩ := h; exact hemap _ _ rfl)
    | exact hproc st _ e st2 h

/-- The directive data leaves the store as it is. -/
theorem loadata_emap {F : Type} (L : Lib F) (st : St) (s : List String) (n : Nat)
    (lines : List String) : (loadata L st s n lines).2.1.emap = st.emap := by
  simp only [loadata]
  repeat' split
  all_goals rfl

/-- One pass of the main loop preserves a relation that every dispatch preserves. -/
theorem lineStep_rel {F : Type} (L : Lib F) (R : St → St → Prop)
    (hemap : ∀ a b : St, b.emap = a.emap → R a b)
    (htrans : ∀ a b c : St, R a b → R b c → R a c) (kp : KP) (fuel : Nat)
    (hkp : ∀ (st1 : St) (r : List String) (t : String) (n : Nat) (e : Error) (st2 : St),
      kp st1 r t n = .ret (e, st2) → R st1 st2)
    (st : St) (t : String) (rest : List String) (n : Nat) (errs : List Error) (st1 : St)
    (rest1 : List String) (h : lineStep L kp fuel st t rest n = .ret (errs, st1, rest1)) :
    R st st1 := by
  simp only [lineStep] at h
  split at h
  · simp only [Outcome.ret.injEq, Prod.mk.injEq] at h
    exact hemap st st1 (by rw [← h.2.1])
  · split at h
    · simp at h
    · split at h
      · simp only [Outcome.ret.injEq, Prod.mk.injEq] at h
        exact hemap st st1 (by rw [← h.2.1])
      · split at h
        · simp at h
        · simp at h
        · rename_i tok0 toks _ _ _ _ errs1 st2 rest2 hfor
          have h2 : R st st2 := by
            split at hfor
            · split at hfor
              · rename_i e0 s0 r0 hp
                simp only [Outcome.ret.injEq, Prod.mk.injEq] at hfor
                rw [← hfor.2.1]
                cases hv : (tok0 :: toks)[1]? with
                | none => simp [parsefor, hv] at hp
                | some forvar =>
                  exact parsefor_rel L R hemap htrans kp fuel st _ n rest forvar hv
                    (fun v s1 fb _ e2 s2 hd => hkp s1 _ "" n e2 s2 hd)
                    (fun x s1 fb _ e2 s2 hd => hkp s1 _ "" n e2 s2 hd) _ _ _ hp
              · simp at hfor
              · simp at hfor
            · simp only [Outcome.ret.injEq, Prod.mk.injEq] at hfor
              exact hemap st st2 (by rw [← hfor.2.1])
          split at h
          · simp at h
          · simp at h
          · rename_i e3 st3 hd
            simp only [Outcome.ret.injEq, Prod.mk.injEq] at h
            rw [← h.2.1]
            refine htrans st st2 st3 h2 ?_
            split at hd
            · exact htrans st2 _ st3 (hemap st2 _ (loadata_emap L st2 _ n rest2))
                (hkp _ _ t n e3 st3 hd)
            · exact hkp _ _ t n e3 st3 hd

/-- The main loop preserves a relation that every dispatch preserves. -/
theorem mainloop_rel {F : Type} (L : Lib F) (R : St → St → Prop)
    (hemap : ∀ a b : St, b.emap = a.emap → R a b)
    (htrans : ∀ a b c : St, R a b → R b c → R a c) (kp : KP) (fuel : Nat)
    (hkp : ∀ (st1 : St) (r : List String) (t : String) (n : Nat) (e : Error) (st2 : St),
      kp st1 r t n = .ret (e, st2) → R st1 st2) :
    ∀ (gas : Nat) (st : St) (lines : List String) (n : Nat) (errors errs2 : List Error)
      (st2 : St), mainloop L kp fuel gas st lines n errors = .ret (errs2, st2) → R st st2 := by
  intro gas
  induction gas with
  | zero =>
    intro st lines n errors errs2 st2 h
    cases lines with
    | nil =>
      simp only [mainloop, Outcome.ret.injEq, Prod.mk.injEq] at h
      exact hemap st st2 (by rw [← h.2])
    | cons t rest => simp [mainloop] at h
  | succ g ih =>
    intro st lines n errors errs2 st2 h
    cases lines with
    | nil =>
      simp only [mainloop, Outcome.ret.injEq, Prod.mk.injEq] at h
      exact hemap st st2 (by rw [← h.2])
    | cons t rest =>
      simp only [mainloop] at h
      cases hs : lineStep L kp fuel st t rest n with
      | panic => simp [hs] at h
      | nofuel => simp [hs] at h
      | ret r =>
        obtain ⟨errs, st1, rest1⟩ := r
        simp only [hs] at h
        exact htrans st st1 st2
          (lineStep_rel L R hemap htrans kp fuel hkp st t rest n errs st1 rest1 hs)
          (ih st1 rest1 (n + 1) _ errs2 st2 h)

/-- Compiling an input preserves a relation that every dispatch preserves. -/
theorem processWith_rel {F : Type} (L : Lib F) (R : St → St → Prop)
    (hemap : ∀ a b : St, b.emap = a.emap → R a b)
    (htrans : ∀ a b c : St, R a b → R b c → R a c) (kp : KP) (fuel : Nat)
    (hkp : ∀ (st1 : St) (r : List String) (t : String) (n : Nat) (e : Error) (st2 : St),
      kp st1 r t n = .ret (e, st2) → R st1 st2)
    (st : St) (r : Src) (e : Error) (st2 : St)
    (h : processWith L kp fuel st r = .ret (e, st2)) : R st st2 := by
  simp only [processWith] at h
  cases hm : mainloop L kp fuel r.lines.length st r.lines 1 [] with
  | panic => simp [hm] at h
  | nofuel => simp [hm] at h
  | ret x =>
    obtain ⟨errors, st1⟩ := x
    have h1 := mainloop_rel L R hemap htrans kp fuel hkp _ st r.lines 1 [] errors st1 hm
    simp only [hm] at h
    have h2 : st2.emap = st1.emap := by
      repeat' split at h
      all_goals try (simp only [Outcome.ret.injEq, Prod.mk.injEq, reduceCtorEq] at h)
      all_goals (rw [← h.2])
    exact htrans st st1 st2 h1 (hemap st1 st2 h2)

/-! ## No key is lost -/

/-- States with the same store have the same keys. -/
theorem keysKept_of_emap (a b : St) (h : b.emap = a.emap) : KeysKept a b := by
  intro k hk
  rw [h]
  exact hk

/-- Keeping the keys is transitive. -/
theorem keysKept_trans (a b c : St) (h1 : KeysKept a b) (h2 : KeysKept b c) : KeysKept a c :=
  fun k hk => h2 k (h1 k hk)

/-- A map write keeps every key. -/
theorem Store.keys_set (m : Store) (k v : String) : ∀ x ∈ m.keys, x ∈ (m.set k v).keys := by
  induction m with
  | nil => intro x hx; simp [Store.keys] at hx
  | cons p rest ih =>
    obtain ⟨k0, v0⟩ := p
    intro x hx
    simp only [Store.keys, List.map_cons, List.mem_cons] at hx
    by_cases h : k0 = k
    · simp only [Store.set, h, if_true, Store.keys, List.map_cons, List.mem_cons]
      rw [h] at hx
      exact hx
    · simp only [Store.set, h, if_false, Store.keys, List.map_cons, List.mem_cons]
      rcases hx with hx | hx
      · exact Or.inl hx
      · exact Or.inr (ih x hx)

/-- An assignment keeps every key. -/
theorem keysKept_setVar (st : St) (k v : String) : KeysKept st (st.setVar k v) :=
  fun x hx => Store.keys_set st.emap k v x hx

/-- A simple assignment loses no key. -/
theorem simpleassign_keys (st : St) (s : List String) (n : Nat) (e : Error) (st2 : St)
    (h : simpleassign st s n = .ret (e, st2)) : KeysKept st st2 := by
  simp only [simpleassign] at h
  repeat' split at h
  all_goals try (simp only [Outcome.ret.injEq, Prod.mk.injEq, reduceCtorEq] at h)
  all_goals first
    | (obtain ⟨_, rfl⟩ := h; exact keysKept_of_emap _ _ rfl)
    | (obtain ⟨_, rfl⟩ := h; exact keysKept_setVar _ _ _)

/-- A binary-operation assignment loses no key. -/
theorem binop_keys {F : Type} (L : Lib F) (st : St) (s : List String) (n : Nat) (e : Error)
    (st2 : St) (h : binop L st s n = .ret (e, st2)) : KeysKept st st2 := by
  simp only [binop] at h
  repeat' split at h
  all_goals try (simp only [Outcome.ret.injEq, Prod.mk.injEq, reduceCtorEq] at h)
  all_goals first
    | (obtain ⟨_, rfl⟩ := h; exact keysKept_of_emap _ _ rfl)
    | (obtain ⟨_, rfl⟩ := h; exact keysKept_setVar _ _ _)

/-- A compound assignment loses no key. -/
theorem assignop_keys {F : Type} (L : Lib F) (st : St) (s : List String) (n : Nat) (e : Error)
    (st2 : St) (h : assignop L st s n = .ret (e, st2)) : KeysKept st st2 := by
  simp only [assignop] at h
  repeat' split at h
  all_goals try (simp only [Outcome.ret.injEq, Prod.mk.injEq, reduceCtorEq] at h)
  all_goals first
    | (obtain ⟨_, rfl⟩ := h; exact keysKept_of_emap _ _ rfl)
    | (obtain ⟨_, rfl⟩ := h; exact keysKept_setVar _ _ _)

/-- A polar assignment loses no key. -/
theorem polarfunc_keys {F : Type} (L : Lib F) (st : St) (s : List String) (n : Nat) (e : Error)
    (st2 : St) (h : polarfunc L st s n = .ret (e, st2)) : KeysKept st st2 := by
  simp only [polarfunc] at h
  repeat' split at h
  all_goals try (simp only [Outcome.ret.injEq, Prod.mk.injEq, reduceCtorEq] at h)
  all_goals first
    | (obtain ⟨_, rfl⟩ := h; exact keysKept_of_emap _ _ rfl)
    | (obtain ⟨_, rfl⟩ := h; exact keysKept_setVar _ _ _)

/-- A random assignment loses no key. -/
theorem random_keys {F : Type} (L : Lib F) (st : St) (s : List String) (n : Nat) (e : Error)
    (st2 : St) (h : random L st s n = .ret (e, st2)) : KeysKept st st2 := by
  simp only [random] at h
  repeat' split at h
  all_goals try (simp only [Outcome.ret.injEq, Prod.mk.injEq, reduceCtorEq] at h)
  all_goals first
    | (obtain ⟨_, rfl⟩ := h; exact keysKept_of_emap _ _ rfl)
    | (obtain ⟨_, rfl⟩ := h; exact keysKept_setVar _ _ _)

/-- A range-map assignment loses no key. -/
theorem vmapfunc_keys {F : Type} (L : Lib F) (st : St) (s : List String) (n : Nat) (e : Error)
    (st2 : St) (h : vmapfunc L st s n = .ret (e, st2)) : KeysKept st st2 := by
  simp only [vmapfunc] at h
  repeat' split at h
  all_goals try (simp only [Outcome.ret.injEq, Prod.mk.injEq, reduceCtorEq] at h)
  all_goals first
    | (obtain ⟨_, rfl⟩ := h; exact keysKept_of_emap _ _ rfl)
    | (obtain ⟨_, rfl⟩ := h; exact keysKept_setVar _ _ _)

/-- An assignment of any shape loses no key. -/
theorem assign_keys {F : Type} (L : Lib F) (st : St) (s : List String) (n : Nat) (e : Error)
    (st2 : St) (h : assign L st s n = .ret (e, st2)) : KeysKept st st2 := by
  simp only [assign] at h
  split at h
  · exact simpleassign_keys st s n e st2 h
  · split at h
    · split at h
      · exact random_keys L st s n e st2 h
      · exact binop_keys L st s n e st2 h
    · split at h
      · exact polarfunc_keys L st s n e st2 h
      · split at h
        · exact vmapfunc_keys L st s n e st2 h
        · simp only [Outcome.ret.injEq, Prod.mk.injEq] at h
          obtain ⟨_, rfl⟩ := h
          exact keysKept_of_emap _ _ rfl

/-- The default case of the switch loses no key. -/
theorem keyparseDefault_keys {F : Type} (L : Lib F) (st : St) (s : List String) (n : Nat)
    (e : Error) (st2 : St) (h : keyparseDefault L st s n = .ret (e, st2)) : KeysKept st st2 := by
  simp only [keyparseDefault] at h
  split at h
  · exact assign_keys L st s n e st2 h
  · split at h
    · exact assignop_keys L st s n e st2 h
    · simp only [Outcome.ret.injEq, Prod.mk.injEq] at h
      obtain ⟨_, rfl⟩ := h
      exact keysKept_of_emap _ _ rfl

/-- The switch of keyparse loses no key when the dispatcher and the compiler it calls back
lose none. -/
theorem keyparseStep_keys {F : Type} (L : Lib F) (kp : KP) (proc : PROC)
    (hkp : ∀ (st1 : St) (r : List String) (t : String) (n : Nat) (e : Error) (st2 : St),
      kp st1 r t n = .ret (e, st2) → KeysKept st1 st2)
    (hproc : ∀ (st1 : St) (r : Src) (e : Error) (st2 : St),
      proc st1 r = .ret (e, st2) → KeysKept st1 st2)
    (st : St) (tokens : List String) (t : String) (n : Nat) (e : Error) (st2 : St)
    (h : keyparseStep L kp proc st tokens t n = .ret (e, st2)) : KeysKept st st2 := by
  cases tokens with
  | nil => simp [keyparseStep] at h
  | cons k rest =>
    by_cases hi : k = "include"
    · subst hi
      rw [keyparseStep_include] at h
      exact includeFile_rel L KeysKept keysKept_of_emap proc st _ n hproc e st2 h
    · by_cases hg : k = "grid"
      · subst hg
        rw [keyparseStep_grid] at h
        exact grid_rel L KeysKept keysKept_of_emap keysKept_trans kp st _ n
          (fun s1 r t1 e1 s2 hd => hkp s1 r t1 n e1 s2 hd) e st2 h
      · by_cases hk : k ∈ keywords
        · exact keysKept_of_emap _ _
            (keyparseStep_keepsStore L kp proc st k rest t n hk hi hg e st2 h)
        · rw [keyparseStep_default L kp proc st k rest t n hk] at h
          exact keyparseDefault_keys L st _ n e st2 h

/-- With any amount of fuel, neither the dispatcher nor the compiler loses a key. -/
theorem sem_keys {F : Type} (L : Lib F) :
    ∀ fuel : Nat,
      (∀ (st1 : St) (r : List String) (t : String) (n : Nat) (e : Error) (st2 : St),
        keyparse L fuel st1 r t n = .ret (e, st2) → KeysKept st1 st2) ∧
      (∀ (st1 : St) (r : Src) (e : Error) (st2 : St),
        process L fuel st1 r = .ret (e, st2) → KeysKept st1 st2) := by
  intro fuel
  induction fuel with
  | zero =>
    constructor
    · intro st1 r t n e st2 h
      simp [keyparse_zero] at h
    · intro st1 r e st2 h
      simp [process_zero] at h
  | succ k ih =>
    have hk : ∀ (st1 : St) (r : List String) (t : String) (n : Nat) (e : Error) (st2 : St),
        keyparse L (k + 1) st1 r t n = .ret (e, st2) → KeysKept st1 st2 := by
      intro st1 r t n e st2 h
      rw [keyparse_succ] at h
      exact keyparseStep_keys L _ _ ih.1 ih.2 st1 r t n e st2 h
    refine ⟨hk, ?_⟩
    intro st1 r e st2 h
    rw [process_succ] at h
    exact processWith_rel L KeysKept keysKept_of_emap keysKept_trans _ _ hk st1 r e st2 h

/-- C33: the store is a frame for the markup directives and never shrinks: for a record whose
first token is a keyword other than include and grid, whatever the other tokens, a keyparse
that returns leaves the store as it was; and after any keyparse call that returns, every key
present before is still present. -/
theorem store_frame {F : Type} (L : Lib F) (fuel : Nat) (st : St) (e : Error) (st2 : St) :
    (∀ (k : String) (rest : List String) (t : String) (n : Nat),
      k ∈ keywords → k ≠ "include" → k ≠ "grid" →
      keyparse L (fuel + 1) st (k :: rest) t n = .ret (e, st2) → st2.emap = st.emap) ∧
    (∀ (tokens : List String) (t : String) (n : Nat),
      keyparse L fuel st tokens t n = .ret (e, st2) →
      ∀ key ∈ st.emap.keys, key ∈ st2.emap.keys) := by
  constructor
  · intro k rest t n hk hi hg h
    rw [keyparse_succ] at h
    exact keyparseStep_keepsStore L _ _ st k rest t n hk hi hg e st2 h
  · intro tokens t n h
    exact (sem_keys L fuel).1 st tokens t n e st2 h

/-- Witness of C33: the record deck = 5 is the deck directive, not an assignment, and leaves a
store that binds w as it was. -/
theorem store_frame_witness :
    (((St.init []).setVar "w" "100").write "<deck>\n").emap = ((St.init []).setVar "w" "100").emap :=
  (store_frame exactLib 0 ((St.init []).setVar "w" "100") none
    (((St.init []).setVar "w" "100").write "<deck>\n")).1 "deck" ["=", "5"] "deck = 5" 1
    (by decide) (by decide) (by decide) (by decide)

/-! ## Loops and the store -/

/-- A record on which isaop holds has the shape of a compound assignment. -/
theorem isaop_shape (r : List String) (h : isaop r = true) :
    4 ≤ r.length ∧
    (r[1]? = some "+" ∨ r[1]? = some "-" ∨ r[1]? = some "*" ∨ r[1]? = some "/") ∧
    r[2]? = some "=" := by
  match r, h with
  | a :: op :: s2 :: b :: rest, h =>
    simp only [isaop, decide_eq_true_eq] at h
    refine ⟨by simp, ?_, by simpa using h.2⟩
    simpa using h.1

/-- What makes a record plain, token by token. -/
theorem plainRecord_iff (r : List String) :
    plainRecord r = true ↔
      (∀ k ∈ nestingKeywords, r[0]? ≠ some k) ∧ r[1]? ≠ some "=" ∧ isaop r = false := by
  simp only [plainRecord, Bool.and_eq_true, decide_eq_true_eq, Bool.not_eq_true',
    List.mem_map, not_exists, not_and]
  constructor
  · rintro ⟨⟨h0, h1⟩, h2⟩
    exact ⟨fun k hk he => h0 k hk he.symm, h1, h2⟩
  · rintro ⟨h0, h1, h2⟩
    exact ⟨⟨fun k hk he => h0 k hk he.symm, h1⟩, h2⟩

/-- Replacing a token by a value that is not reserved keeps a record plain. -/
theorem plainRecord_subst (fb : List String) (forvar w : String) (hw : w ∉ reservedTokens)
    (h : plainRecord fb = true) :
    plainRecord (fb.map (fun tok => if tok = forvar then w else tok)) = true := by
  have hg : ∀ (tok s : String), s ∈ reservedTokens →
      (if tok = forvar then w else tok) = s → tok = s := by
    intro tok s hs he
    by_cases ht : tok = forvar
    · rw [if_pos ht] at he
      exact absurd (he ▸ hs) hw
    · rw [if_neg ht] at he
      exact he
  have hget : ∀ (i : Nat) (s : String), s ∈ reservedTokens →
      (fb.map (fun tok => if tok = forvar then w else tok))[i]? = some s → fb[i]? = some s := by
    intro i s hs he
    rw [List.getElem?_map] at he
    cases hf : fb[i]? with
    | none => simp [hf] at he
    | some tok =>
      simp only [hf, Option.map_some', Option.some.injEq] at he
      rw [hg tok s hs he]
  obtain ⟨h0, h1, h2⟩ := (plainRecord_iff fb).1 h
  refine (plainRecord_iff _).2 ⟨fun k hk he => ?_, fun he => ?_, ?_⟩
  · have hk2 : k ∈ reservedTokens := by
      simp only [nestingKeywords, List.mem_cons, List.mem_singleton, List.not_mem_nil,
        or_false] at hk
      rcases hk with rfl | rfl | rfl | rfl <;> decide
    exact h0 k hk (hget 0 k hk2 he)
  · exact h1 (hget 1 "=" (by decide) he)
  · cases hi : isaop (fb.map (fun tok => if tok = forvar then w else tok)) with
    | false => rfl
    | true =>
      exfalso
      obtain ⟨hlen, hop, heq⟩ := isaop_shape _ hi
      have hlen2 : 4 ≤ fb.length := by simpa using hlen
      have heq2 := hget 2 "=" (by decide) heq
      have hop2 : fb[1]? = some "+" ∨ fb[1]? = some "-" ∨ fb[1]? = some "*" ∨ fb[1]? = some "/" := by
        rcases hop with hp | hp | hp | hp
        · exact Or.inl (hget 1 "+" (by decide) hp)
        · exact Or.inr (Or.inl (hget 1 "-" (by decide) hp))
        · exact Or.inr (Or.inr (Or.inl (hget 1 "*" (by decide) hp)))
        · exact Or.inr (Or.inr (Or.inr (hget 1 "/" (by decide) hp)))
      match fb, hlen2, heq2, hop2, h2 with
      | a :: op :: s2 :: b :: rest, _, heq2, hop2, h2 =>
        simp only [isaop, decide_eq_false_iff_not] at h2
        have hop3 : op = "+" ∨ op = "-" ∨ op = "*" ∨ op = "/" := by simpa using hop2
        have heq3 : s2 = "=" := by simpa using heq2
        exact h2 ⟨hop3, heq3⟩

/-- A value between double quotes is not a reserved token. -/
theorem quoted_not_reserved (v : String) : Format.quoted.sprintf v ∉ reservedTokens := by
  have hd : (Format.quoted.sprintf v).data = doublequote :: (v.data ++ [doublequote]) := rfl
  intro hm
  simp only [reservedTokens, List.mem_cons, List.mem_singleton, List.not_mem_nil, or_false] at hm
  rcases hm with h | h | h | h | h | h | h | h | h <;>
  · have h2 := congrArg String.data h
    rw [hd] at h2
    simp only [List.cons.injEq] at h2
    exact absurd h2.1 (by decide)

/-- Dispatch of a plain record keeps the store. -/
theorem keyparse_plainRecord {F : Type} (L : Lib F) (fuel : Nat) (st : St) (r : List String)
    (t : String) (n : Nat) (e : Error) (st2 : St) (hr : plainRecord r = true)
    (h : keyparse L (fuel + 1) st r t n = .ret (e, st2)) : st2.emap = st.emap := by
  obtain ⟨h0, h1, h2⟩ := (plainRecord_iff r).1 hr
  rw [keyparse_succ] at h
  cases r with
  | nil => simp [keyparseStep] at h
  | cons k rest =>
    have hi : k ≠ "include" := fun hk => h0 "include" (by decide) (by simp [hk])
    have hg : k ≠ "grid" := fun hk => h0 "grid" (by decide) (by simp [hk])
    by_cases hk : k ∈ keywords
    · exact keyparseStep_keepsStore L _ _ st k rest t n hk hi hg e st2 h
    · rw [keyparseStep_default L _ _ st k rest t n hk] at h
      simp only [keyparseDefault, h2] at h
      rw [if_neg (fun hc => h1 hc.2)] at h
      simp only [Bool.false_eq_true, if_false, Outcome.ret.injEq, Prod.mk.injEq] at h
      rw [← h.2]

/-! ## The text of a number is not a reserved token -/

/-- The characters of a decimal text are digits. -/
theorem toDigits_isDigit (n : Nat) : ∀ c ∈ Nat.toDigits 10 n, c.isDigit = true := by
  by_cases hn : n = 0
  · subst hn; decide
  · rw [toDigits_eq_digits n (Nat.pos_of_ne_zero hn)]
    intro c hc
    simp only [List.mem_map, List.mem_reverse] at hc
    obtain ⟨d, hd, rfl⟩ := hc
    exact (digitChar_facts d (Nat.digits_lt_base (by norm_num) hd)).1

/-- Stripping zeros leaves characters of the string. -/
theorem stripZeros_mem (xs : List Char) : ∀ c ∈ stripZeros xs, c ∈ xs := by
  intro c hc
  simp only [stripZeros, List.mem_reverse] at hc
  exact List.mem_reverse.1 ((List.dropWhile_sublist _).subset hc)

/-- The first character of a concatenation is that of its first part. -/
theorem data_append_head (s t : String) (c : Char) (cs : List Char) (h : s.data = c :: cs) :
    (s ++ t).data = c :: (cs ++ t.data) := by
  rw [String.data_append, h]
  rfl

/-- The digits and the decimal exponent laid out by the formatting start with a digit. -/
theorem layout_head (ds : List Char) (dp : Int) (hds : ∀ c ∈ ds, c.isDigit = true) :
    ∃ c cs,
      (if dp - 1 < -4 ∨ dp - 1 ≥ 6 then
        (match ds with
          | [] => "0"
          | [d] => String.mk [d]
          | d :: rest => String.mk (d :: '.' :: rest)) ++ "e" ++ (if dp - 1 < 0 then "-" else "+")
          ++ (if (Nat.repr (dp - 1).natAbs).length < 2 then "0" ++ Nat.repr (dp - 1).natAbs
              else Nat.repr (dp - 1).natAbs)
      else if dp ≤ 0 then "0." ++ String.mk (List.replicate (-dp).toNat '0') ++ String.mk ds
      else if (ds.length : Int) ≤ dp then
        String.mk ds ++ String.mk (List.replicate (dp - (ds.length : Int)).toNat '0')
      else String.mk (ds.take dp.toNat) ++ "." ++ String.mk (ds.drop dp.toNat)).data = c :: cs ∧
      c.isDigit = true := by
  by_cases h1 : dp - 1 < -4 ∨ dp - 1 ≥ 6
  · rw [if_pos h1]
    have hm : ∃ c cs, (match ds with
          | [] => "0"
          | [d] => String.mk [d]
          | d :: rest => String.mk (d :: '.' :: rest)).data = c :: cs ∧ c.isDigit = true := by
      match ds, hds with
      | [], _ => exact ⟨'0', [], rfl, by decide⟩
      | [d], h => exact ⟨d, [], rfl, h d (List.mem_singleton.2 rfl)⟩
      | d :: e :: rest, h => exact ⟨d, '.' :: e :: rest, rfl, h d (List.mem_cons_self d _)⟩
    obtain ⟨c, cs, hc, hd⟩ := hm
    exact ⟨c, _, data_append_head _ _ c _ (data_append_head _ _ c _ (data_append_head _ _ c cs hc)), hd⟩
  · rw [if_neg h1]
    by_cases h2 : dp ≤ 0
    · rw [if_pos h2]
      exact ⟨'0', _, data_append_head _ _ '0' _ (data_append_head "0." _ '0' ['.'] rfl), by decide⟩
    · rw [if_neg h2]
      by_cases h3 : (ds.length : Int) ≤ dp
      · rw [if_pos h3]
        cases ds with
        | nil =>
          have hk : (dp - ((([] : List Char).length : Nat) : Int)).toNat
              = (dp - ((([] : List Char).length : Nat) : Int)).toNat - 1 + 1 := by
            simp only [List.length_nil, Nat.cast_zero, sub_zero]
            omega
          rw [hk, List.replicate_succ]
          exact ⟨'0', _, rfl, by decide⟩
        | cons d rest =>
          exact ⟨d, _, data_append_head _ _ d rest rfl, hds d (List.mem_cons_self d rest)⟩
      · rw [if_neg h3]
        cases ds with
        | nil =>
          simp only [List.length_nil, Nat.cast_zero] at h3
          omega
        | cons d rest =>
          have hk : dp.toNat = dp.toNat - 1 + 1 := by omega
          rw [hk, List.take_succ_cons]
          exact ⟨d, _, data_append_head _ _ d _ (data_append_head _ _ d _ rfl),
            hds d (List.mem_cons_self d rest)⟩

/-- The formatting of a non-negative rational starts with a digit. -/
theorem formatAbs_head (a : ℚ) : ∃ c cs, (formatAbs a).data = c :: cs ∧ c.isDigit = true := by
  unfold formatAbs
  by_cases h0 : a = 0
  · rw [if_pos h0]
    exact ⟨'0', [], rfl, by decide⟩
  · rw [if_neg h0]
    exact layout_head _ _ (fun c hc => toDigits_isDigit _ c (stripZeros_mem _ c hc))

/-- The text the concrete library prints for a number is not a reserved token. -/
theorem formatG_not_reserved (x : ℚ) : formatG x ∉ reservedTokens := by
  have hhead : ∃ c cs, (formatG x).data = c :: cs ∧
      (c.isDigit = true ∨ (c = '-' ∧ cs ≠ [])) := by
    unfold formatG
    by_cases hneg : x < 0
    · rw [if_pos hneg]
      obtain ⟨c, cs, hc, _⟩ := formatAbs_head (-x)
      refine ⟨'-', c :: cs, ?_, Or.inr ⟨rfl, by simp⟩⟩
      rw [String.data_append, hc]
      rfl
    · rw [if_neg hneg]
      obtain ⟨c, cs, hc, hd⟩ := formatAbs_head x
      exact ⟨c, cs, hc, Or.inl hd⟩
  obtain ⟨c, cs, hc, hd⟩ := hhead
  intro hm
  simp only [reservedTokens, List.mem_cons, List.mem_singleton, List.not_mem_nil, or_false] at hm
  rcases hm with h | h | h | h | h | h | h | h | h <;>
  · have h2 := congrArg String.data h
    rw [hc] at h2
    simp only [List.cons.injEq] at h2
    rcases hd with hd | hd
    · rw [h2.1] at hd
      exact absurd hd (by decide)
    · first
        | exact absurd (hd.1.symm.trans h2.1) (by decide)
        | exact hd.2 h2.2

/-- C39: the loop engine never writes the store: in a library whose numeric texts are not
reserved tokens, for a loop whose buffered body has no assignment, compound-assignment,
include, grid or chart record, the store after a parsefor that returns is the store at loop
entry, so the loop variable reads after the loop as it did before. -/
theorem loop_keeps_store {F : Type} (L : Lib F) (kfuel fuel : Nat) (st : St) (s : List String)
    (n : Nat) (lines : List String) (forvar : String) (e : Error) (st2 : St)
    (rest : List String) (hv : s[1]? = some forvar)
    (hbody : ∀ fb ∈ (forbody L st.emap lines).1, plainRecord fb = true)
    (hftoa : ∀ x : F, L.ftoa x ∉ reservedTokens)
    (h : parsefor L (keyparse L (kfuel + 1)) fuel st s n lines = .ret (e, st2, rest)) :
    st2.emap = st.emap ∧ eval st2.emap forvar = eval st.emap forvar := by
  have hemap : st2.emap = st.emap :=
    parsefor_rel L (fun a b => b.emap = a.emap) (fun _ _ hab => hab)
      (fun _ _ _ hab hbc => hbc.trans hab) (keyparse L (kfuel + 1)) fuel st s n lines forvar hv
      (fun v st1 fb hfb e2 s2 hd =>
        keyparse_plainRecord L kfuel st1 _ "" n e2 s2
          (plainRecord_subst fb forvar _ (quoted_not_reserved v) (hbody fb hfb)) hd)
      (fun x st1 fb hfb e2 s2 hd =>
        keyparse_plainRecord L kfuel st1 _ "" n e2 s2
          (plainRecord_subst fb forvar _ (hftoa x) (hbody fb hfb)) hd)
      e st2 rest h
  exact ⟨hemap, by rw [hemap]⟩

/-- Witness of C39: the loop for i = 1 3 1 over the body circle i i 5 writes three circles
and leaves the store empty, so i still reads i. -/
theorem loop_keeps_store_witness :
    eval ((St.init []).write ("<ellipse xp=\"1\" yp=\"1\" wp=\"5\" hr=\"100\"/>\n"
        ++ "<ellipse xp=\"2\" yp=\"2\" wp=\"5\" hr=\"100\"/>\n"
        ++ "<ellipse xp=\"3\" yp=\"3\" wp=\"5\" hr=\"100\"/>\n")).emap "i"
      = eval (St.init []).emap "i" :=
  (loop_keeps_store exactLib 0 5 (St.init []) ["for", "i", "=", "1", "3", "1"] 1
    ["circle i i 5", "efor"] "i" none
    ((St.init []).write ("<ellipse xp=\"1\" yp=\"1\" wp=\"5\" hr=\"100\"/>\n"
        ++ "<ellipse xp=\"2\" yp=\"2\" wp=\"5\" hr=\"100\"/>\n"
        ++ "<ellipse xp=\"3\" yp=\"3\" wp=\"5\" hr=\"100\"/>\n")) []
    rfl (by decide) formatG_not_reserved (by with_unfolding_all decide)).2

/-! ## Running sums in binary floating point -/

/-- A numeric loop whose variable passes the test and is not moved by the increment never
returns: it uses up any fuel. -/
theorem numloopRun_stuck {F : Type} (L : Lib F) (kp : KP) (forvar : String)
    (body : List (List String)) (n : Nat) (en incr v : F) (hle : L.le v en = true)
    (hadd : L.add v incr = v)
    (hkp : ∀ st1 : St, ∀ fb ∈ body,
      ∃ e st2, kp st1 (substFor forvar .plain (L.ftoa v) fb) "" n = .ret (e, st2)) :
    ∀ (fuel : Nat) (st : St), numloopRun L kp forvar body n en incr fuel v st = .nofuel := by
  intro fuel
  induction fuel with
  | zero => intro st; rfl
  | succ k ih =>
    intro st
    obtain ⟨st2, h2⟩ := evalbody_returns kp forvar .plain (L.ftoa v) n body hkp st
    rw [numloopRun]
    simp only [hle, if_true, h2, hadd]
    exact ih st2

/-- Counterexample to C12 as first stated, in binary64 arithmetic, where the loop variable is
a running sum.  The header for v = 0 1 0.1 replays the body circle v 50 1 eleven times, and
the values substituted from the ninth replay on are 0.7999999999999999, 0.8999999999999999
and 0.9999999999999999, not the texts of 0.8, 0.9 and 1 (the fourth is
0.30000000000000004).  The header for v = 10000000000000000 10000000000000010 1 never ends,
whatever the fuel: the sum of 10^16 and 1 rounds to 10^16. -/
theorem numeric_loop_running_sum :
    parsefor float64Lib (keyparse float64Lib 1) 12 (St.init []) ["for", "v", "=", "0", "1", "0.1"]
        1 ["circle v 50 1", "efor"]
      = .ret (none, (St.init []).write ("<ellipse xp=\"0\" yp=\"50\" wp=\"1\" hr=\"100\"/>\n"
          ++ "<ellipse xp=\"0.1\" yp=\"50\" wp=\"1\" hr=\"100\"/>\n"
          ++ "<ellipse xp=\"0.2\" yp=\"50\" wp=\"1\" hr=\"100\"/>\n"
          ++ "<ellipse xp=\"0.30000000000000004\" yp=\"50\" wp=\"1\" hr=\"100\"/>\n"
          ++ "<ellipse xp=\"0.4\" yp=\"50\" wp=\"1\" hr=\"100\"/>\n"
          ++ "<ellipse xp=\"0.5\" yp=\"50\" wp=\"1\" hr=\"100\"/>\n"
          ++ "<ellipse xp=\"0.6\" yp=\"50\" wp=\"1\" hr=\"100\"/>\n"
          ++ "<ellipse xp=\"0.7\" yp=\"50\" wp=\"1\" hr=\"100\"/>\n"
          ++ "<ellipse xp=\"0.7999999999999999\" yp=\"50\" wp=\"1\" hr=\"100\"/>\n"
          ++ "<ellipse xp=\"0.8999999999999999\" yp=\"50\" wp=\"1\" hr=\"100\"/>\n"
          ++ "<ellipse xp=\"0.9999999999999999\" yp=\"50\" wp=\"1\" hr=\"100\"/>\n"), []) ∧
    (∀ fuel : Nat,
      parsefor float64Lib (keyparse float64Lib 1) fuel (St.init [])
        ["for", "v", "=", "10000000000000000", "10000000000000010", "1"] 1
        ["circle v 50 1", "efor"] = .nofuel) := by
  refine ⟨by decide!, ?_⟩
  intro fuel
  have hbody : forbody float64Lib (St.init []).emap ["circle v 50 1", "efor"]
      = ([["circle", "v", "50", "1"]], []) := by decide
  have ht : fortype ["for", "v", "=", "10000000000000000", "10000000000000010", "1"]
      = .numloop := by decide
  have hf : fornum float64Lib ["for", "v", "=", "10000000000000000", "10000000000000010", "1"] 1
      = .ok (10000000000000000, 10000000000000010, 1) := by decide!
  have hrun := numloopRun_stuck float64Lib (keyparse float64Lib 1) "v"
    [["circle", "v", "50", "1"]] 1 10000000000000010 1 10000000000000000 (by decide!)
    (by decide!)
    (by
      intro st1 fb hfb
      rw [List.mem_singleton] at hfb
      subst hfb
      exact ⟨_, _, rfl⟩) fuel (St.init [])
  simp only [parsefor, ht, hf, hbody]
  rw [show (["for", "v", "=", "10000000000000000", "10000000000000010", "1"] : List String)[1]?
    = some "v" from rfl]
  simp only [hrun]

/-- Counterexample to C30 as first stated, in binary64 arithmetic, where the abscissa is a
running sum.  With start (0, 50), steps 0.1 and 10 and limit 1, the twelve lines circle x y 1
of the data file are placed at the abscissas 0, 0.1, 0.2, 0.30000000000000004, 0.4, 0.5, 0.6,
0.7, 0.7999999999999999, 0.8999999999999999, 0.9999999999999999 of the first row and at 0 of
the second: the ninth line is not at the text of 0.8, and the eleventh is on the first row at
0.9999999999999999, not at 1. -/
theorem grid_running_sum :
    grid float64Lib (keyparse float64Lib 1)
        (St.init [("g", script (List.replicate 12 "circle x y 1"))])
        ["grid", "\"g\"", "0", "50", "0.1", "10", "1"] 1
      = .ret (none, (St.init [("g", script (List.replicate 12 "circle x y 1"))]).write
          ("<ellipse xp=\"0\" yp=\"50\" wp=\"1\" hr=\"100\"/>\n"
          ++ "<ellipse xp=\"0.1\" yp=\"50\" wp=\"1\" hr=\"100\"/>\n"
          ++ "<ellipse xp=\"0.2\" yp=\"50\" wp=\"1\" hr=\"100\"/>\n"
          ++ "<ellipse xp=\"0.30000000000000004\" yp=\"50\" wp=\"1\" hr=\"100\"/>\n"
          ++ "<ellipse xp=\"0.4\" yp=\"50\" wp=\"1\" hr=\"100\"/>\n"
          ++ "<ellipse xp=\"0.5\" yp=\"50\" wp=\"1\" hr=\"100\"/>\n"
          ++ "<ellipse xp=\"0.6\" yp=\"50\" wp=\"1\" hr=\"100\"/>\n"
          ++ "<ellipse xp=\"0.7\" yp=\"50\" wp=\"1\" hr=\"100\"/>\n"
          ++ "<ellipse xp=\"0.7999999999999999\" yp=\"50\" wp=\"1\" hr=\"100\"/>\n"
          ++ "<ellipse xp=\"0.8999999999999999\" yp=\"50\" wp=\"1\" hr=\"100\"/>\n"
          ++ "<ellipse xp=\"0.9999999999999999\" yp=\"50\" wp=\"1\" hr=\"100\"/>\n"
          ++ "<ellipse xp=\"0\" yp=\"40\" wp=\"1\" hr=\"100\"/>\n")) := by
  decide!

end Decksh
